import Mathlib

/-!
SNEX JIT syntax tree operations (`hi_snex/snex_jit/snex_jit_Operations.h`).

A shallow embedding of the statement nodes of the SNEX JIT compiler and of the
pass-specific logic of their `process` methods.

* The syntax tree is a rose tree `Stmt`; a node is addressed by the path of child
  indices that leads to it from the root, which plays the role of the node pointer
  (two pointers are equal iff the paths are equal).
* `throwError` is the `Except.error` of `CompileError.thrown`; dereferencing a null
  pointer is `CompileError.nullPointer`.
* Classes that the header uses and that are declared in other files (the `Statement`
  base class, `TypeInfo`, `Symbol`, `VariableStorage`, `SyntaxTreeWalker`, the pass
  enumeration) are modelled from the specification or passed in as parameters; each such
  definition says so.
-/

namespace snex
namespace jit

/-! ## Types, symbols, constants -/

/-- Modelled from the spec: `Types::ID`, the primitive scalar kinds of the type model
("primitive scalar kinds, complex type, void"); `Dynamic` is the not yet resolved type
and `Pointer` is what a complex type reports as its native kind. -/
inductive Types.ID where
  | Void
  | Pointer
  | Float
  | Double
  | Integer
  | Block
  | Dynamic
  deriving DecidableEq, Repr

/-- Modelled from the spec: `TypeInfo`, "tagged union over primitive scalar kinds, complex
type (struct/array/span/dynamic-array/pointer), void; carries const/reference modifiers".
The complex types are the ones this header asks for with `getTypedIfComplexType`:
`SpanType` (element type and number of elements), `DynType` (element type) and
`StructType`; of the function class of a struct only the two special functions that
`Loop::process` looks up are kept: whether `BeginIterator` is resolved and its return type,
and whether `SizeFunction` is resolved. -/
inductive TypeInfo where
  | native (type : Types.ID) (isConst isRef : Bool)
  | span (elementType : TypeInfo) (numElements : Nat) (isConst isRef : Bool)
  | dyn (elementType : TypeInfo) (isConst isRef : Bool)
  | struct (id : String) (beginResolved : Bool) (beginReturnType : TypeInfo)
      (sizeResolved : Bool) (isConst isRef : Bool)
  deriving DecidableEq, Repr

namespace TypeInfo

/-- Modelled from the spec: the default constructed `TypeInfo` (written `{}` in the
source), the unresolved, dynamic type. -/
def invalid : TypeInfo := .native .Dynamic false false

/-- Modelled from the spec: `TypeInfo(Types::ID)`, a native type without modifiers. -/
def ofID (t : Types.ID) : TypeInfo := .native t false false

/-- Modelled from the spec: `TypeInfo::getType()`; a complex type is a `Pointer`. -/
def getType : TypeInfo → Types.ID
  | .native t _ _ => t
  | _ => .Pointer

/-- Modelled from the spec: `TypeInfo::isDynamic()`. -/
def isDynamic (t : TypeInfo) : Bool := t.getType == .Dynamic

/-- Modelled from the spec: `TypeInfo::isConst()`. -/
def isConst : TypeInfo → Bool
  | .native _ c _ => c
  | .span _ _ c _ => c
  | .dyn _ c _ => c
  | .struct _ _ _ _ c _ => c

/-- Modelled from the spec: `TypeInfo::isRef()`. -/
def isRef : TypeInfo → Bool
  | .native _ _ r => r
  | .span _ _ _ r => r
  | .dyn _ _ r => r
  | .struct _ _ _ _ _ r => r

/-- Modelled from the spec: `TypeInfo::withModifiers(isConst, isRef)`, the same type with
the given const / reference modifiers. -/
def withModifiers : TypeInfo → Bool → Bool → TypeInfo
  | .native t _ _, c, r => .native t c r
  | .span e n _ _, c, r => .span e n c r
  | .dyn e _ _, c, r => .dyn e c r
  | .struct i b bt s _ _, c, r => .struct i b bt s c r

/-- Modelled from the spec: `TypeInfo::operator==(const TypeInfo&)`, "equality is
structural": the same native kind or the same complex type. The modifiers are not
part of the comparison (a loop iterator `auto&` carries the reference modifier and is
compared with the bare element type of its target). -/
def equals (a b : TypeInfo) : Bool := a.withModifiers false false == b.withModifiers false false

/-- Modelled from the spec: `TypeInfo::operator==(Types::ID)`, comparison of the native
kind. -/
def isID (a : TypeInfo) (t : Types.ID) : Bool := a.getType == t

end TypeInfo

/-- Modelled from the spec: `VariableStorage`, a typed compile-time constant: its type and
the number it stores (an int, float or double value is a rational number). -/
structure VariableStorage where
  type : Types.ID
  value : ℚ
  deriving DecidableEq, Repr

/-- Modelled from the spec: `VariableStorage::toInt()`, the stored number converted to
`int` as C++ converts a number, by dropping its fraction. -/
def VariableStorage.toInt (v : VariableStorage) : Int := v.value.num.tdiv v.value.den

/-- Modelled from the spec: the default constructed `VariableStorage`, a void value. -/
def VariableStorage.void : VariableStorage := ⟨.Void, 0⟩

/-- Modelled from the spec: `VariableStorage::isVoid()`. -/
def VariableStorage.isVoid (v : VariableStorage) : Bool := v.type == .Void

/-- Modelled from the spec: `Symbol`, "qualified name + resolved type + optional
compile-time constant value + resolution flag". -/
structure Symbol where
  id : String
  typeInfo : TypeInfo
  constExprValue : VariableStorage
  resolved : Bool
  deriving DecidableEq, Repr

/-- Modelled from the spec: `Symbol::operator==`, two symbols are the same when their
qualified names are (the type of a symbol changes while it is resolved). -/
def Symbol.same (a b : Symbol) : Bool := a.id == b.id

/-- Modelled from the spec: `Symbol(id, typeInfo)`, a symbol without constant value that is
resolved unless the type is dynamic. -/
def Symbol.ofType (id : String) (t : TypeInfo) : Symbol := ⟨id, t, VariableStorage.void, !t.isDynamic⟩

/-- The token type of `JitTokens` (a C string in the source). -/
abbrev TokenType := String

namespace JitTokens
def assign_ : TokenType := "="
def void_ : TokenType := "void"
def logicalOr : TokenType := "||"
def logicalAnd : TokenType := "&&"
def greaterThan : TokenType := ">"
def lessThan : TokenType := "<"
def lessThanOrEqual : TokenType := "<="
def greaterThanOrEqual : TokenType := ">="
def equals : TokenType := "=="
def notEquals : TokenType := "!="
def plus : TokenType := "+"
def times : TokenType := "*"
def plusEquals : TokenType := "+="
end JitTokens

/-- A source location (`ParserHelpers::CodeLocation`): line and column. -/
structure Location where
  line : Nat
  col : Nat
  deriving DecidableEq, Repr

/-! ## The syntax tree -/

/-- Modelled from the spec: `ArrayStatementBase::ArrayType`, the loop / subscript target
kinds this header assigns ("span", "dyn", custom object) and the undefined one. -/
inductive ArrayType where
  | Undefined
  | Span
  | Dyn
  | CustomObject
  deriving DecidableEq, Repr

/-- A pointer to a node that need not belong to the tree of the node that holds it: the
number of the tree (the trees of a compilation are numbered) and the path of the node. -/
abbrev NodePointer := Nat × List Nat

/-- Modelled from the spec: the children of an `InitialiserList`, of which this header
uses the `ExpressionChild` (it holds the pointer `expression` to a statement); every
other child is a constant value. -/
inductive InitialiserChild where
  | ExpressionChild (expression : NodePointer)
  | ImmediateChild (value : VariableStorage)
  deriving DecidableEq, Repr

/-- The node kinds of `Operations` with the members each struct declares that the
methods below read or write. A pointer to another node (`parentLoop`) is the path of
that node. The member `statements` of a `TemplateDefinition` is kept as the only child
of the node, the member `statements` of a `Function` as its first child (a `Function`
without a child has no statements yet). `InlinedParameter`, whose `clone` is only
declared in this header, is no kind of this type: its `process` is modelled on its own
(`InlinedParameter.process`). -/
inductive Kind where
  | InlinedArgument (argIndex : Int) (s : Symbol)
  | StatementBlock (isInlinedFunction : Bool) (returnType : TypeInfo)
  | Noop
  | Immediate (v : VariableStorage)
  | VariableReference (id : Symbol)
  | Cast (targetType : TypeInfo)
  | DotOperator (resolvedType : TypeInfo)
  | Assignment (assignmentType : TokenType) (isFirstAssignment : Bool)
  | Compare (op : TokenType) (useAsmFlag : Bool)
  | LogicalNot
  | TernaryOp (type : TypeInfo)
  | FunctionCall (functionId : String) (numTemplateParameters : Nat) (returnType : TypeInfo)
      (hasObjectExpression : Bool)
  | ReturnStatement (listReturnType : TypeInfo)
  | BinaryOp (op : TokenType) (usesTempRegister : Bool)
  | Increment (isPreInc isDecrement : Bool)
  | WhileLoop
  | Loop (iterator : Symbol) (loadIterator storeIterator : Bool) (loopTargetType : ArrayType)
  | ControlFlowStatement (isBreak : Bool) (parentLoop : Option (List Nat))
  | Negation
  | IfStatement
  | Subscript (elementType : TypeInfo) (isWriteAccess : Bool) (subscriptType : ArrayType)
      (spanType dynType : Option TypeInfo)
  | ThisPointer (type : TypeInfo)
  | MemoryReference (type : TypeInfo) (offsetInBytes : Int)
  | PointerAccess
  | ClassStatement (classType : String)
  | TemplateDefinition (templateClassId : String)
  | Function (id : String) (returnType : TypeInfo) (numTemplateParameters : Nat)
  | TemplatedFunction (id : String) (returnType : TypeInfo) (isVariadic : Bool)
  | ComplexTypeDefinition (ids : List String) (type : TypeInfo)
      (initValues : Option (List InitialiserChild))
  deriving DecidableEq, Repr

/-- A statement: its location, its kind and its ordered child statements. -/
inductive Stmt where
  | node (location : Location) (kind : Kind) (children : List Stmt)
  deriving Repr

namespace Stmt

def location : Stmt → Location
  | .node l _ _ => l

def kind : Stmt → Kind
  | .node _ k _ => k

def children : Stmt → List Stmt
  | .node _ _ cs => cs

/-- The call `getNumChildStatements()`. -/
def getNumChildStatements (s : Stmt) : Nat := s.children.length

/-- The call `getChildStatement(index)`; out of range is the null pointer. -/
def getChildStatement (s : Stmt) (index : Nat) : Option Stmt := s.children[index]?

end Stmt

/-- Whether the cast of a node of this kind to `Expression` succeeds. In this header
`Expression` and `Statement` are one type: `PointerAccess : public Expression`
initialises `Statement(l)` and `ThisPointer : public Statement` calls
`Expression::toValueTree()`. So the cast succeeds for every node, also for the structs
declared as `public Statement` (`WhileLoop`, `IfStatement`, `ThisPointer`,
`ClassStatement`, `TemplateDefinition`, `Function`, `TemplatedFunction`). -/
def Kind.isExpression (_ : Kind) : Bool := true

/-- Whether a node kind derives from `ConditionalBranch`. -/
def Kind.isConditionalBranch : Kind → Bool
  | .WhileLoop => true
  | .Loop _ _ _ _ => true
  | .IfStatement => true
  | _ => false

namespace Stmt

/-- The call `getSubExpr(index)`: the child statement cast to `Expression` (null when
there is no such child; the cast itself never fails, see `Kind.isExpression`). -/
def getSubExpr (s : Stmt) (index : Nat) : Option Stmt :=
  match s.getChildStatement index with
  | some c => if c.kind.isExpression then some c else none
  | none => none

/-- The virtual `getTypeInfo()` with the overrides of this header. `ReturnStatement`
reports the return type of the statement list that encloses it (found by
`ScopeStatementBase::getStatementListWithReturnType`, kept in the node here);
`FunctionCall::getTypeInfo` is defined in another file and taken to be the return
type of the function. A missing child is the default type. -/
def getTypeInfo : Stmt → TypeInfo
  | .node _ (.InlinedArgument _ _) (c :: _) => c.getTypeInfo
  | .node _ (.StatementBlock _ returnType) _ => returnType
  | .node _ .Noop _ => TypeInfo.invalid
  | .node _ (.Immediate v) _ => .native v.type true false
  | .node _ (.VariableReference id) _ => id.typeInfo
  | .node _ (.Cast targetType) _ => targetType
  | .node _ (.DotOperator resolvedType) cs =>
      if !resolvedType.isDynamic then resolvedType
      else match cs with
        | _ :: c :: _ => c.getTypeInfo
        | _ => TypeInfo.invalid
  | .node _ (.Assignment _ _) (_ :: c :: _) => c.getTypeInfo
  | .node _ (.Compare _ _) _ => TypeInfo.ofID .Integer
  | .node _ .LogicalNot _ => TypeInfo.ofID .Integer
  | .node _ (.TernaryOp type) _ => type
  | .node _ (.FunctionCall _ _ returnType _) _ => returnType
  | .node _ (.ReturnStatement listReturnType) _ => listReturnType
  | .node _ (.BinaryOp _ _) (c :: _) => c.getTypeInfo
  | .node _ (.Increment _ _) (c :: _) => c.getTypeInfo
  | .node _ .WhileLoop _ => TypeInfo.invalid
  | .node _ (.Loop _ _ _ _) _ => TypeInfo.invalid
  | .node _ (.ControlFlowStatement _ _) _ => TypeInfo.invalid
  | .node _ .Negation (c :: _) => c.getTypeInfo
  | .node _ .IfStatement _ => TypeInfo.invalid
  | .node _ (.Subscript elementType _ _ _ _) _ => elementType
  | .node _ (.ThisPointer type) _ => type
  | .node _ (.MemoryReference type _) _ => type
  | .node _ .PointerAccess (c :: _) => c.getTypeInfo
  | .node _ (.Function _ returnType _) _ => returnType
  | .node _ (.ComplexTypeDefinition _ type _) _ => type
  | .node _ _ _ => TypeInfo.invalid

/-- The call `getType()`, the native kind of `getTypeInfo()`. -/
def getType (s : Stmt) : Types.ID := s.getTypeInfo.getType

mutual
/-- The virtual `isConstExpr()`. Overrides of this header: `InlinedArgument` (its
expression), `StatementBlock` (all children), `VariableReference` (a constant value is
attached to the symbol), `ReturnStatement` (void or a constant expression).
Modelled from the spec: the base implementation, which holds for an `Immediate` only. -/
def isConstExpr : Stmt → Bool
  | .node _ (.InlinedArgument _ _) (c :: _) => c.isConstExpr
  | .node _ (.StatementBlock _ _) cs => allConstExpr cs
  | .node _ (.VariableReference id) _ => !id.constExprValue.isVoid
  | .node _ (.ReturnStatement listReturnType) cs =>
      listReturnType.isID .Void ||
        (match cs with
          | c :: _ => c.isConstExpr
          | [] => false)
  | .node _ (.Immediate _) _ => true
  | .node _ _ _ => false
/-- The loop of `StatementBlock::isConstExpr`. -/
def allConstExpr : List Stmt → Bool
  | [] => true
  | c :: cs => c.isConstExpr && allConstExpr cs
end

mutual
/-- The virtual `getConstExprValue()`. Overrides of this header: `InlinedArgument`,
`StatementBlock` (the value of the last child, void for an empty block),
`VariableReference`, `ReturnStatement`. Modelled from the spec: the base
implementation, the value of an `Immediate` and void otherwise. -/
def getConstExprValue : Stmt → VariableStorage
  | .node _ (.InlinedArgument _ _) (c :: _) => c.getConstExprValue
  | .node _ (.StatementBlock _ _) cs => lastConstExprValue cs
  | .node _ (.VariableReference id) _ => id.constExprValue
  | .node _ (.ReturnStatement listReturnType) cs =>
      if listReturnType.isID .Void then ⟨.Void, 0⟩
      else match cs with
        | c :: _ => c.getConstExprValue
        | [] => VariableStorage.void
  | .node _ (.Immediate v) _ => v
  | .node _ _ _ => VariableStorage.void
/-- The value of the last statement of a block (`getSubExpr(numStatements - 1)`). -/
def lastConstExprValue : List Stmt → VariableStorage
  | [] => ⟨.Void, 0⟩
  | [c] => c.getConstExprValue
  | _ :: c :: cs => lastConstExprValue (c :: cs)
end

/-- The virtual `hasSideEffect()`. Overrides of this header: `StatementBlock`
(an inlined function), `Assignment`, `FunctionCall`, `Increment`. Modelled from the
spec: the base implementation, no side effect. -/
def hasSideEffect (s : Stmt) : Bool :=
  match s.kind with
  | .StatementBlock isInlinedFunction _ => isInlinedFunction
  | .Assignment _ _ => true
  | .FunctionCall _ _ _ _ => true
  | .Increment _ _ => true
  | _ => false

end Stmt

/-! ## Paths: node pointers and parent links -/

namespace Stmt

/-- The node at a path of child indices (the dereferenced node pointer). -/
def get? : Stmt → List Nat → Option Stmt
  | s, [] => some s
  | .node _ _ cs, i :: p =>
      match cs[i]? with
      | some c => c.get? p
      | none => none

/-- The tree with the node at a path replaced by its image under `f` (a write through the
node pointer). -/
def modifyAt : Stmt → List Nat → (Stmt → Stmt) → Stmt
  | s, [], f => f s
  | .node l k cs, i :: p, f =>
      match cs[i]? with
      | some c => .node l k (cs.set i (c.modifyAt p f))
      | none => .node l k cs

/-- The call `replaceChildStatement(index, newChild)`. -/
def replaceChildStatement : Stmt → Nat → Stmt → Stmt
  | .node l k cs, index, newChild => .node l k (cs.set index newChild)

end Stmt

/-! ## Passes, errors and the state of a compilation -/

/-- Modelled from the spec: `BaseCompiler::Pass`, the passes the specification lists
(section 4.1) and the ones this header names. -/
inductive Pass where
  | Parsing
  | ComplexTypeParsing
  | DataAllocation
  | SyntaxSugarReplacements
  | TypeCheck
  | FunctionParsing
  | FunctionCompilation
  | RegisterAllocation
  | CodeGeneration
  deriving DecidableEq, Repr

/-- Modelled from the spec: the fixed total order of the passes, "Parsing,
ComplexTypeParsing, DataAllocation, TypeCheck, FunctionParsing, FunctionCompilation,
RegisterAllocation, CodeGeneration", with the syntax sugar replacement before the type
check. -/
def passOrder : List Pass :=
  [.Parsing, .ComplexTypeParsing, .DataAllocation, .SyntaxSugarReplacements, .TypeCheck,
   .FunctionParsing, .FunctionCompilation, .RegisterAllocation, .CodeGeneration]

/-- How a `process` call ends without a result: `throwError(message)`, or the
dereference of a null pointer. -/
inductive CompileError where
  | thrown (message : String)
  | nullPointer
  deriving DecidableEq, Repr

abbrev Label := Nat
abbrev Reg := Nat

/-- An operand of an emitted instruction: a register, an immediate, or the 4 byte wide
memory operand at a byte offset of the runtime error flag
(`x86::ptr(getRuntimeErrorFlag()).cloneResized(4)` and `cloneAdjustedAndResized`). -/
inductive Operand where
  | reg (r : Reg)
  | imm (v : Int)
  | errorFlag (offset size : Nat)
  deriving DecidableEq, Repr

/-- The instructions that the nodes of this header emit themselves (`acg.cc.*`). -/
inductive Instr where
  | xor_ (a b : Operand)
  | nop
  | bind (l : Label)
  | jle (l : Label)
  | jge (l : Label)
  | jg (l : Label)
  | jl (l : Label)
  | jne (l : Label)
  | je (l : Label)
  | jb (l : Label)
  | jmp (l : Label)
  | inc (a : Operand)
  | cmp (a b : Operand)
  | mov (a b : Operand)
  | inlineComment (text : String)
  deriving DecidableEq, Repr

/-- What a compilation accumulates: the logged warnings, the emitted instructions and the
counters of the labels and virtual registers handed out so far. -/
structure CompileState where
  warnings : List String
  code : List Instr
  nextLabel : Nat
  nextReg : Nat
  deriving DecidableEq, Repr

namespace CompileState

def empty : CompileState := ⟨[], [], 0, 0⟩

/-- The call `logWarning(message)`. -/
def logWarning (st : CompileState) (message : String) : CompileState :=
  { st with warnings := st.warnings ++ [message] }

/-- One emitted instruction. -/
def emit (st : CompileState) (i : Instr) : CompileState :=
  { st with code := st.code ++ [i] }

/-- The call `acg.cc.newLabel()`. -/
def newLabel (st : CompileState) : Label × CompileState :=
  (st.nextLabel, { st with nextLabel := st.nextLabel + 1 })

/-- The call `acg.cc.newGpd()`. -/
def newGpd (st : CompileState) : Reg × CompileState :=
  (st.nextReg, { st with nextReg := st.nextReg + 1 })

end CompileState

/-- The result of a `process` call: the node as the call leaves it and the state, or the
error that ended the call. -/
abbrev Processed := Except CompileError (Stmt × CompileState)

/-- What a node uses of the compiler, the scope and the `Statement` base class, all
declared in other files: the base processing with and without the recursion into the
children, the virtual `process` of a child, the register an expression holds, whether the
global scope has the runtime error check enabled and the code of
`RuntimeError::ErrorType::WhileLoop`. -/
structure Compiler where
  processBaseWithChildren : Pass → Stmt → CompileState → Processed
  processBaseWithoutChildren : Pass → Stmt → CompileState → Processed
  processChild : Pass → Stmt → CompileState → Processed
  reg : Stmt → Option Reg
  isRuntimeErrorCheckEnabled : Bool
  whileLoopErrorCode : Int

/-- Modelled from the spec: the pass driver, "the driver repeats a fixed, ordered sequence
of passes; failure in any pass aborts compilation". It returns the passes it entered
and the result of the last one. -/
def runPasses (process : Pass → Stmt → CompileState → Processed) :
    List Pass → Stmt → CompileState → List Pass × Processed
  | [], s, st => ([], .ok (s, st))
  | p :: ps, s, st =>
      match process p s st with
      | .ok (s1, st1) =>
          let r := runPasses process ps s1 st1
          (p :: r.1, r.2)
      | .error e => ([p], .error e)

/-! ## `Operations::WhileLoop` -/

namespace Operations

/-- The loop over the statements of the condition block in
`WhileLoop::getCompareCondition`: the position of the first return statement whose
expression is a `Compare`, unless a conditional branch or another return statement
comes first. -/
def WhileLoop.findReturnCompare : List Stmt → Nat → Option (List Nat)
  | [], _ => none
  | s :: rest, i =>
      if s.kind.isConditionalBranch then none
      else match s.kind with
        | .ReturnStatement _ =>
            match s.getSubExpr 0 with
            | some (.node _ (.Compare _ _) _) => some [0, i, 0]
            | _ => none
        | _ => WhileLoop.findReturnCompare rest (i + 1)

/-- The method `WhileLoop::getCompareCondition`, as the path of the node it returns. -/
def WhileLoop.getCompareCondition (self : Stmt) : Option (List Nat) :=
  match self.getSubExpr 0 with
  | some (.node _ (.Compare _ _) _) => some [0]
  | some (.node _ (.StatementBlock _ _) cs) => WhileLoop.findReturnCompare cs 0
  | _ => none

/-- The assignment `cp->useAsmFlag = true`. -/
def Compare.setUseAsmFlag : Stmt → Stmt
  | .node l (.Compare op _) cs => .node l (.Compare op true) cs
  | s => s

/-- The operator of a `Compare` node (`cp->op`). -/
def Compare.op : Stmt → Option TokenType
  | .node _ (.Compare op _) _ => some op
  | _ => none

/-- The expansion of `INT_COMPARE(token, command)`: `if (cp->op == token) command(exit);`. -/
def WhileLoop.intCompare (op token : TokenType) (command : Label → Instr) (exit : Label)
    (st : CompileState) : CompileState :=
  if op == token then st.emit (command exit) else st

/-- The block guarded by `safeCheck` in the code generation of a while loop: count the
iteration and, from 10000000 on, write error code, line and column to the runtime error
flag and leave the loop. -/
def WhileLoop.emitSafeCheck (c : Compiler) (location : Location) (why : Reg) (exit : Label)
    (st : CompileState) : CompileState :=
  let st := st.emit (.inc (.reg why))
  let st := st.emit (.cmp (.reg why) (.imm 10000000))
  let (okBranch, st) := st.newLabel
  let st := st.emit (.jb okBranch)
  let st := st.emit (.mov (.reg why) (.imm c.whileLoopErrorCode))
  let st := st.emit (.mov (.errorFlag 0 4) (.reg why))
  let st := st.emit (.mov (.reg why) (.imm location.line))
  let st := st.emit (.mov (.errorFlag 4 4) (.reg why))
  let st := st.emit (.mov (.reg why) (.imm location.col))
  let st := st.emit (.mov (.errorFlag 8 4) (.reg why))
  let st := st.emit (.jmp exit)
  st.emit (.bind okBranch)

/-- The `COMPILER_PASS(BaseCompiler::CodeGeneration)` block of `WhileLoop::process`.
`cpOp` is the operator `cp->op` of the compare condition, when there is one. -/
def WhileLoop.codeGeneration (c : Compiler) (self : Stmt) (st : CompileState) : Processed := do
  let safeCheck := c.isRuntimeErrorCheckEnabled
  let (cond, st) := st.newLabel
  let (exit, st) := st.newLabel
  let (why, st) := st.newGpd
  let st := if safeCheck then st.emit (.xor_ (.reg why) (.reg why)) else st
  let st := st.emit .nop
  let st := st.emit (.bind cond)
  let cp := WhileLoop.getCompareCondition self
  let cpOp := cp.bind (fun p => (self.get? p).bind Compare.op)
  let self := match cp with
    | some p => self.modifyAt p Compare.setUseAsmFlag
    | none => self
  let condition ← match self.getSubExpr 0 with
    | some e => pure e
    | none => throw CompileError.nullPointer
  let (condition, st) ← c.processChild .CodeGeneration condition st
  let self := self.replaceChildStatement 0 condition
  let st ← match cpOp with
    | some op =>
        let st := WhileLoop.intCompare op JitTokens.greaterThan .jle exit st
        let st := WhileLoop.intCompare op JitTokens.lessThan .jge exit st
        let st := WhileLoop.intCompare op JitTokens.lessThanOrEqual .jg exit st
        let st := WhileLoop.intCompare op JitTokens.greaterThanOrEqual .jl exit st
        let st := WhileLoop.intCompare op JitTokens.equals .jne exit st
        let st := WhileLoop.intCompare op JitTokens.notEquals .je exit st
        pure (if safeCheck then WhileLoop.emitSafeCheck c self.location why exit st else st)
    | none =>
        match c.reg condition with
        | some cReg =>
            let st := st.emit (.inlineComment "check condition")
            let st := st.emit (.cmp (.reg cReg) (.imm 0))
            let st := st.emit (.je exit)
            pure (if safeCheck then WhileLoop.emitSafeCheck c self.location why exit st else st)
        | none => throw CompileError.nullPointer
  let body ← match self.getSubExpr 1 with
    | some e => pure e
    | none => throw CompileError.nullPointer
  let (body, st) ← c.processChild .CodeGeneration body st
  let self := self.replaceChildStatement 1 body
  let st := st.emit (.jmp cond)
  let st := st.emit (.bind exit)
  pure (self, st)

/-- The `COMPILER_PASS(BaseCompiler::TypeCheck)` block of `WhileLoop::process`. -/
def WhileLoop.typeCheck (self : Stmt) (st : CompileState) : Processed :=
  match self.getSubExpr 0 with
  | none => .error .nullPointer
  | some condition =>
      if condition.isConstExpr then
        let v := condition.getConstExprValue
        if v.toInt != 0 then .error (.thrown "Endless loop detected")
        else .ok (self, st)
      else .ok (self, st)

/-- The method `WhileLoop::process`. -/
def WhileLoop.process (c : Compiler) (pass : Pass) (self : Stmt) (st : CompileState) :
    Processed := do
  let (self, st) ←
    if pass = .CodeGeneration then c.processBaseWithoutChildren pass self st
    else c.processBaseWithChildren pass self st
  let (self, st) ← if pass = .TypeCheck then WhileLoop.typeCheck self st else pure (self, st)
  if pass = .CodeGeneration then WhileLoop.codeGeneration c self st else pure (self, st)

end Operations

/-! ## `SyntaxTreeWalker` and `Operations::VariableReference` -/

mutual
/-- Modelled from the spec: the statements a `SyntaxTreeWalker` visits, "a straight-line
scan of the tree that ignores branch structure": the statement itself and then its
children from first to last, each with its own children before the next. Every visited
statement comes with its path (the node pointer); `path` is the path of the statement
the scan starts from. -/
def SyntaxTreeWalker.scan : Stmt → List Nat → List (List Nat × Stmt)
  | .node l k cs, path => (path, .node l k cs) :: SyntaxTreeWalker.scanChildren cs path 0
/-- The scan of the children of a statement, `index` being the index of the first one. -/
def SyntaxTreeWalker.scanChildren : List Stmt → List Nat → Nat → List (List Nat × Stmt)
  | [], _, _ => []
  | c :: cs, path, index =>
      SyntaxTreeWalker.scan c (path ++ [index]) ++ SyntaxTreeWalker.scanChildren cs path (index + 1)
end

/-- The statements that successive calls of
`walker.getNextStatementOfType<VariableReference>()` return, with their symbols. -/
def SyntaxTreeWalker.variableReferences : List (List Nat × Stmt) → List (List Nat × Symbol)
  | [] => []
  | (p, .node _ (.VariableReference id) _) :: rest =>
      (p, id) :: SyntaxTreeWalker.variableReferences rest
  | _ :: rest => SyntaxTreeWalker.variableReferences rest

namespace Operations

/-- The `while (lastOne != nullptr)` loop of `VariableReference::isLastVariableReference`.
`lastOne` is the current (non-null) reference, `walker` holds the references that
the walker has not returned yet; `this` and `id` are the node the method is called on
and its symbol. Each round computes `isOtherVariable` from the current reference,
advances `lastOne` to the next reference (null when the walker is exhausted, which is
never equal to `this`) and, unless the current one was another variable, sets `isLast`
to `lastOne == this` for the advanced `lastOne`. -/
def VariableReference.isLastLoop (this : List Nat) (id : Symbol) :
    List Nat × Symbol → List (List Nat × Symbol) → Bool → Bool
  | lastOne, [], isLast =>
      let isOtherVariable := !(lastOne.2.same id)
      if isOtherVariable then isLast else false
  | lastOne, next :: walker, isLast =>
      let isOtherVariable := !(lastOne.2.same id)
      if isOtherVariable then VariableReference.isLastLoop this id next walker isLast
      else VariableReference.isLastLoop this id next walker (next.1 == this)

/-- The method `VariableReference::isLastVariableReference`, called on the variable
reference at path `this` of the tree `root` (the walker scans from the root). -/
def VariableReference.isLastVariableReference (root : Stmt) (this : List Nat) : Bool :=
  match root.get? this with
  | some (.node _ (.VariableReference id) _) =>
      match SyntaxTreeWalker.variableReferences (SyntaxTreeWalker.scan root []) with
      | [] => false
      | lastOne :: walker =>
          VariableReference.isLastLoop this id lastOne walker (lastOne.1 == this)
  | _ => false

/-- What the documentation of `isLastVariableReference` describes: no reference to the same
symbol comes after `this` in the scan. -/
def VariableReference.noLaterReference (root : Stmt) (this : List Nat) : Bool :=
  match root.get? this with
  | some (.node _ (.VariableReference id) _) =>
      let refs := SyntaxTreeWalker.variableReferences (SyntaxTreeWalker.scan root [])
      ((refs.dropWhile (fun r => r.1 != this)).drop 1).all (fun r => !(r.2.same id))
  | _ => false

end Operations

/-! ## `Operations::Cast`, `Operations::Compare`, `Operations::ReturnStatement` -/

namespace Operations

/-- The constructor `Cast(l, expression, targetType_)`: the expression becomes the only
child and the target type is `TypeInfo(targetType_)`. -/
def Cast.new (l : Location) (expression : Stmt) (targetType_ : Types.ID) : Stmt :=
  .node l (.Cast (TypeInfo.ofID targetType_)) [expression]

/-- The `COMPILER_PASS(BaseCompiler::TypeCheck)` block of `Compare::process`. -/
def Compare.typeCheck (self : Stmt) (st : CompileState) : Processed :=
  match self.getSubExpr 0, self.getSubExpr 1 with
  | some l, some r =>
      if l.getType != r.getType then
        let implicitCast := Cast.new self.location r l.getType
        let st := st.logWarning "Implicit cast to int for comparison"
        .ok (self.replaceChildStatement 1 implicitCast, st)
      else .ok (self, st)
  | _, _ => .error .nullPointer

/-- The method `Compare::process`. The code generation block calls into the
`AsmCodeGenerator` and the register pool, which other files define; it is the
parameter `codeGeneration`. -/
def Compare.process (c : Compiler) (codeGeneration : Stmt → CompileState → Processed)
    (pass : Pass) (self : Stmt) (st : CompileState) : Processed := do
  let (self, st) ← c.processBaseWithChildren pass self st
  let (self, st) ← if pass = .TypeCheck then Compare.typeCheck self st else pure (self, st)
  if pass = .CodeGeneration then codeGeneration self st else pure (self, st)

/-- The method `ReturnStatement::isVoid`. -/
def ReturnStatement.isVoid (self : Stmt) : Bool := self.getTypeInfo.isID .Void

/-- The `COMPILER_PASS(BaseCompiler::TypeCheck)` block of `ReturnStatement::process`.
`hasFunctionScope` says whether `findFunctionScope(scope)` is a `FunctionScope`;
`checkAndSetType` is the method of the `Expression` base class. -/
def ReturnStatement.typeCheck (hasFunctionScope : Bool)
    (checkAndSetType : Nat → TypeInfo → Stmt → CompileState → Processed)
    (self : Stmt) (st : CompileState) : Processed :=
  if hasFunctionScope then
    let actualType :=
      match self.getSubExpr 0 with
      | some first => first.getTypeInfo
      | none => TypeInfo.ofID .Void
    if ReturnStatement.isVoid self && !(actualType.isID .Void) then
      .error (.thrown "Can't return a value from a void function.")
    else if !(ReturnStatement.isVoid self) && actualType.isID .Void then
      .error (.thrown "function must return a value")
    else checkAndSetType 0 self.getTypeInfo self st
  else .error (.thrown "Can't deduce return type.")

/-- The method `ReturnStatement::process`; the code generation block (return register,
`emitReturn`) is the parameter `codeGeneration`. -/
def ReturnStatement.process (c : Compiler) (hasFunctionScope : Bool)
    (checkAndSetType : Nat → TypeInfo → Stmt → CompileState → Processed)
    (codeGeneration : Stmt → CompileState → Processed)
    (pass : Pass) (self : Stmt) (st : CompileState) : Processed := do
  let (self, st) ← c.processBaseWithChildren pass self st
  let (self, st) ←
    if pass = .TypeCheck then ReturnStatement.typeCheck hasFunctionScope checkAndSetType self st
    else pure (self, st)
  if pass = .CodeGeneration then codeGeneration self st else pure (self, st)

end Operations

/-! ## Parent links and `Operations::ControlFlowStatement` -/

/-- Whether the node at a path of the tree has a kind with the given property (false when
there is no node at the path). -/
def Stmt.isTypeAt (isType : Kind → Bool) (root : Stmt) (p : List Nat) : Bool :=
  match root.get? p with
  | some s => isType s.kind
  | none => false

/-- Modelled from the spec: `findParentStatementOfType<T>(statement)`, the nearest
statement of type `T` on the way from the statement (itself included) through its
parents up to the root, or null. The parents of the statement at a path are the
statements at the shorter prefixes of the path. -/
def findParentStatementOfType (isType : Kind → Bool) (root : Stmt) (statement : List Nat) :
    Option (List Nat) :=
  statement.inits.reverse.find? (Stmt.isTypeAt isType root)

/-- The test `dynamic_cast<Loop*>`. -/
def Kind.isLoop : Kind → Bool
  | .Loop _ _ _ _ => true
  | _ => false

/-- The test `dynamic_cast<Assignment*>`. -/
def Kind.isAssignment : Kind → Bool
  | .Assignment _ _ => true
  | _ => false

namespace Operations

/-- The method `ControlFlowStatement::getStatementId`. -/
def ControlFlowStatement.getStatementId (isBreak : Bool) : String :=
  if isBreak then "break" else "continue"

/-- The assignment to the member `parentLoop`. -/
def ControlFlowStatement.setParentLoop (parentLoop : Option (List Nat)) : Stmt → Stmt
  | .node l (.ControlFlowStatement isBreak _) cs =>
      .node l (.ControlFlowStatement isBreak parentLoop) cs
  | s => s

/-- The `COMPILER_PASS(BaseCompiler::TypeCheck)` block of `ControlFlowStatement::process`
for the statement at path `this` of the tree `root`. -/
def ControlFlowStatement.typeCheck (root : Stmt) (this : List Nat) (st : CompileState) :
    Processed :=
  match root.get? this with
  | some (.node _ (.ControlFlowStatement isBreak _) _) =>
      let parentLoop := findParentStatementOfType Kind.isLoop root this
      let root := root.modifyAt this (ControlFlowStatement.setParentLoop parentLoop)
      match parentLoop with
      | none =>
          let s := "a " ++ ControlFlowStatement.getStatementId isBreak
            ++ " may only be used within a loop or switch"
          .error (.thrown s)
      | some _ => .ok (root, st)
  | _ => .error .nullPointer

/-- The method `ControlFlowStatement::process` for the statement at path `this` of the
tree `root`; the result is the whole tree. The code generation block
(`emitLoopControlFlow`) is the parameter `codeGeneration`. -/
def ControlFlowStatement.process (c : Compiler)
    (codeGeneration : Stmt → List Nat → CompileState → Processed)
    (pass : Pass) (root : Stmt) (this : List Nat) (st : CompileState) : Processed := do
  let self ← match root.get? this with
    | some s => pure s
    | none => throw CompileError.nullPointer
  let (self, st) ← c.processBaseWithChildren pass self st
  let root := root.modifyAt this (fun _ => self)
  let (root, st) ←
    if pass = .TypeCheck then ControlFlowStatement.typeCheck root this st else pure (root, st)
  if pass = .CodeGeneration then codeGeneration root this st else pure (root, st)

end Operations

/-! ## `Operations::Loop` -/

mutual
/-- Modelled from the spec: `Statement::forEachRecursive(f)`, which calls `f` on the
statement and then on the statements below it, child by child, until a call returns true,
and returns whether one did. -/
def Stmt.forEachRecursive (f : Stmt → Bool) : Stmt → Bool
  | .node l k cs => f (.node l k cs) || Stmt.forEachRecursiveList f cs
/-- The recursion of `forEachRecursive` over the children. -/
def Stmt.forEachRecursiveList (f : Stmt → Bool) : List Stmt → Bool
  | [] => false
  | c :: cs => c.forEachRecursive f || Stmt.forEachRecursiveList f cs
end

/-- Modelled from the spec: `getTypedIfComplexType<ArrayTypeBase>()->getElementType()`, the
element type of a span or dyn type (`SpanType` and `DynType` are the array types), null for
every other type. -/
def TypeInfo.arrayElementType : TypeInfo → Option TypeInfo
  | .span elementType _ _ _ => some elementType
  | .dyn elementType _ _ => some elementType
  | _ => none

/-- What `Loop` uses of the compiler and of the `Statement` base class besides
`Compiler`: `tryToResolveType` of the loop target (the target as the call leaves it), the
base implementation `Statement::tryToResolveType`, the call
`namespaceHandler.setTypeInfo(id, Variable, type)` (the error message when the result
failed) and `TypeInfo::toString`. -/
structure LoopCompiler where
  targetTryToResolveType : Stmt → Stmt
  statementTryToResolveType : Stmt → Stmt
  setTypeInfo : String → TypeInfo → Option String
  toString : TypeInfo → String

namespace Operations

/-- The iterator symbol of a `Loop` node. -/
def Loop.iterator : Stmt → Option Symbol
  | .node _ (.Loop iterator _ _ _) _ => some iterator
  | _ => none

/-- The assignment to the member `iterator`. -/
def Loop.setIterator (iterator : Symbol) : Stmt → Stmt
  | .node l (.Loop _ loadIterator storeIterator loopTargetType) cs =>
      .node l (.Loop iterator loadIterator storeIterator loopTargetType) cs
  | s => s

/-- The assignment to the member `loopTargetType`. -/
def Loop.setLoopTargetType (loopTargetType : ArrayType) : Stmt → Stmt
  | .node l (.Loop iterator loadIterator storeIterator _) cs =>
      .node l (.Loop iterator loadIterator storeIterator loopTargetType) cs
  | s => s

/-- The assignment to the member `loadIterator`. -/
def Loop.setLoadIterator (loadIterator : Bool) : Stmt → Stmt
  | .node l (.Loop iterator _ storeIterator loopTargetType) cs =>
      .node l (.Loop iterator loadIterator storeIterator loopTargetType) cs
  | s => s

/-- The assignment to the member `storeIterator`. -/
def Loop.setStoreIterator (storeIterator : Bool) : Stmt → Stmt
  | .node l (.Loop iterator loadIterator _ loopTargetType) cs =>
      .node l (.Loop iterator loadIterator storeIterator loopTargetType) cs
  | s => s

/-- The member `loopTargetType` of a `Loop` node. -/
def Loop.loopTargetType : Stmt → Option ArrayType
  | .node _ (.Loop _ _ _ loopTargetType) _ => some loopTargetType
  | _ => none

/-- The method `Loop::getLoopBlock`: child 1 cast to `StatementBlock`. -/
def Loop.getLoopBlock (self : Stmt) : Option Stmt :=
  match self.getChildStatement 1 with
  | some (.node l (.StatementBlock i r) cs) => some (.node l (.StatementBlock i r) cs)
  | _ => none

/-- The method `Loop::tryToResolveType` (it always returns true; the result here is the
loop node as the call leaves it, or the thrown error). -/
def Loop.tryToResolveType (env : LoopCompiler) (self : Stmt) : Except CompileError Stmt := do
  let target ← match self.getSubExpr 0 with
    | some t => pure t
    | none => throw CompileError.nullPointer
  let target := env.targetTryToResolveType target
  let self := self.replaceChildStatement 0 target
  let tt := target.getTypeInfo
  let self ← match tt.arrayElementType, Loop.iterator self with
    | some elementType, some iterator =>
        let r := env.setTypeInfo iterator.id elementType
        let iteratorType := elementType.withModifiers iterator.typeInfo.isConst iterator.typeInfo.isRef
        let self := Loop.setIterator (Symbol.ofType iterator.id iteratorType) self
        match r with
        | some errorMessage => throw (CompileError.thrown errorMessage)
        | none => pure self
    | _, _ => pure self
  pure (env.statementTryToResolveType self)

/-- What the chain of `if`s of the DataAllocation block assigns to `loopTargetType` for a
target type: `Span` for a span, `Dyn` for a dyn and for a block, `CustomObject` for a
struct with a begin iterator and a size function, nothing for every other type. -/
def Loop.kindOfTargetType : TypeInfo → Option ArrayType
  | .span _ _ _ _ => some .Span
  | .dyn _ _ _ => some .Dyn
  | .struct _ beginResolved _ sizeResolved _ _ =>
      if beginResolved && sizeResolved then some .CustomObject else none
  | .native type _ _ => if type = .Block then some .Dyn else none

/-- The chain of `if`s on the target type in the DataAllocation block of `Loop::process`.
The first component is the value assigned to `loopTargetType` (none when the member is not
assigned); the second one is the iterator symbol the chain leaves, or the error it ends
with. In the `DynType` branch the error message is built with `sp->getElementType()`, and
`sp` is the null pointer there. -/
def Loop.selectTargetType (toString : TypeInfo → String) (targetType : TypeInfo)
    (iterator : Symbol) : Option ArrayType × Except CompileError Symbol :=
  match targetType with
  | .span elementType _ _ _ =>
      (some .Span,
        if iterator.typeInfo.isDynamic then .ok { iterator with typeInfo := elementType }
        else if !(iterator.typeInfo.equals elementType) then
          .error (.thrown ("iterator type mismatch: " ++ toString iterator.typeInfo
            ++ " expected: " ++ toString elementType))
        else .ok iterator)
  | .dyn elementType _ _ =>
      (some .Dyn,
        if iterator.typeInfo.isDynamic then .ok { iterator with typeInfo := elementType }
        else if !(iterator.typeInfo.equals elementType) then .error .nullPointer
        else .ok iterator)
  | .struct _ beginResolved beginReturnType sizeResolved _ _ =>
      if !beginResolved || !sizeResolved then
        (none, .error (.thrown (toString targetType ++ " does not have iterator methods")))
      else
        (some .CustomObject,
          if iterator.typeInfo.isDynamic then .ok { iterator with typeInfo := beginReturnType }
          else if !(iterator.typeInfo.equals beginReturnType) then
            .error (.thrown ("iterator type mismatch: " ++ toString iterator.typeInfo
              ++ " expected: " ++ toString beginReturnType))
          else .ok iterator)
  | .native type _ _ =>
      if type == .Block then
        (some .Dyn,
          if iterator.typeInfo.isDynamic then
            .ok { iterator with
                  typeInfo := .native .Float iterator.typeInfo.isConst iterator.typeInfo.isRef }
          else if iterator.typeInfo.getType != .Float then
            .error (.thrown "Illegal iterator type")
          else .ok iterator)
      else (none, .error (.thrown "Can't deduce loop target type"))

/-- The `while` loop of `Loop::evaluateIteratorStore` over the variable references the
walker returns: whether it ends with `storeIterator = true`. `root` is the tree the loop
is part of; the parent `v->parent` of the reference at path `v` is the node at the path
without its last index (every reference the walker returns lies below the loop block and
has a parent), and `a->getSubExpr(0).get() == v` holds when that last index is 0. -/
def Loop.evaluateIteratorStoreLoop (root : Stmt) (iterator : Symbol) :
    List (List Nat × Symbol) → Bool
  | [] => false
  | (v, id) :: walker =>
      if id.same iterator then
        if ((root.get? v.dropLast).map Stmt.hasSideEffect).getD false then
          if Stmt.isTypeAt Kind.isAssignment root v.dropLast && v == v.dropLast ++ [0] then
            Loop.evaluateIteratorStoreLoop root iterator walker
          else true
        else Loop.evaluateIteratorStoreLoop root iterator walker
      else Loop.evaluateIteratorStoreLoop root iterator walker

/-- The method `Loop::evaluateIteratorStore` for the loop at path `this` of the tree
`root`: the returned flag and the tree with the member `storeIterator` updated. -/
def Loop.evaluateIteratorStore (root : Stmt) (this : List Nat) :
    Except CompileError (Bool × Stmt) :=
  match root.get? this with
  | some (.node l (.Loop iterator loadIterator storeIterator loopTargetType) cs) =>
      if storeIterator then .ok (true, root)
      else
        match Loop.getLoopBlock (.node l (.Loop iterator loadIterator storeIterator loopTargetType) cs) with
        | none => .error .nullPointer
        | some block =>
            let w := SyntaxTreeWalker.variableReferences (SyntaxTreeWalker.scan block (this ++ [1]))
            let storeIterator := Loop.evaluateIteratorStoreLoop root iterator w
            .ok (storeIterator, root.modifyAt this (Loop.setStoreIterator storeIterator))
  | _ => .error .nullPointer

/-- The lambda of `Loop::evaluateIteratorLoad`: a variable reference with the symbol
`sId`. -/
def Loop.isReferenceTo (sId : Symbol) (p : Stmt) : Bool :=
  match p.kind with
  | .VariableReference id => id.same sId
  | _ => false

/-- The body of the `if (v->id == iterator)` of `Loop::evaluateIteratorLoad` for the
reference `v` (up to the `break`): the value of `loadIterator` it leaves. -/
def Loop.evaluateIteratorLoadAt (root : Stmt) (iterator : Symbol) (loadIterator : Bool)
    (v : List Nat) : Except CompileError Bool :=
  match findParentStatementOfType Kind.isAssignment root v with
  | none => .ok loadIterator
  | some a =>
      match root.get? a with
      | some (.node l (.Assignment assignmentType isFirstAssignment) cs) => do
          let loadIterator ←
            if a ++ [1] == v && assignmentType == JitTokens.assign_ then
              match (Stmt.node l (.Assignment assignmentType isFirstAssignment) cs).getSubExpr 0 with
              | some value => pure (value.forEachRecursive (Loop.isReferenceTo iterator))
              | none => throw CompileError.nullPointer
            else pure loadIterator
          let loadIterator := if assignmentType != JitTokens.assign_ then true else loadIterator
          let loadIterator := if a ++ [1] != v then true else loadIterator
          pure loadIterator
      | _ => .error .nullPointer

/-- The `while` loop of `Loop::evaluateIteratorLoad`: it stops at the first reference to
the iterator. -/
def Loop.evaluateIteratorLoadLoop (root : Stmt) (iterator : Symbol) (loadIterator : Bool) :
    List (List Nat × Symbol) → Except CompileError Bool
  | [] => .ok loadIterator
  | (v, id) :: walker =>
      if id.same iterator then Loop.evaluateIteratorLoadAt root iterator loadIterator v
      else Loop.evaluateIteratorLoadLoop root iterator loadIterator walker

/-- The method `Loop::evaluateIteratorLoad` for the loop at path `this` of the tree
`root`: the returned flag and the tree with the member `loadIterator` updated. -/
def Loop.evaluateIteratorLoad (root : Stmt) (this : List Nat) :
    Except CompileError (Bool × Stmt) :=
  match root.get? this with
  | some (.node l (.Loop iterator loadIterator storeIterator loopTargetType) cs) =>
      if !loadIterator then .ok (false, root)
      else
        match Loop.getLoopBlock (.node l (.Loop iterator loadIterator storeIterator loopTargetType) cs) with
        | none => .error .nullPointer
        | some block => do
            let w := SyntaxTreeWalker.variableReferences (SyntaxTreeWalker.scan block (this ++ [1]))
            let loadIterator ← Loop.evaluateIteratorLoadLoop root iterator loadIterator w
            pure (loadIterator, root.modifyAt this (Loop.setLoadIterator loadIterator))
  | _ => .error .nullPointer

/-- The `COMPILER_PASS(BaseCompiler::DataAllocation)` block of `Loop::process` up to the
call of `evaluateIteratorLoad`, on the loop node. -/
def Loop.dataAllocation (c : Compiler) (env : LoopCompiler) (self : Stmt) (st : CompileState) :
    Processed := do
  let self ← Loop.tryToResolveType env self
  let target ← match self.getSubExpr 0 with
    | some t => pure t
    | none => throw CompileError.nullPointer
  let (target, st) ← c.processChild .DataAllocation target st
  let self := self.replaceChildStatement 0 target
  let targetType := target.getTypeInfo
  let iterator ← match Loop.iterator self with
    | some i => pure i
    | none => throw CompileError.nullPointer
  let selected := Loop.selectTargetType env.toString targetType iterator
  let self := match selected.1 with
    | some t => Loop.setLoopTargetType t self
    | none => self
  let iterator ← selected.2
  let self := Loop.setIterator iterator self
  let _ := env.setTypeInfo iterator.id iterator.typeInfo
  let block ← match Loop.getLoopBlock self with
    | some b => pure b
    | none => throw CompileError.nullPointer
  let (block, st) ← c.processChild .DataAllocation block st
  pure (self.replaceChildStatement 1 block, st)

/-- The method `Loop::process` for the loop at path `this` of the tree `root`; the result
is the whole tree. The code generation block (the loop emitters) is the parameter
`codeGeneration`. -/
def Loop.process (c : Compiler) (env : LoopCompiler)
    (codeGeneration : Stmt → List Nat → CompileState → Processed)
    (pass : Pass) (root : Stmt) (this : List Nat) (st : CompileState) : Processed := do
  let self ← match root.get? this with
    | some s => pure s
    | none => throw CompileError.nullPointer
  let (self, st) ← c.processBaseWithoutChildren pass self st
  let (self, st) ←
    if pass ≠ .DataAllocation ∧ pass ≠ .CodeGeneration then do
      let target ← match self.getSubExpr 0 with
        | some t => pure t
        | none => throw CompileError.nullPointer
      let (target, st) ← c.processChild pass target st
      let self := self.replaceChildStatement 0 target
      let block ← match Loop.getLoopBlock self with
        | some b => pure b
        | none => throw CompileError.nullPointer
      let (block, st) ← c.processChild pass block st
      pure (self.replaceChildStatement 1 block, st)
    else pure (self, st)
  let (self, st) ←
    if pass = .DataAllocation then Loop.dataAllocation c env self st else pure (self, st)
  let root := root.modifyAt this (fun _ => self)
  let root ←
    if pass = .DataAllocation then (Loop.evaluateIteratorLoad root this).map (fun r => r.2)
    else pure root
  if pass = .CodeGeneration then codeGeneration root this st else pure (root, st)

end Operations

/-! ## Concrete inputs -/

namespace Example

/-- A compiler whose base processing and child processing leave the nodes and the state as
they are, with the runtime error check disabled. -/
def compiler : Compiler :=
  ⟨fun _ s st => .ok (s, st), fun _ s st => .ok (s, st), fun _ s st => .ok (s, st),
    fun _ => some 0, false, 1⟩

def loc : Location := ⟨1, 1⟩

/-- The integer literal `n`. -/
def intLiteral (n : Int) : Stmt := .node loc (.Immediate ⟨.Integer, n⟩) []

/-- The float literal with the whole number `n` as its value. -/
def floatLiteral (n : Int) : Stmt := .node loc (.Immediate ⟨.Float, n⟩) []

/-- The number one half, with the numerator 1 and the denominator 2. -/
def oneHalf : ℚ := ⟨1, 2, by decide, Nat.coprime_one_left 2⟩

/-- The float literal `0.5f`. -/
def halfLiteral : Stmt := .node loc (.Immediate ⟨.Float, oneHalf⟩) []

/-- An empty statement block. -/
def emptyBlock : Stmt := .node loc (.StatementBlock false (TypeInfo.ofID .Void)) []

/-- The loop `while (1) {}`. -/
def whileTrue : Stmt := .node loc .WhileLoop [intLiteral 1, emptyBlock]

/-- The loop `while (0.5f) {}`. -/
def whileHalf : Stmt := .node loc .WhileLoop [halfLiteral, emptyBlock]

/-- The symbol of the variable `name`, of type int. -/
def intVar (name : String) : Symbol := Symbol.ofType name (TypeInfo.ofID .Integer)

/-- The variable reference `name`. -/
def var (name : String) : Stmt := .node loc (.VariableReference (intVar name)) []

/-- The assignment `target = value` (the value is child 0, the target child 1). -/
def assign (target value : Stmt) : Stmt :=
  .node loc (.Assignment JitTokens.assign_ false) [value, target]

/-- The block `{ x = 1; }`. -/
def assignOnce : Stmt :=
  .node loc (.StatementBlock false (TypeInfo.ofID .Void)) [assign (var "x") (intLiteral 1)]

/-- The comparison `1.0f < 2` of a float with an int. -/
def compareFloatInt : Stmt :=
  .node loc (.Compare JitTokens.lessThan false) [floatLiteral 1, intLiteral 2]

/-- The comparison `1.0f < (float)2`, with the cast the type check inserts. -/
def compareFloatIntCast : Stmt :=
  .node loc (.Compare JitTokens.lessThan false)
    [floatLiteral 1, .node loc (.Cast (TypeInfo.ofID .Float)) [intLiteral 2]]

/-- A code generation block that emits nothing. -/
def noCodeGeneration (s : Stmt) (st : CompileState) : Processed := .ok (s, st)

/-- A `checkAndSetType` that accepts every expression. -/
def acceptType (_ : Nat) (_ : TypeInfo) (s : Stmt) (st : CompileState) : Processed := .ok (s, st)

/-- The statement `return;` in a function that returns void. -/
def returnVoid : Stmt := .node loc (.ReturnStatement (TypeInfo.ofID .Void)) []

/-- The statement `return 1;` in a function that returns void. -/
def returnValueInVoid : Stmt := .node loc (.ReturnStatement (TypeInfo.ofID .Void)) [intLiteral 1]

/-- The statement `return;` in a function that returns int. -/
def returnNothingInInt : Stmt := .node loc (.ReturnStatement (TypeInfo.ofID .Integer)) []

/-- The comparison `x < 1`. -/
def xLessThanOne : Stmt := .node loc (.Compare JitTokens.lessThan false) [var "x", intLiteral 1]

/-- The statement `break;`. -/
def breakStatement : Stmt := .node loc (.ControlFlowStatement true none) []

/-- The block `{ break; }`. -/
def breakBlock : Stmt := .node loc (.StatementBlock false (TypeInfo.ofID .Void)) [breakStatement]

/-- The loop `while (x < 1) { break; }`. -/
def whileBreak : Stmt := .node loc .WhileLoop [xLessThanOne, breakBlock]

/-- The type `span<float, 8>`. -/
def spanOf8Floats : TypeInfo := .span (TypeInfo.ofID .Float) 8 false false

/-- The loop `for (auto& s : data) { break; }` over a `span<float, 8>`. -/
def forBreak : Stmt :=
  .node loc (.Loop (Symbol.ofType "s" (.native .Dynamic false true)) true false .Undefined)
    [.node loc (.VariableReference (Symbol.ofType "data" spanOf8Floats)) [], breakBlock]

/-- A code generation block of a statement in a tree that emits nothing. -/
def noCodeGenerationAt (root : Stmt) (_ : List Nat) (st : CompileState) : Processed :=
  .ok (root, st)

/-- A `LoopCompiler` whose type resolution leaves the nodes as they are and whose
`setTypeInfo` accepts every type. -/
def loopCompiler : LoopCompiler :=
  ⟨fun s => s, fun s => s, fun _ _ => none, fun t => reprStr t⟩

/-- The variable reference `data`, a `span<float, 8>`. -/
def spanData : Stmt := .node loc (.VariableReference (Symbol.ofType "data" spanOf8Floats)) []

/-- The loop `for (int x : data) {}` over a `span<float, 8>`: the iterator is declared
with the type int. -/
def forIntOverFloats : Stmt :=
  .node loc (.Loop (intVar "x") true false .Undefined) [spanData, emptyBlock]

/-- The loop `for (auto& x : data) {}` over a `span<float, 8>`. -/
def forAutoOverFloats : Stmt :=
  .node loc (.Loop (Symbol.ofType "x" (.native .Dynamic false true)) true false .Undefined)
    [spanData, emptyBlock]

/-- The iterator symbol `auto& x`. -/
def autoRefX : Symbol := Symbol.ofType "x" (.native .Dynamic false true)

/-- The expression `x * 2`. -/
def xTimesTwo : Stmt := .node loc (.BinaryOp JitTokens.times false) [var "x", intLiteral 2]

/-- The loop `for (auto& x : data) { x = x * 2; }` over a `span<float, 8>`. -/
def forTimesTwo : Stmt :=
  .node loc (.Loop autoRefX true false .Undefined)
    [spanData, .node loc (.StatementBlock false (TypeInfo.ofID .Void))
      [assign (var "x") xTimesTwo]]

end Example

/-! ## `Operations::Subscript` -/

/-- Modelled from the spec: `SpanType::getNumElements()`, the size of a span type. -/
def TypeInfo.getNumElements : TypeInfo → Nat
  | .span _ numElements _ _ => numElements
  | _ => 0

/-- Modelled from the spec: `isPositiveAndBelow(valueToTest, upperLimit)` of the JUCE
library, `0 <= valueToTest < upperLimit`. -/
def isPositiveAndBelow (valueToTest : Int) (upperLimit : Nat) : Bool :=
  decide (0 ≤ valueToTest) && decide (valueToTest < upperLimit)

/-- What `Subscript` uses of the compiler and of types declared in other files besides
`Compiler`: `tryToResolveType` of the index expression (the expression as the call leaves
it), the base implementation `Statement::tryToResolveType`, the parent type of an index
type (`getTypedIfComplexType<IndexBase>()->parentType`, none when the type is no index
type), the return type of the special function `Subscript` of the function class of a
struct (none when there is none) and `TypeInfo::toString`. -/
structure SubscriptCompiler where
  indexTryToResolveType : Stmt → Stmt
  statementTryToResolveType : Stmt → Stmt
  indexBaseParentType : TypeInfo → Option TypeInfo
  subscriptOperatorReturnType : TypeInfo → Option TypeInfo
  toString : TypeInfo → String

namespace Operations

/-- The assignments of `Subscript::tryToResolveType` to the members. -/
def Subscript.setMembers (elementType : Option TypeInfo) (subscriptType : Option ArrayType)
    (spanType dynType : Option (Option TypeInfo)) : Stmt → Stmt
  | .node l (.Subscript e w t sp dt) cs =>
      .node l (.Subscript (elementType.getD e) w (subscriptType.getD t) (spanType.getD sp)
        (dynType.getD dt)) cs
  | s => s

/-- The method `Subscript::tryToResolveType`: the returned flag and the node as the call
leaves it. The conditions `spanType = ...` and `dynType = ...` assign the members also
when the cast fails. -/
def Subscript.tryToResolveType (env : SubscriptCompiler) (self : Stmt) :
    Except CompileError (Bool × Stmt) := do
  let self := env.statementTryToResolveType self
  let parent ← match self.getSubExpr 0 with
    | some p => pure p
    | none => throw CompileError.nullPointer
  let parentType := parent.getTypeInfo
  match parentType with
  | .span elementType _ _ _ =>
      pure (true, Subscript.setMembers (some elementType) (some .Span) (some (some parentType))
        none self)
  | .dyn elementType _ _ =>
      pure (true, Subscript.setMembers (some elementType) (some .Dyn) (some none)
        (some (some parentType)) self)
  | _ =>
      let self := Subscript.setMembers none none (some none) (some none) self
      if parent.getType == .Block then
        pure (true, Subscript.setMembers (some (.native .Float false true)) (some .Dyn) none none
          self)
      else
        match parentType, env.subscriptOperatorReturnType parentType with
        | .struct _ _ _ _ _ _, some returnType =>
            pure (true, Subscript.setMembers (some returnType) (some .CustomObject) none none self)
        | _, _ => pure (false, self)

/-- The `COMPILER_PASS(BaseCompiler::TypeCheck)` block of `Subscript::process`. -/
def Subscript.typeCheck (env : SubscriptCompiler) (self : Stmt) (st : CompileState) :
    Processed :=
  match self with
  | .node l (.Subscript elementType isWriteAccess subscriptType spanType dynType) cs => do
      let index ← match (Stmt.node l
          (.Subscript elementType isWriteAccess subscriptType spanType dynType) cs).getSubExpr 1 with
        | some i => pure i
        | none => throw CompileError.nullPointer
      let index := env.indexTryToResolveType index
      let self := (Stmt.node l
        (.Subscript elementType isWriteAccess subscriptType spanType dynType) cs).replaceChildStatement
          1 index
      let indexType := index.getTypeInfo
      if indexType.getType != .Integer then
        match env.indexBaseParentType indexType with
        | some itParentType =>
            if subscriptType == .CustomObject then pure ()
            else
              let parentType ← match self.getSubExpr 0 with
                | some p => pure p.getTypeInfo
                | none => throw CompileError.nullPointer
              if !(itParentType.equals parentType) then
                throw (CompileError.thrown ("index type mismatch: " ++ env.toString indexType
                  ++ " for target " ++ env.toString parentType))
              else pure ()
        | none => throw (CompileError.thrown "illegal index type")
      else if dynType.isNone && !index.isConstExpr then
        throw (CompileError.thrown "Can't use non-constant or non-wrapped index")
      else pure ()
      match spanType with
      | some sp =>
          let size := sp.getNumElements
          if index.isConstExpr then
            let index := index.getConstExprValue.toInt
            if !(isPositiveAndBelow index size) then
              throw (CompileError.thrown "constant index out of bounds")
            else pure (self, st)
          else pure (self, st)
      | none =>
          if dynType.isSome then pure (self, st)
          else if subscriptType == .CustomObject then pure (self, st)
          else
            let parent ← match self.getSubExpr 0 with
              | some p => pure p
              | none => throw CompileError.nullPointer
            if parent.getType == .Block then
              pure (Subscript.setMembers (some (.native .Float false true)) none none none self, st)
            else throw (CompileError.thrown "Can't use []-operator")
  | _ => .error .nullPointer

/-- The method `Subscript::process`. `processChildrenIfNotCodeGen` of the base class is
the base processing with the children in every pass but CodeGeneration; the code
generation block is the parameter `codeGeneration`. -/
def Subscript.process (c : Compiler) (env : SubscriptCompiler)
    (codeGeneration : Stmt → CompileState → Processed)
    (pass : Pass) (self : Stmt) (st : CompileState) : Processed := do
  let (self, st) ←
    if pass = .CodeGeneration then c.processBaseWithoutChildren pass self st
    else c.processBaseWithChildren pass self st
  let self ←
    if pass = .DataAllocation then (Subscript.tryToResolveType env self).map (fun r => r.2)
    else pure self
  let (self, st) ← if pass = .TypeCheck then Subscript.typeCheck env self st else pure (self, st)
  if pass = .CodeGeneration then codeGeneration self st else pure (self, st)

end Operations

namespace Example

/-- A `SubscriptCompiler` whose type resolution leaves the nodes as they are, without
index types and without subscript operators. -/
def subscriptCompiler : SubscriptCompiler :=
  ⟨fun s => s, fun s => s, fun _ => none, fun _ => none, fun t => reprStr t⟩

/-- The expression `data[i]` on the `span<float, 8>` variable `data`, before the types are
resolved. -/
def subscriptData (i : Int) : Stmt :=
  .node loc (.Subscript TypeInfo.invalid false .Undefined none none) [spanData, intLiteral i]

/-- The expression `data[i]` after the DataAllocation pass. -/
def subscriptDataResolved (i : Int) : Stmt :=
  .node loc (.Subscript (TypeInfo.ofID .Float) false .Span (some spanOf8Floats) none)
    [spanData, intLiteral i]

end Example

/-! ## `VariableReference::validateLocalDefinition` -/

/-- Modelled from the spec: `BaseScope::ScopeType`, "one of Global, Class, Function,
Block/Register". -/
inductive ScopeType where
  | Global
  | Class
  | Function
  | Anonymous
  deriving DecidableEq, Repr

/-- What `validateLocalDefinition` reads of the scope `scope->getScopeForSymbol(id.id)`
that already holds the symbol: its scope type, whether it is a `ClassScope` and whether
the member `typePtr` of that class scope is set. -/
structure ExistingScope where
  scopeType : ScopeType
  isClassScope : Bool
  hasTypePtr : Bool
  deriving DecidableEq, Repr

namespace Operations

/-- The method `VariableReference::validateLocalDefinition`: the returned flag and the
state with the logged warning, or the thrown error. `toString` is `Symbol::toString`,
`getScopeForSymbol` the lookup of the scope that holds a symbol (null when none does). -/
def VariableReference.validateLocalDefinition (toString : Symbol → String)
    (getScopeForSymbol : String → Option ExistingScope) (self : Stmt) (st : CompileState) :
    Except CompileError (Bool × CompileState) :=
  match self with
  | .node _ (.VariableReference id) _ =>
      let st :=
        match getScopeForSymbol id.id with
        | some es =>
            let isAlreadyDefinedSubClassMember := if es.isClassScope then es.hasTypePtr else false
            let w := "declaration of " ++ toString id ++ " hides "
            let w := match es.scopeType with
              | .Class => w ++ "class member"
              | .Global => w ++ "global variable"
              | _ => w ++ "previous declaration"
            if !isAlreadyDefinedSubClassMember then st.logWarning w else st
        | none => st
      if self.getType == .Dynamic then
        .error (.thrown ("Use of undefined variable " ++ toString id))
      else .ok (true, st)
  | _ => .error .nullPointer

end Operations

/-! ## `HiseSettings::Data::checkInput` (`hi_core/hi_core/HiseSettings.cpp`) -/

/-- The result of `String::getFloatValue()` followed by the tests `std::isnan` and
`std::isinf`: not a number, infinite, or a finite float, which is a rational number. -/
inductive FloatValue where
  | nan
  | inf
  | finite (number : ℚ)

/-- Modelled from the spec: `juce::Range<float>::contains(position)` of the JUCE library,
which documents that "the start value is considered to be inclusive, and the end of the
range exclusive": `start <= position && position < end`. -/
def Range.contains (range : ℚ × ℚ) (position : ℚ) : Bool :=
  decide (range.1 ≤ position) && decide (position < range.2)

/-- The settings identifiers `checkInput` tests: the autosave interval and the others. -/
inductive SettingId where
  | AutosaveInterval
  | other (name : String)
  deriving DecidableEq, Repr

/-- What `checkInput` uses of other files: `value.toString().getFloatValue()` with its
classification, `FloatSanitizers::sanitizeFloatNumber`, and the tests of the settings other
than the autosave interval (the error message when one fails). -/
structure SettingsEnvironment (Value : Type) where
  getFloatValue : Value → FloatValue
  sanitizeFloatNumber : ℚ → ℚ
  checkOther : String → Value → Option String

/-- The function `HiseSettings::Data::TestFunctions::isValidNumberBetween`. -/
def TestFunctions.isValidNumberBetween {Value : Type} (env : SettingsEnvironment Value)
    (value : Value) (range : ℚ × ℚ) : Bool :=
  match env.getFloatValue value with
  | .nan => false
  | .inf => false
  | .finite number =>
      let number := env.sanitizeFloatNumber number
      Range.contains range number

/-- The method `HiseSettings::Data::checkInput`: the message of `Result::fail`, or none for
`Result::ok()`. -/
def HiseSettings.checkInput {Value : Type} (env : SettingsEnvironment Value) (id : SettingId)
    (newValue : Value) : Option String :=
  if id = .AutosaveInterval && !(TestFunctions.isValidNumberBetween env newValue (1, 30)) then
    some "The autosave interval must be between 1 and 30 minutes"
  else
    match id with
    | .AutosaveInterval => none
    | .other name => env.checkOther name newValue

namespace Example

/-- The symbol text: the name of the symbol. -/
def symbolName (s : Symbol) : String := s.id

/-- A settings environment for integer values: the value `n` reads as the float `n`, which
the sanitizer leaves as it is. -/
def integerSettings : SettingsEnvironment Int :=
  ⟨fun n => .finite n, fun q => q, fun _ _ => none⟩

end Example

/-! ## `Operations::InlinedParameter` -/

/-- What an `InlinedParameter` reads of the expression `source` it refers to (which is not
one of its children): the members `currentPass` and `reg` of the statement.
`processCalls` counts the calls of `process` on the expression in the CodeGeneration
pass. -/
structure SourceExpression where
  currentPass : Option Pass
  reg : Option Reg
  processCalls : Nat
  deriving DecidableEq, Repr

namespace Operations

/-- Modelled from the spec: the virtual `process` of the source expression in the
CodeGeneration pass. The base processing with which every `process` of this header starts
records the pass in `currentPass` ("each node tracks its current pass, to detect
re-entrancy"); `codeGeneration` is what the expression then does to its register. -/
def Statement.processSource (codeGeneration : Option Reg → Except CompileError (Option Reg))
    (source : SourceExpression) : Except CompileError SourceExpression := do
  let reg ← codeGeneration source.reg
  pure ⟨some .CodeGeneration, reg, source.processCalls + 1⟩

/-- The method `InlinedParameter::process` on the member `reg` of the node and on its
source: the base processing (the node has no children) is followed by the blocks of the
RegisterAllocation and the CodeGeneration pass. -/
def InlinedParameter.process (codeGeneration : Option Reg → Except CompileError (Option Reg))
    (pass : Pass) (reg : Option Reg) (source : SourceExpression) :
    Except CompileError (Option Reg × SourceExpression) := do
  let reg := if pass = .RegisterAllocation then source.reg else reg
  if pass = .CodeGeneration then
    let source ←
      if source.currentPass ≠ some .CodeGeneration then
        Statement.processSource codeGeneration source
      else pure source
    let reg := if reg.isNone then source.reg else reg
    pure (reg, source)
  else pure (reg, source)

end Operations

namespace Example

end Example

/-! ## `VariableReference::reuseAllLastReferences` -/

/-- The members of the nodes of a tree that `reuseAllLastReferences` reads, by the path of
the node: the register `reg` of an expression (none for the null pointer) and the
`parameterIndex` of a variable reference. -/
structure RegisterView where
  reg : List Nat → Option Reg
  parameterIndex : List Nat → Int

namespace Operations

/-- The first loop of `reuseAllLastReferences`: the registers of the statement and of its
parents, from the statement upwards, as long as the cast to `Expression` gives a
statement. The cast succeeds for every statement (see `Kind.isExpression`), so the loop
ends after the root, whose parent link is null. -/
def VariableReference.parentRegisters (root : Stmt) (view : RegisterView)
    (parentStatement : List Nat) : List Reg :=
  (parentStatement.inits.reverse.takeWhile (Stmt.isTypeAt Kind.isExpression root)).filterMap
    view.reg

/-- The second loop of `reuseAllLastReferences` over the variable references `v` the
walker returns: the registers on which `flagForReuse()` is called, in the order of the
calls. `isLast` is the method `isLastVariableReference`. -/
def VariableReference.reuseLoop (isLast : List Nat → Bool) (view : RegisterView)
    (parentRegisters : List Reg) : List (List Nat × Symbol) → Except CompileError (List Reg)
  | [] => .ok []
  | (v, _) :: w =>
      if (match view.reg v with
          | some r => parentRegisters.contains r
          | none => false) then
        VariableReference.reuseLoop isLast view parentRegisters w
      else if isLast v then
        if view.parameterIndex v != -1 then
          VariableReference.reuseLoop isLast view parentRegisters w
        else
          match view.reg v with
          | none => .error .nullPointer
          | some r => (VariableReference.reuseLoop isLast view parentRegisters w).map (r :: ·)
      else VariableReference.reuseLoop isLast view parentRegisters w

/-- The body of the static method `VariableReference::reuseAllLastReferences` for the
statement at path `parentStatement` of the tree `root`, with the method
`isLastVariableReference` it calls on every reference as the parameter `isLast`: the
registers it flags for reuse. The walker scans the statement and what is below it. -/
def VariableReference.reuseAllLastReferencesWith (isLast : List Nat → Bool) (root : Stmt)
    (view : RegisterView) (parentStatement : List Nat) : Except CompileError (List Reg) :=
  match root.get? parentStatement with
  | some p =>
      VariableReference.reuseLoop isLast view
        (VariableReference.parentRegisters root view parentStatement)
        (SyntaxTreeWalker.variableReferences (SyntaxTreeWalker.scan p parentStatement))
  | none => .error .nullPointer

/-- The static method `VariableReference::reuseAllLastReferences(parentStatement)`: the
body above with `VariableReference::isLastVariableReference` of this header. -/
def VariableReference.reuseAllLastReferences (root : Stmt) (view : RegisterView)
    (parentStatement : List Nat) : Except CompileError (List Reg) :=
  VariableReference.reuseAllLastReferencesWith (VariableReference.isLastVariableReference root)
    root view parentStatement

end Operations

namespace Example

/-- Registers for `x * 2`: the binary operation holds register 1, the reference to `x`
register 2 and the literal register 3; no reference is a function parameter. -/
def timesTwoRegisters : RegisterView :=
  ⟨fun p => if p = [] then some 1 else if p = [0] then some 2 else if p = [1] then some 3
    else none, fun _ => -1⟩

/-- The statement `while (z) { x = x * y; }`. -/
def whileAssignProduct : Stmt :=
  .node loc .WhileLoop
    [var "z",
     .node loc (.StatementBlock false (TypeInfo.ofID .Void))
      [assign (var "x") (.node loc (.BinaryOp JitTokens.times false) [var "x", var "y"])]]

/-- Registers for `while (z) { x = x * y; }`: the loop holds register 9, the reference to
`z` register 8, the block none, the assignment register 4, the product register 1, its
operand `x` register 9 (the register of the loop), its operand `y` register 3 and the
assigned `x` register 4; no reference is a function parameter. -/
def whileAssignRegisters : RegisterView :=
  ⟨fun p =>
      if p = [] then some 9 else if p = [0] then some 8
      else if p = [1, 0] then some 4 else if p = [1, 0, 0] then some 1
      else if p = [1, 0, 0, 0] then some 9 else if p = [1, 0, 0, 1] then some 3
      else if p = [1, 0, 1] then some 4 else none,
    fun _ => -1⟩

end Example

/-! ## `clone` -/

/-- The use of a cloned statement as a child of the new node: `addStatement` sets the
parent link of the statement it is given, so the null pointer cannot be added. -/
def addStatement (cloned : Option Stmt) : Except CompileError Stmt :=
  match cloned with
  | some s => .ok s
  | none => .error .nullPointer

mutual
/-- The virtual `clone(l)` with the overrides of this header; the result is the new node,
or none for the null pointer. The constructors give the members that are not copied their
initial values. `cloneScopeProperties` of a `StatementBlock` copies the return type;
`TemplateDefinition::clone` and `TemplatedFunction::clone` also add the clone to the
list `clones` of the node they are called on, which this tree does not show. -/
def Stmt.clone (l : Location) : Stmt → Except CompileError (Option Stmt)
  | .node _ (.InlinedArgument argIndex s) cs => do
      let c1 ← Stmt.cloneSubExpr l cs 0
      pure (some (.node l (.InlinedArgument argIndex s) [c1]))
  | .node _ (.StatementBlock isInlinedFunction returnType) cs => do
      let children ← Stmt.cloneChildren l cs
      pure (some (.node l (.StatementBlock isInlinedFunction returnType) children))
  | .node _ .Noop _ => pure (some (.node l .Noop []))
  | .node _ (.Immediate v) _ => pure (some (.node l (.Immediate v) []))
  | .node _ (.VariableReference id) _ => pure (some (.node l (.VariableReference id) []))
  | .node _ (.Cast targetType) cs => do
      let cc ← Stmt.cloneSubExpr l cs 0
      pure (some (.node l (.Cast (TypeInfo.ofID targetType.getType)) [cc]))
  | .node _ (.DotOperator _) cs => do
      let cp ← Stmt.cloneSubExpr l cs 0
      let cc ← Stmt.cloneSubExpr l cs 1
      pure (some (.node l (.DotOperator TypeInfo.invalid) [cp, cc]))
  | .node _ (.Assignment assignmentType isFirstAssignment) cs => do
      let ce ← Stmt.cloneSubExpr l cs 0
      let ct ← Stmt.cloneSubExpr l cs 1
      pure (some (.node l (.Assignment assignmentType isFirstAssignment) [ce, ct]))
  | .node _ (.Compare op _) cs => do
      let c1 ← Stmt.cloneSubExpr l cs 0
      let c2 ← Stmt.cloneSubExpr l cs 1
      pure (some (.node l (.Compare op false) [c1, c2]))
  | .node _ .LogicalNot cs => do
      let c1 ← Stmt.cloneSubExpr l cs 0
      pure (some (.node l .LogicalNot [c1]))
  | .node _ (.TernaryOp _) cs => do
      let c1 ← Stmt.cloneSubExpr l cs 0
      let c2 ← Stmt.cloneSubExpr l cs 1
      let c3 ← Stmt.cloneSubExpr l cs 2
      pure (some (.node l (.TernaryOp TypeInfo.invalid) [c1, c2, c3]))
  | .node _ (.FunctionCall functionId numTemplateParameters returnType hasObjectExpression) cs =>
      match hasObjectExpression, cs with
      | true, object :: arguments =>
          if object.kind.isExpression then do
            let clonedObject ← Stmt.clone l object >>= addStatement
            let clonedArguments ← Stmt.cloneArguments l arguments
            pure (some (.node l (.FunctionCall functionId numTemplateParameters returnType true)
              (clonedObject :: clonedArguments)))
          else do
            let clonedArguments ← Stmt.cloneArguments l arguments
            pure (some (.node l (.FunctionCall functionId numTemplateParameters returnType false)
              clonedArguments))
      | true, [] =>
          pure (some (.node l (.FunctionCall functionId numTemplateParameters returnType false) []))
      | false, arguments => do
          let clonedArguments ← Stmt.cloneArguments l arguments
          pure (some (.node l (.FunctionCall functionId numTemplateParameters returnType false)
            clonedArguments))
  | .node _ (.ReturnStatement listReturnType) cs =>
      if listReturnType.isID .Void then
        pure (some (.node l (.ReturnStatement listReturnType) []))
      else do
        let p ← Stmt.cloneSubExpr l cs 0
        pure (some (.node l (.ReturnStatement listReturnType) [p]))
  | .node _ (.BinaryOp op _) cs => do
      let c1 ← Stmt.cloneSubExpr l cs 0
      let c2 ← Stmt.cloneSubExpr l cs 1
      pure (some (.node l (.BinaryOp op false) [c1, c2]))
  | .node _ (.Increment isPreInc isDecrement) cs => do
      let c1 ← Stmt.cloneSubExpr l cs 0
      pure (some (.node l (.Increment isPreInc isDecrement) [c1]))
  | .node _ .WhileLoop cs => do
      let c ← Stmt.cloneSubExpr l cs 0
      let b ← Stmt.cloneSubExpr l cs 1
      pure (some (.node l .WhileLoop [c, b]))
  | .node _ (.Loop iterator _ _ _) cs => do
      let c1 ← Stmt.cloneSubExpr l cs 0
      let c2 ← Stmt.cloneSubExpr l cs 1
      pure (some (.node l (.Loop iterator true false .Undefined) [c1, c2]))
  | .node _ (.ControlFlowStatement isBreak _) _ =>
      pure (some (.node l (.ControlFlowStatement isBreak none) []))
  | .node _ .Negation cs => do
      let c1 ← Stmt.cloneSubExpr l cs 0
      pure (some (.node l .Negation [c1]))
  | .node _ .IfStatement cs =>
      match cs with
      | c :: t :: rest => do
          let c1 ← Stmt.clone l c
          let c2 ← Stmt.clone l t
          let c3 ← match rest with
            | f :: _ => Stmt.clone l f
            | [] => pure none
          let cond ← match c1 with
            | some s => if s.kind.isExpression then pure s else throw CompileError.nullPointer
            | none => throw CompileError.nullPointer
          let trueBranch ← addStatement c2
          match c3 with
          | some falseBranch => pure (some (.node l .IfStatement [cond, trueBranch, falseBranch]))
          | none => pure (some (.node l .IfStatement [cond, trueBranch]))
      | _ => throw CompileError.nullPointer
  | .node _ (.Subscript elementType isWriteAccess _ _ _) cs => do
      let c1 ← Stmt.cloneSubExpr l cs 0
      let c2 ← Stmt.cloneSubExpr l cs 1
      pure (some (.node l (.Subscript elementType isWriteAccess .Undefined none none) [c1, c2]))
  | .node _ (.ThisPointer type) _ => pure (some (.node l (.ThisPointer type) []))
  | .node _ (.MemoryReference type offsetInBytes) cs => do
      let p ← Stmt.cloneSubExpr l cs 0
      pure (some (.node l (.MemoryReference type offsetInBytes) [p]))
  | .node _ .PointerAccess cs => do
      let c ← Stmt.cloneSubExpr l cs 0
      pure (some (.node l .PointerAccess [c]))
  | .node _ (.ClassStatement _) _ => pure none
  | .node _ (.TemplateDefinition templateClassId) cs =>
      match cs with
      | statements :: _ => do
          let cs ← Stmt.clone l statements
          match cs with
          | some s => pure (some (.node l (.TemplateDefinition templateClassId) [s]))
          | none => pure (some (.node l (.TemplateDefinition templateClassId) []))
      | [] => throw CompileError.nullPointer
  | .node _ (.Function id returnType numTemplateParameters) _ =>
      pure (some (.node l (.Function id returnType numTemplateParameters) []))
  | .node _ (.TemplatedFunction id returnType isVariadic) cs => do
      let children ← Stmt.cloneChildren l cs
      pure (some (.node l (.TemplatedFunction id returnType isVariadic) children))
  | .node _ (.ComplexTypeDefinition ids type initValues) cs => do
      let children ← Stmt.cloneChildren l cs
      pure (some (.node l (.ComplexTypeDefinition ids type initValues) children))
/-- The expression `getSubExpr(index)->clone(l)`, added to the new node. -/
def Stmt.cloneSubExpr (l : Location) : List Stmt → Nat → Except CompileError Stmt
  | [], _ => .error .nullPointer
  | c :: _, 0 =>
      if c.kind.isExpression then Stmt.clone l c >>= addStatement else .error .nullPointer
  | _ :: cs, index + 1 => Stmt.cloneSubExpr l cs index
/-- The loop `newFC->addArgument(getArgument(i)->clone(l))` of `FunctionCall::clone` over
the arguments. -/
def Stmt.cloneArguments (l : Location) : List Stmt → Except CompileError (List Stmt)
  | [] => .ok []
  | c :: cs =>
      if c.kind.isExpression then do
        let argument ← Stmt.clone l c >>= addStatement
        let arguments ← Stmt.cloneArguments l cs
        pure (argument :: arguments)
      else .error .nullPointer
/-- Modelled from the spec: `cloneChildren(newStatement)` of the `Statement` base class,
which adds a clone of every child, in order, to the new statement. -/
def Stmt.cloneChildren (l : Location) : List Stmt → Except CompileError (List Stmt)
  | [] => .ok []
  | c :: cs => do
      let child ← Stmt.clone l c >>= addStatement
      let children ← Stmt.cloneChildren l cs
      pure (child :: children)
end

/-- The name of the struct of a node kind (what a `dynamic_cast` tells apart). -/
def Kind.typeName : Kind → String
  | .InlinedArgument _ _ => "InlinedArgument"
  | .StatementBlock _ _ => "StatementBlock"
  | .Noop => "Noop"
  | .Immediate _ => "Immediate"
  | .VariableReference _ => "VariableReference"
  | .Cast _ => "Cast"
  | .DotOperator _ => "DotOperator"
  | .Assignment _ _ => "Assignment"
  | .Compare _ _ => "Compare"
  | .LogicalNot => "LogicalNot"
  | .TernaryOp _ => "TernaryOp"
  | .FunctionCall _ _ _ _ => "FunctionCall"
  | .ReturnStatement _ => "ReturnStatement"
  | .BinaryOp _ _ => "BinaryOp"
  | .Increment _ _ => "Increment"
  | .WhileLoop => "WhileLoop"
  | .Loop _ _ _ _ => "Loop"
  | .ControlFlowStatement _ _ => "ControlFlowStatement"
  | .Negation => "Negation"
  | .IfStatement => "IfStatement"
  | .Subscript _ _ _ _ _ => "Subscript"
  | .ThisPointer _ => "ThisPointer"
  | .MemoryReference _ _ => "MemoryReference"
  | .PointerAccess => "PointerAccess"
  | .ClassStatement _ => "ClassStatement"
  | .TemplateDefinition _ => "TemplateDefinition"
  | .Function _ _ _ => "Function"
  | .TemplatedFunction _ _ _ => "TemplatedFunction"
  | .ComplexTypeDefinition _ _ _ => "ComplexTypeDefinition"

/-- The members of a node kind right after its constructor has run with the same
arguments: the members no constructor argument sets have their initial values
(`useAsmFlag`, `usesTempRegister`, `parentLoop`, the type of a `TernaryOp`, the resolved
type of a `DotOperator`, the array kind and types of a `Subscript`, the flags and target
kind of a `Loop`). The element type and the write flag of a `Subscript` are kept, they
are what `Subscript::clone` copies after the construction. -/
def Kind.constructed : Kind → Kind
  | .DotOperator _ => .DotOperator TypeInfo.invalid
  | .Compare op _ => .Compare op false
  | .TernaryOp _ => .TernaryOp TypeInfo.invalid
  | .BinaryOp op _ => .BinaryOp op false
  | .Loop iterator _ _ _ => .Loop iterator true false .Undefined
  | .ControlFlowStatement isBreak _ => .ControlFlowStatement isBreak none
  | .Subscript elementType isWriteAccess _ _ _ =>
      .Subscript elementType isWriteAccess .Undefined none none
  | kind => kind

mutual
/-- The tree with the same nodes and children in which every node has the location `l`
and the members of `Kind.constructed`. -/
def Stmt.constructedAt (l : Location) : Stmt → Stmt
  | .node _ kind cs => .node l kind.constructed (Stmt.constructedAtList l cs)
/-- The trees of a list, each `Stmt.constructedAt`. -/
def Stmt.constructedAtList (l : Location) : List Stmt → List Stmt
  | [] => []
  | c :: cs => Stmt.constructedAt l c :: Stmt.constructedAtList l cs
end

/-- A tree built from `Immediate`, `VariableReference`, `Cast`, `BinaryOp`, `Compare`,
`LogicalNot`, `Negation`, `TernaryOp`, `Increment`, `Subscript`, `DotOperator`,
`ControlFlowStatement`, `IfStatement` and `WhileLoop` nodes, each with the children its
constructor adds: the operands are what `getSubExpr` returns (its cast to `Expression`
succeeds for every statement, see `Kind.isExpression`), the branches of an `IfStatement`
are any statement of these kinds, and the target type of a
`Cast` is the `TypeInfo` of a native type, as its constructor sets it. -/
def Stmt.isBasicTree : Stmt → Bool
  | .node _ (.Immediate _) [] => true
  | .node _ (.VariableReference _) [] => true
  | .node _ (.ControlFlowStatement _ _) [] => true
  | .node _ (.Cast targetType) [c] =>
      decide (targetType = TypeInfo.ofID targetType.getType)
        && c.kind.isExpression && c.isBasicTree
  | .node _ .LogicalNot [c] => c.kind.isExpression && c.isBasicTree
  | .node _ .Negation [c] => c.kind.isExpression && c.isBasicTree
  | .node _ (.Increment _ _) [c] => c.kind.isExpression && c.isBasicTree
  | .node _ (.BinaryOp _ _) [a, b] =>
      a.kind.isExpression && a.isBasicTree && b.kind.isExpression && b.isBasicTree
  | .node _ (.Compare _ _) [a, b] =>
      a.kind.isExpression && a.isBasicTree && b.kind.isExpression && b.isBasicTree
  | .node _ (.Subscript _ _ _ _ _) [a, b] =>
      a.kind.isExpression && a.isBasicTree && b.kind.isExpression && b.isBasicTree
  | .node _ (.DotOperator _) [a, b] =>
      a.kind.isExpression && a.isBasicTree && b.kind.isExpression && b.isBasicTree
  | .node _ .WhileLoop [a, b] =>
      a.kind.isExpression && a.isBasicTree && b.kind.isExpression && b.isBasicTree
  | .node _ (.TernaryOp _) [a, b, c] =>
      a.kind.isExpression && a.isBasicTree && b.kind.isExpression && b.isBasicTree
        && c.kind.isExpression && c.isBasicTree
  | .node _ .IfStatement [c, t] => c.kind.isExpression && c.isBasicTree && t.isBasicTree
  | .node _ .IfStatement [c, t, f] =>
      c.kind.isExpression && c.isBasicTree && t.isBasicTree && f.isBasicTree
  | _ => false

mutual
/-- A well-formed tree that holds no `ClassStatement` where `clone` descends: every node
has the children its `clone` reads (the operands read with `getSubExpr`, whose cast to
`Expression` succeeds for every statement, the condition and the true branch of an
`IfStatement`, the expression of a `ReturnStatement` of a non-void function, the
`statements` of a `TemplateDefinition`, which may be a `ClassStatement`: the null
pointer its clone returns is stored, not added as a child). -/
def Stmt.cloneable : Stmt → Bool
  | .node _ (.InlinedArgument _ _) (c :: _) => c.kind.isExpression && c.cloneable
  | .node _ (.StatementBlock _ _) cs => Stmt.cloneableList cs
  | .node _ .Noop _ => true
  | .node _ (.Immediate _) _ => true
  | .node _ (.VariableReference _) _ => true
  | .node _ (.Cast _) (c :: _) => c.kind.isExpression && c.cloneable
  | .node _ (.DotOperator _) (a :: b :: _) =>
      a.kind.isExpression && a.cloneable && b.kind.isExpression && b.cloneable
  | .node _ (.Assignment _ _) (a :: b :: _) =>
      a.kind.isExpression && a.cloneable && b.kind.isExpression && b.cloneable
  | .node _ (.Compare _ _) (a :: b :: _) =>
      a.kind.isExpression && a.cloneable && b.kind.isExpression && b.cloneable
  | .node _ .LogicalNot (c :: _) => c.kind.isExpression && c.cloneable
  | .node _ (.TernaryOp _) (a :: b :: c :: _) =>
      a.kind.isExpression && a.cloneable && b.kind.isExpression && b.cloneable
        && c.kind.isExpression && c.cloneable
  | .node _ (.FunctionCall _ _ _ _) cs => Stmt.cloneableExpressions cs
  | .node _ (.ReturnStatement listReturnType) cs =>
      listReturnType.isID .Void ||
        (match cs with
          | c :: _ => c.kind.isExpression && c.cloneable
          | [] => false)
  | .node _ (.BinaryOp _ _) (a :: b :: _) =>
      a.kind.isExpression && a.cloneable && b.kind.isExpression && b.cloneable
  | .node _ (.Increment _ _) (c :: _) => c.kind.isExpression && c.cloneable
  | .node _ .WhileLoop (a :: b :: _) =>
      a.kind.isExpression && a.cloneable && b.kind.isExpression && b.cloneable
  | .node _ (.Loop _ _ _ _) (a :: b :: _) =>
      a.kind.isExpression && a.cloneable && b.kind.isExpression && b.cloneable
  | .node _ (.ControlFlowStatement _ _) _ => true
  | .node _ .Negation (c :: _) => c.kind.isExpression && c.cloneable
  | .node _ .IfStatement (c :: t :: rest) =>
      c.kind.isExpression && c.cloneable && t.cloneable &&
        (match rest with
          | f :: _ => f.cloneable
          | [] => true)
  | .node _ (.Subscript _ _ _ _ _) (a :: b :: _) =>
      a.kind.isExpression && a.cloneable && b.kind.isExpression && b.cloneable
  | .node _ (.ThisPointer _) _ => true
  | .node _ (.MemoryReference _ _) (c :: _) => c.kind.isExpression && c.cloneable
  | .node _ .PointerAccess (c :: _) => c.kind.isExpression && c.cloneable
  | .node _ (.TemplateDefinition _) (statements :: _) =>
      statements.kind.typeName == "ClassStatement" || statements.cloneable
  | .node _ (.Function _ _ _) _ => true
  | .node _ (.TemplatedFunction _ _ _) cs => Stmt.cloneableList cs
  | .node _ (.ComplexTypeDefinition _ _ _) cs => Stmt.cloneableList cs
  | _ => false
/-- Every statement of the list is `Stmt.cloneable`. -/
def Stmt.cloneableList : List Stmt → Bool
  | [] => true
  | c :: cs => c.cloneable && Stmt.cloneableList cs
/-- Every statement of the list can be cast to `Expression` (as every statement can) and
is `Stmt.cloneable`. -/
def Stmt.cloneableExpressions : List Stmt → Bool
  | [] => true
  | c :: cs => c.kind.isExpression && c.cloneable && Stmt.cloneableExpressions cs
end


namespace Example

/-- The statement `if (x < 1) x++; else while (!x) -x;` with the members a compilation
has set: the comparison uses the flag register and the increment is a post-increment. -/
def ifElseWhile : Stmt :=
  .node ⟨3, 1⟩ .IfStatement
    [.node ⟨3, 5⟩ (.Compare JitTokens.lessThan true) [var "x", intLiteral 1],
     .node ⟨3, 17⟩ (.Increment false false) [var "x"],
     .node ⟨4, 6⟩ .WhileLoop
       [.node ⟨4, 13⟩ .LogicalNot [var "x"],
        .node ⟨4, 17⟩ .Negation [var "x"]]]

/-- A class definition `struct X {}`. -/
def classX : Stmt := .node ⟨1, 1⟩ (.ClassStatement "X") [emptyBlock]

/-- The location given to the clones. -/
def cloneLocation : Location := ⟨9, 9⟩

end Example

/-- The node `clone(l)` returns, and the statement itself when the call fails or returns
the null pointer. -/
def Stmt.cloneOr (l : Location) (t : Stmt) : Stmt :=
  match Stmt.clone l t with
  | .ok (some cloned) => cloned
  | _ => t

/-! ## `ComplexTypeDefinition::addInitValues` and the pointers a tree holds -/

/-- The loop of `ComplexTypeDefinition::addInitValues` over the children of the
initialiser list, for the definition at `path` of the tree number `tree` that has
`numChildren` child statements so far: every `ExpressionChild` has its expression added
as a child statement of the definition, so that its pointer `expression` points to that
child; the result is the list as the definition holds it and the statements added. -/
def ComplexTypeDefinition.addInitValuesLoop (tree : Nat) (path : List Nat) :
    Nat → List (Stmt ⊕ VariableStorage) → List InitialiserChild × List Stmt
  | _, [] => ([], [])
  | numChildren, .inl expression :: rest =>
      let r := ComplexTypeDefinition.addInitValuesLoop tree path (numChildren + 1) rest
      (.ExpressionChild (tree, path ++ [numChildren]) :: r.1, expression :: r.2)
  | numChildren, .inr value :: rest =>
      let r := ComplexTypeDefinition.addInitValuesLoop tree path numChildren rest
      (.ImmediateChild value :: r.1, r.2)

/-- The call `addInitValues(l)` on the `ComplexTypeDefinition` at `path` of the tree
number `tree`: `initValues = l`, and the expression of every `ExpressionChild` is added
as a child statement. -/
def ComplexTypeDefinition.addInitValues (tree : Nat) (path : List Nat)
    (l : List (Stmt ⊕ VariableStorage)) : Stmt → Stmt
  | .node loc (.ComplexTypeDefinition ids type _) cs =>
      let r := ComplexTypeDefinition.addInitValuesLoop tree path cs.length l
      .node loc (.ComplexTypeDefinition ids type (some r.1)) (cs ++ r.2)
  | s => s

/-- The pointers to statements that the members of a node hold (the parent and child
links apart): the expressions of the `initValues` of a `ComplexTypeDefinition`. -/
def Kind.expressionPointers : Kind → List NodePointer
  | .ComplexTypeDefinition _ _ (some initValues) =>
      initValues.filterMap fun child =>
        match child with
        | .ExpressionChild expression => some expression
        | .ImmediateChild _ => none
  | _ => []

mutual
/-- The pointers to statements held by the members of the nodes of a tree. -/
def Stmt.expressionPointers : Stmt → List NodePointer
  | .node _ kind cs => kind.expressionPointers ++ Stmt.expressionPointersList cs
/-- The pointers to statements held by the members of the nodes of a list of trees. -/
def Stmt.expressionPointersList : List Stmt → List NodePointer
  | [] => []
  | c :: cs => Stmt.expressionPointers c ++ Stmt.expressionPointersList cs
end

/-- The nodes reachable from the tree number `tree`, as pointers: the nodes of the tree
itself and the nodes its nodes point to through their members. -/
def Stmt.reachableNodes (tree : Nat) (root : Stmt) : List NodePointer :=
  (SyntaxTreeWalker.scan root []).map (fun entry => (tree, entry.1))
    ++ Stmt.expressionPointers root

namespace Example

/-- The definition `span<int, 2> d = { x, 2 };` as the root of the tree number 0: the
initialiser list holds the expression `x` and the constant 2. -/
def spanDefinition : Stmt :=
  ComplexTypeDefinition.addInitValues 0 []
    [.inl (var "x"), .inr ⟨.Integer, 2⟩]
    (.node loc (.ComplexTypeDefinition ["d"] (.span (TypeInfo.ofID .Integer) 2 false false) none) [])

/-- A `StatementBlock` with an `IfStatement`, a template definition of a class and a
function definition. -/
def blockWithTemplate : Stmt :=
  .node loc (.StatementBlock false (TypeInfo.ofID .Void))
    [ifElseWhile,
     .node loc (.TemplateDefinition "T") [classX],
     .node loc (.Function "f" (TypeInfo.ofID .Integer) 0) []]

end Example

/-! ## `TemplatedFunction`: the function instances and their compilation order -/

/-- The outcome of a call that need not return: it ran out of fuel (the depth of nested
calls of `collectFunctionInstances` it is allowed) or it failed. -/
inductive RunError where
  | outOfFuel
  | failed (e : CompileError)
  deriving DecidableEq, Repr

/-- The children of the statement at `path` with their node pointers, `index` being the
index of the first one: what `for (auto f_ : *this)` runs over. -/
def Stmt.childrenFrom (path : List Nat) : Nat → List Stmt → List (List Nat × Stmt)
  | _, [] => []
  | index, c :: cs => (path ++ [index], c) :: Stmt.childrenFrom path (index + 1) cs

/-- Modelled from the spec: `addIfNotAlreadyThere` of the statement list, which appends
the element unless the list holds it already. -/
def addIfNotAlreadyThere (list : List (List Nat)) (p : List Nat) : List (List Nat) :=
  if p ∈ list then list else list ++ [p]

namespace TemplatedFunction

/-- The members `data.id` and `data.templateParameters.size()` read through
`as<Function>(f_)`: the cast of a statement that is no `Function` is the null pointer. -/
def functionData (f : Stmt) : Except RunError (String × Nat) :=
  match f.kind with
  | .Function id _ numTemplateParameters => .ok (id, numTemplateParameters)
  | _ => .error (.failed .nullPointer)

/-- The first loop of `getFunctionWithTemplateAmount`, over the children of the
`TemplatedFunction`: the first `Function` with the id and the number of template
parameters. -/
def findInstance (id : String) (numTemplateParameters : Nat) :
    List (List Nat × Stmt) → Except RunError (Option (List Nat))
  | [] => .ok none
  | (p, f) :: rest => do
      let d ← functionData f
      if id = d.1 ∧ d.2 = numTemplateParameters then pure (some p)
      else findInstance id numTemplateParameters rest

/-- The loop of `getFunctionWithTemplateAmount` over the list that
`tf->collectFunctionInstances()` returned. -/
def findInList (root : Stmt) (id : String) (numTemplateParameters : Nat) :
    List (List Nat) → Except RunError (Option (List Nat))
  | [] => .ok none
  | p :: rest =>
      match root.get? p with
      | some f => do
          let d ← functionData f
          if id = d.1 ∧ d.2 = numTemplateParameters then pure (some p)
          else findInList root id numTemplateParameters rest
      | none => .error (.failed .nullPointer)

/-- The loop `while (auto tf = w.getNextStatementOfType<TemplatedFunction>())` of
`getFunctionWithTemplateAmount` over the statements the walker visits; `collect` is the
call `tf->collectFunctionInstances()`. -/
def walkerLoop (collect : List Nat → Except RunError (List (List Nat))) (root : Stmt)
    (this : List Nat) (id : String) (numTemplateParameters : Nat) :
    List (List Nat × Stmt) → Except RunError (Option (List Nat))
  | [] => .ok none
  | (tf, .node _ (.TemplatedFunction tfId _ _) _) :: rest =>
      if tf = this then walkerLoop collect root this id numTemplateParameters rest
      else if tfId = id then do
        let list ← collect tf
        match ← findInList root id numTemplateParameters list with
        | some f => pure (some f)
        | none => walkerLoop collect root this id numTemplateParameters rest
      else walkerLoop collect root this id numTemplateParameters rest
  | _ :: rest => walkerLoop collect root this id numTemplateParameters rest

/-- The body of `getFunctionWithTemplateAmount(id, numTemplateParameters)` on the
`TemplatedFunction` at `this`, with the call `tf->collectFunctionInstances()` as
`collect`: the children first, then the instances of the other `TemplatedFunction`
statements of the tree with the id; none is the null pointer. -/
def getFunctionWithTemplateAmountWith (collect : List Nat → Except RunError (List (List Nat)))
    (root : Stmt) (this : List Nat) (id : String) (numTemplateParameters : Nat) :
    Except RunError (Option (List Nat)) :=
  match root.get? this with
  | some (.node _ _ cs) => do
      match ← findInstance id numTemplateParameters (Stmt.childrenFrom this 0 cs) with
      | some f => pure (some f)
      | none =>
          walkerLoop collect root this id numTemplateParameters (SyntaxTreeWalker.scan root [])
  | none => .error (.failed .nullPointer)

/-- The callback of `f->statements->forEachRecursive(...)` in `collectFunctionInstances`,
run over the statements visited: a `FunctionCall` with the id of the `TemplatedFunction`
has the instance with its number of template parameters looked up (`getFunction`) and
added to the list when there is one. -/
def scanCalls (getFunction : String → Nat → Except RunError (Option (List Nat)))
    (id : String) : List (List Nat × Stmt) → List (List Nat) → Except RunError (List (List Nat))
  | [], orderedFunctions => .ok orderedFunctions
  | (_, .node _ (.FunctionCall functionId numThisF _ _) _) :: rest, orderedFunctions =>
      if functionId = id then do
        match ← getFunction id numThisF with
        | some rf => scanCalls getFunction id rest (addIfNotAlreadyThere orderedFunctions rf)
        | none => scanCalls getFunction id rest orderedFunctions
      else scanCalls getFunction id rest orderedFunctions
  | _ :: rest, orderedFunctions => scanCalls getFunction id rest orderedFunctions

/-- The loop of `collectFunctionInstances` over the children of the `TemplatedFunction`.
The member `statements` of a `Function` is its first child statement here (no child is
the null pointer). Modelled from the spec: `forEachRecursive`, which visits the statement
and every statement below it. -/
def collectLoop (getFunction : String → Nat → Except RunError (Option (List Nat)))
    (id : String) : List (List Nat × Stmt) → List (List Nat) → Except RunError (List (List Nat))
  | [], orderedFunctions => .ok orderedFunctions
  | (p, f) :: rest, orderedFunctions => do
      let _ ← functionData f
      match f.children with
      | statements :: _ => do
          let found ← scanCalls getFunction id (SyntaxTreeWalker.scan statements (p ++ [0]))
            orderedFunctions
          collectLoop getFunction id rest (addIfNotAlreadyThere found p)
      | [] => .error (.failed .nullPointer)

/-- The body of `collectFunctionInstances()` on the `TemplatedFunction` at `this`, with
the call `getFunctionWithTemplateAmount` as `getFunction`. -/
def collectFunctionInstancesWith
    (getFunction : String → Nat → Except RunError (Option (List Nat)))
    (root : Stmt) (this : List Nat) : Except RunError (List (List Nat)) :=
  match root.get? this with
  | some (.node _ (.TemplatedFunction id _ _) cs) =>
      collectLoop getFunction id (Stmt.childrenFrom this 0 cs) []
  | _ => .error (.failed .nullPointer)

/-- The call `collectFunctionInstances()` on the `TemplatedFunction` at `this`. The
method and `getFunctionWithTemplateAmount` call each other; `fuel` bounds the depth of
the nested calls of `collectFunctionInstances`. -/
def collectFunctionInstances (root : Stmt) : Nat → List Nat → Except RunError (List (List Nat))
  | 0, _ => .error .outOfFuel
  | fuel + 1, this =>
      collectFunctionInstancesWith
        (fun id numTemplateParameters =>
          getFunctionWithTemplateAmountWith (collectFunctionInstances root fuel) root this id
            numTemplateParameters)
        root this

/-- The call `getFunctionWithTemplateAmount(id, numTemplateParameters)` on the
`TemplatedFunction` at `this`. -/
def getFunctionWithTemplateAmount (root : Stmt) (fuel : Nat) (this : List Nat) (id : String)
    (numTemplateParameters : Nat) : Except RunError (Option (List Nat)) :=
  getFunctionWithTemplateAmountWith (collectFunctionInstances root fuel) root this id
    numTemplateParameters

/-- The number `data.templateParameters.size()` of the `Function` a pointer of the list
points to. -/
def numTemplateParameters (root : Stmt) (p : List Nat) : Nat :=
  match root.get? p with
  | some (.node _ (.Function _ _ n) _) => n
  | _ => 0

/-- The comparator `Sorter::compareElements(first, second)`. -/
def Sorter.compareElements (root : Stmt) (first second : List Nat) : Int :=
  let s1 := numTemplateParameters root first
  let s2 := numTemplateParameters root second
  if s1 > s2 then 1
  else if s1 < s2 then -1
  else 0

/-- The statements on which `TemplatedFunction::process` calls `process` in the
FunctionCompilation pass, in the order of the calls: for a variadic template the sorted
list of the collected instances (then the method returns), else the children
(`processAllChildren`). The method `sort` of the list takes the comparator; it belongs
to the array class and is a parameter. -/
def functionCompilation (sort : (List Nat → List Nat → Int) → List (List Nat) → List (List Nat))
    (root : Stmt) (fuel : Nat) (this : List Nat) : Except RunError (List (List Nat)) :=
  match root.get? this with
  | some (.node _ (.TemplatedFunction _ _ true) _) => do
      let list ← collectFunctionInstances root fuel this
      pure (sort (Sorter.compareElements root) list)
  | some (.node _ _ cs) => pure ((Stmt.childrenFrom this 0 cs).map Prod.fst)
  | none => .error (.failed .nullPointer)

end TemplatedFunction

namespace Example

/-- A call `sum<...>()` with `n` template arguments. -/
def callSum (n : Nat) : Stmt :=
  .node loc (.FunctionCall "sum" n (TypeInfo.ofID .Integer) false) []

/-- An instance of the function template `sum` with `n` template arguments and a body of
the given statements. -/
def sumInstance (n : Nat) (body : List Stmt) : Stmt :=
  .node loc (.Function "sum" (TypeInfo.ofID .Integer) n)
    [.node loc (.StatementBlock false (TypeInfo.ofID .Integer)) body]

/-- A block with the variadic function template `sum` and its three instances in the
order of their creation: `sum` with three template arguments, which calls the instance
with two, the instance with two, which calls the instance with one, and the instance
with one, which calls no instance. -/
def variadicSum : Stmt :=
  .node loc (.StatementBlock false (TypeInfo.ofID .Void))
    [.node loc (.TemplatedFunction "sum" (TypeInfo.ofID .Integer) true)
      [sumInstance 3 [.node loc (.ReturnStatement (TypeInfo.ofID .Integer)) [callSum 2]],
       sumInstance 2 [.node loc (.ReturnStatement (TypeInfo.ofID .Integer)) [callSum 1]],
       sumInstance 1 [.node loc (.ReturnStatement (TypeInfo.ofID .Integer)) [intLiteral 0]]]]

/-- A sort of a list with a comparator (insertion sort, which keeps the order of
equivalent elements). -/
def sortWith (compareElements : List Nat → List Nat → Int) (list : List (List Nat)) :
    List (List Nat) :=
  list.insertionSort (fun a b => compareElements a b ≤ 0)

end Example

/-! ## `Operations::BinaryOp`: the code generation of an arithmetic operation -/

/-- The calls into the `AsmCodeGenerator` (declared in another file) that
`BinaryOp::process` makes, with the registers they are given. -/
inductive AsmCall where
  | emitComment (text : String)
  | emitStore (target value : Reg)
  | emitBinaryOp (op : TokenType) (target value : Reg)
  | emitLogicOp (statement : List Nat)
  deriving DecidableEq, Repr

/-- What `BinaryOp::process` uses of `AssemblyRegister` and of the register pool of the
compiler, all declared in other files; `R` is the state of the registers and of the pool:
`canBeReused()`, `flagForReuse()`, `removeReuseFlag()` of a register and
`getRegFromPool(scope, type)`. -/
structure RegisterPool (R : Type) where
  canBeReused : R → Reg → Bool
  flagForReuse : R → Reg → R
  removeReuseFlag : R → Reg → R
  getRegFromPool : R → TypeInfo → Reg × R

/-- The assignment to the member `reg` of the expression at a path. -/
def RegisterView.setReg (view : RegisterView) (path : List Nat) (r : Reg) : RegisterView :=
  { view with reg := fun p => if p = path then some r else view.reg p }

/-- What the code generation of a node reads and writes: the tree, the registers of its
expressions, the state of the registers and the calls into the `AsmCodeGenerator` made
so far. -/
structure CodeGenState (R : Type) where
  root : Stmt
  view : RegisterView
  registers : R
  calls : List AsmCall

/-- Modelled from the spec: `getSubRegister(index)` of the statement at `this`, the
register of the sub expression `getSubExpr(index)`. -/
def Stmt.getSubRegister (root : Stmt) (view : RegisterView) (this : List Nat) (index : Nat) :
    Except CompileError (Option Reg) :=
  match root.get? this with
  | some self =>
      match self.getSubExpr index with
      | some _ => .ok (view.reg (this ++ [index]))
      | none => .error .nullPointer
  | none => .error .nullPointer

/-- The register behind a pointer that is dereferenced. -/
def Reg.deref (r : Option Reg) : Except CompileError Reg :=
  match r with
  | some r => .ok r
  | none => .error .nullPointer

namespace Operations

/-- The method `BinaryOp::isLogicOp`. -/
def BinaryOp.isLogicOp (op : TokenType) : Bool :=
  op == JitTokens.logicalOr || op == JitTokens.logicalAnd

/-- The assignment to the member `usesTempRegister`. -/
def BinaryOp.setUsesTempRegister (usesTempRegister : Bool) : Stmt → Stmt
  | .node l (.BinaryOp op _) cs => .node l (.BinaryOp op usesTempRegister) cs
  | s => s

/-- The test `childOp->usesTempRegister` on `dynamic_cast<BinaryOp*>(getSubExpr(0))`:
whether the left operand is a `BinaryOp` that uses a temporary register. -/
def BinaryOp.leftUsesTempRegister (self : Stmt) : Bool :=
  match self.getSubExpr 0 with
  | some (.node _ (.BinaryOp _ usesTempRegister) _) => usesTempRegister
  | _ => false

/-- The statement `if (childOp->usesTempRegister) l->flagForReuse();` for the left operand
with the register `l`. -/
def BinaryOp.flagTempOperand {R : Type} (pool : RegisterPool R) (self : Stmt) (registers : R)
    (l : Reg) : R :=
  if BinaryOp.leftUsesTempRegister self then pool.flagForReuse registers l else registers

/-- The two calls `VariableReference::reuseAllLastReferences(getChildStatement(i))` at the
end of the code generation: every register they flag has `flagForReuse()` called. -/
def BinaryOp.reuseOperands {R : Type} (pool : RegisterPool R) (this : List Nat)
    (s : CodeGenState R) : Except CompileError (CodeGenState R) := do
  let flagged0 ← VariableReference.reuseAllLastReferences s.root s.view (this ++ [0])
  let flagged1 ← VariableReference.reuseAllLastReferences s.root s.view (this ++ [1])
  pure { s with registers := (flagged0 ++ flagged1).foldl pool.flagForReuse s.registers }

/-- The branch of the `COMPILER_PASS(BaseCompiler::CodeGeneration)` block of
`BinaryOp::process` for an operator that is no logic operator, for the node at `this`. -/
def BinaryOp.emitArithmetic {R : Type} (pool : RegisterPool R) (this : List Nat)
    (s : CodeGenState R) : Except CompileError (CodeGenState R) :=
  match s.root.get? this with
  | some (.node loc (.BinaryOp op usesTempRegister) cs) => do
      let self := Stmt.node loc (.BinaryOp op usesTempRegister) cs
      let l ← s.root.getSubRegister s.view this 0 >>= Reg.deref
      let s := { s with registers := BinaryOp.flagTempOperand pool self s.registers l,
                        root := s.root.modifyAt this (BinaryOp.setUsesTempRegister false) }
      let s ←
        if pool.canBeReused s.registers l then
          pure { s with view := s.view.setReg this l,
                        registers := pool.removeReuseFlag s.registers l }
        else do
          let s :=
            match s.view.reg this with
            | some _ => s
            | none =>
                let r := pool.getRegFromPool s.registers self.getTypeInfo
                { s with calls := s.calls ++ [AsmCall.emitComment "temp register for binary op"],
                         view := s.view.setReg this r.1, registers := r.2,
                         root := s.root.modifyAt this (BinaryOp.setUsesTempRegister true) }
          let reg ← Reg.deref (s.view.reg this)
          let value ← s.root.getSubRegister s.view this 0 >>= Reg.deref
          pure { s with calls := s.calls ++ [AsmCall.emitStore reg value] }
      let reg ← Reg.deref (s.view.reg this)
      let value ← s.root.getSubRegister s.view this 1 >>= Reg.deref
      let s := { s with calls := s.calls ++ [AsmCall.emitBinaryOp op reg value] }
      BinaryOp.reuseOperands pool this s
  | _ => .error .nullPointer

end Operations

namespace Example

/-- A register state for the examples: the registers flagged for reuse and the number of
registers the pool has handed out; the pool hands out the registers from 100 on. -/
structure Registers where
  reusable : List Reg
  handedOut : Nat
  deriving DecidableEq, Repr

/-- A register pool on `Registers`: a register can be reused when it is flagged. -/
def registerPool : RegisterPool Registers :=
  { canBeReused := fun rs r => rs.reusable.contains r
    flagForReuse := fun rs r => { rs with reusable := r :: rs.reusable }
    removeReuseFlag := fun rs r => { rs with reusable := rs.reusable.filter (· != r) }
    getRegFromPool := fun rs _ => (100 + rs.handedOut, { rs with handedOut := rs.handedOut + 1 }) }

/-- Registers for `x * 2` before the code generation of the operation: the reference to
`x` holds register 2, the literal register 3 and the operation none. -/
def operandRegisters : RegisterView :=
  ⟨fun p => if p = [0] then some 2 else if p = [1] then some 3 else none, fun _ => -1⟩

end Example

/-! ## `process` of `BinaryOp`, `TernaryOp` and `IfStatement` -/

/-- Modelled from the spec: the loop of `Statement::processAllChildren` over the child
statements, each processed with its virtual `process`, from first to last. -/
def Statement.processChildren (c : Compiler) (pass : Pass) :
    List Stmt → CompileState → Except CompileError (List Stmt × CompileState)
  | [], st => .ok ([], st)
  | child :: rest, st => do
      let (child, st) ← c.processChild pass child st
      let (rest, st) ← Statement.processChildren c pass rest st
      pure (child :: rest, st)

/-- Modelled from the spec: `Statement::processAllChildren(compiler, scope)`. -/
def Statement.processAllChildren (c : Compiler) (pass : Pass) (self : Stmt)
    (st : CompileState) : Processed :=
  match self with
  | .node l k cs => do
      let (cs, st) ← Statement.processChildren c pass cs st
      pure (.node l k cs, st)

/-- What `BinaryOp::process` uses of the `Statement` base class, the compiler and the
`AsmCodeGenerator`, declared in other files, for the node at a path of the tree: the base
processing with and without the recursion into the children, `checkAndSetType(index,
expectedType)`, `emitLogicOp(this)` and the register pool. -/
structure BinaryOpCompiler (R : Type) where
  processBaseWithChildren : Pass → List Nat → CodeGenState R → Except CompileError (CodeGenState R)
  processBaseWithoutChildren : Pass → List Nat → CodeGenState R → Except CompileError (CodeGenState R)
  checkAndSetType : List Nat → Nat → TypeInfo → CodeGenState R → Except CompileError (CodeGenState R)
  emitLogicOp : List Nat → CodeGenState R → Except CompileError (CodeGenState R)
  pool : RegisterPool R

/-- How `BinaryOp::process` returns: after `replaceInParent(getSubExpr(0))`, or at the end
of the method. -/
inductive BinaryOp.Outcome (R : Type) where
  | replacedInParent (s : CodeGenState R)
  | processed (s : CodeGenState R)

/-- Modelled from the spec: `replaceInParent(newStatement)` for the statement at `this`:
the new statement takes its place among the children of its parent (the place of the
tree for a statement without parent). -/
def Stmt.replaceInParent (root : Stmt) (this : List Nat) (newStatement : Stmt) : Stmt :=
  root.modifyAt this (fun _ => newStatement)

namespace Operations

/-- The method `BinaryOp::process` for the node at `this`. -/
def BinaryOp.process {R : Type} (c : BinaryOpCompiler R) (pass : Pass) (this : List Nat)
    (s : CodeGenState R) : Except CompileError (BinaryOp.Outcome R) :=
  match s.root.get? this with
  | some (.node _ (.BinaryOp op _) _) => do
      let processChildren := !(BinaryOp.isLogicOp op && pass == .CodeGeneration)
      let s ←
        if processChildren then c.processBaseWithChildren pass this s
        else c.processBaseWithoutChildren pass this s
      let self ← match s.root.get? this with
        | some self => pure self
        | none => throw CompileError.nullPointer
      let replace ←
        if BinaryOp.isLogicOp op then
          match self.getSubExpr 0 with
          | none => throw CompileError.nullPointer
          | some left =>
              if left.isConstExpr then
                let isOr1 := op == JitTokens.logicalOr && left.getConstExprValue.toInt == 1
                let isAnd0 := op == JitTokens.logicalAnd && left.getConstExprValue.toInt == 0
                pure (if isOr1 || isAnd0 then some left else none)
              else pure none
        else pure none
      match replace with
      | some left => pure (.replacedInParent { s with root := s.root.replaceInParent this left })
      | none => do
          let s ←
            if pass = .TypeCheck then
              if op == JitTokens.logicalAnd || op == JitTokens.logicalOr then
                c.checkAndSetType this 0 (TypeInfo.ofID .Integer) s
              else c.checkAndSetType this 0 TypeInfo.invalid s
            else pure s
          let s ←
            if pass = .CodeGeneration then
              if BinaryOp.isLogicOp op then c.emitLogicOp this s
              else BinaryOp.emitArithmetic c.pool this s
            else pure s
          pure (.processed s)
  | _ => .error .nullPointer

/-- The method `TernaryOp::process`; `checkAndSetType(1, type)` (the type it returns is
assigned to the member `type`) and `emitTernaryOp` of the `AsmCodeGenerator` are
parameters. -/
def TernaryOp.process (c : Compiler)
    (checkAndSetType : Nat → TypeInfo → Stmt → CompileState → Except CompileError (TypeInfo × CompileState))
    (emitTernaryOp : Stmt → CompileState → Processed)
    (pass : Pass) (self : Stmt) (st : CompileState) : Processed := do
  let (self, st) ←
    if pass = .CodeGeneration then c.processBaseWithoutChildren pass self st
    else c.processBaseWithChildren pass self st
  let (self, st) ←
    if pass = .TypeCheck then
      match self with
      | .node l (.TernaryOp type) cs => do
          let (type, st) ← checkAndSetType 1 type (.node l (.TernaryOp type) cs) st
          pure (Stmt.node l (.TernaryOp type) cs, st)
      | _ => throw CompileError.nullPointer
    else pure (self, st)
  if pass = .CodeGeneration then emitTernaryOp self st else pure (self, st)

/-- The method `IfStatement::process`; the code generation block (the calls of
`allocateDirtyGlobalVariables` and of `emitBranch`, which are declared in other files)
is the parameter `codeGeneration`. Modelled from the spec: `getCondition()`, the first
child statement. -/
def IfStatement.process (c : Compiler) (codeGeneration : Stmt → CompileState → Processed)
    (pass : Pass) (self : Stmt) (st : CompileState) : Processed := do
  let (self, st) ← c.processBaseWithoutChildren pass self st
  let (self, st) ←
    if pass ≠ .CodeGeneration then Statement.processAllChildren c pass self st
    else pure (self, st)
  let (self, st) ←
    if pass = .TypeCheck then do
      let (self, st) ← Statement.processAllChildren c pass self st
      match self.getChildStatement 0 with
      | none => throw CompileError.nullPointer
      | some condition =>
          if !(condition.getTypeInfo.isID .Integer) then
            throw (CompileError.thrown "Condition must be boolean expression")
          else pure (self, st)
    else pure (self, st)
  if pass = .CodeGeneration then codeGeneration self st else pure (self, st)

end Operations

/-- Modelled from the spec: the value of a logic operation on two integer values, 1 or 0:
`a || b` is 1 when one of the operands is not 0, `a && b` is 1 when both are not 0. -/
def JitTokens.logicValue (op : TokenType) (a b : Int) : Int :=
  if op == JitTokens.logicalOr then (if a ≠ 0 ∨ b ≠ 0 then 1 else 0)
  else (if a ≠ 0 ∧ b ≠ 0 then 1 else 0)

namespace Example

/-- A compiler like `compiler` that logs every call of the `process` of a child as a
warning with the kind of the child. -/
def tracingCompiler : Compiler :=
  { compiler with
    processChild := fun _ s st => .ok (s, st.logWarning ("process " ++ s.kind.typeName)) }

/-- A `BinaryOpCompiler` whose base processing, type check and logic operation leave the
state as it is, with the register pool `registerPool`. -/
def binaryOpCompiler : BinaryOpCompiler Registers :=
  { processBaseWithChildren := fun _ _ s => .ok s
    processBaseWithoutChildren := fun _ _ s => .ok s
    checkAndSetType := fun _ _ _ s => .ok s
    emitLogicOp := fun this s => .ok { s with calls := s.calls ++ [AsmCall.emitLogicOp this] }
    pool := registerPool }

/-- The expression `left op x` with an integer literal as the left operand. -/
def logicOp (op : TokenType) (left : Int) : Stmt :=
  .node loc (.BinaryOp op false) [intLiteral left, var "x"]

/-- The state of a code generation with the tree `root`, no registers and no calls. -/
def codeGenState (root : Stmt) : CodeGenState Registers :=
  ⟨root, ⟨fun _ => none, fun _ => -1⟩, ⟨[], 0⟩, []⟩

end Example

/-! ## `StatementBlock::findInlinedParameterInParentBlocks` -/

/-- The test `dynamic_cast<InlinedArgument*>`. -/
def Kind.isInlinedArgument : Kind → Bool
  | .InlinedArgument _ _ => true
  | _ => false

/-- The test `dynamic_cast<StatementBlock*>`. -/
def Kind.isStatementBlock : Kind → Bool
  | .StatementBlock _ _ => true
  | _ => false

/-- The member `parent` of the statement at a path: the null pointer for the tree itself. -/
def Stmt.parentOf (p : List Nat) : Option (List Nat) :=
  if p = [] then none else some p.dropLast

/-- The test for a `StatementBlock` with `isInlinedFunction`. -/
def Kind.isInlinedFunction : Kind → Bool
  | .StatementBlock isInlinedFunction _ => isInlinedFunction
  | _ => false

namespace Operations

/-- The loop `for (auto c : *sb)` of `findInlinedParameterInParentBlocks` over the
children of the inlined block at path `sb`, `index` being the index of the first one: the
first child that is an `InlinedArgument` with `ia->s == s`. -/
def StatementBlock.findArgument (s : Symbol) (sb : List Nat) :
    Nat → List Stmt → Option (List Nat)
  | _, [] => none
  | index, .node _ (.InlinedArgument _ s1) _ :: rest =>
      if s1.same s then some (sb ++ [index])
      else StatementBlock.findArgument s sb (index + 1) rest
  | index, _ :: rest => StatementBlock.findArgument s sb (index + 1) rest

/-- The static method `findInlinedParameterInParentBlocks(p, s)` with the pointer `p`
as a path (none is the null pointer) and the `InlinedArgument` it returns as a path. The
method calls itself on statements further up; `fuel` bounds the depth of these calls. -/
def StatementBlock.findInlinedParameterLoop (root : Stmt) (s : Symbol) :
    Nat → Option (List Nat) → Except RunError (Option (List Nat))
  | _, none => .ok none
  | 0, some _ => .error .outOfFuel
  | fuel + 1, some p => do
      let ipInParent ←
        match findParentStatementOfType Kind.isInlinedArgument root p with
        | some parentInlineArgument =>
            match findParentStatementOfType Kind.isStatementBlock root parentInlineArgument with
            | some parentBlock =>
                StatementBlock.findInlinedParameterLoop root s fuel (Stmt.parentOf parentBlock)
            | none => .error (.failed .nullPointer)
        | none => pure none
      match ipInParent with
      | some ia => pure (some ia)
      | none =>
          match root.get? p with
          | some (.node _ (.StatementBlock true _) cs) =>
              pure (StatementBlock.findArgument s p 0 cs)
          | some _ => StatementBlock.findInlinedParameterLoop root s fuel (Stmt.parentOf p)
          | none => .error (.failed .nullPointer)

/-- The static method `findInlinedParameterInParentBlocks(p, s)`: every nested call is on
a statement further up, so the length of the path and one is fuel enough. -/
def StatementBlock.findInlinedParameterInParentBlocks (root : Stmt) (p : Option (List Nat))
    (s : Symbol) : Except RunError (Option (List Nat)) :=
  StatementBlock.findInlinedParameterLoop root s
    (match p with
      | some path => path.length + 1
      | none => 0) p

/-- Whether a statement is an `InlinedArgument` with the symbol `s`. -/
def StatementBlock.isArgumentWith (s : Symbol) (c : Stmt) : Bool :=
  match c.kind with
  | .InlinedArgument _ s1 => s1.same s
  | _ => false

/-- The lookup as the specification words it: the `InlinedArgument` child with the symbol
`s` (the first one) of the nearest inlined function block that is `p` or an ancestor of
`p`; null when that block has no such child or when there is no such block. -/
def StatementBlock.inlinedParameterOfNearestBlock (root : Stmt) (p : List Nat) (s : Symbol) :
    Option (List Nat) :=
  match findParentStatementOfType Kind.isInlinedFunction root p with
  | none => none
  | some block =>
      match root.get? block with
      | some (.node _ _ cs) =>
          (cs.findIdx? (StatementBlock.isArgumentWith s)).map (fun index => block ++ [index])
      | none => none

end Operations

namespace Example

/-- An inlined function block `{ a := 1; b := x; { return a; } }` inside an outer inlined
block with the argument `b := 2`: the inner block has the arguments `a` and `b`, the
outer one the arguments `b` and `c`. -/
def nestedInlinedBlocks : Stmt :=
  .node loc (.StatementBlock true (TypeInfo.ofID .Integer))
    [.node loc (.InlinedArgument 0 (intVar "b")) [intLiteral 2],
     .node loc (.InlinedArgument 1 (intVar "c")) [intLiteral 3],
     .node loc (.StatementBlock true (TypeInfo.ofID .Integer))
       [.node loc (.InlinedArgument 0 (intVar "a")) [intLiteral 1],
        .node loc (.InlinedArgument 1 (intVar "b")) [var "x"],
        .node loc (.StatementBlock false (TypeInfo.ofID .Integer))
          [.node loc (.ReturnStatement (TypeInfo.ofID .Integer)) [var "a"]]]]

end Example

/-! ## `VariableReference::tryToResolveType` -/

namespace Operations

/-- The method `VariableReference::tryToResolveType`: the returned flag and the node as the
call leaves it; `getVariableType` is the lookup `c->namespaceHandler.getVariableType`. -/
def VariableReference.tryToResolveType (getVariableType : String → TypeInfo) :
    Stmt → Bool × Stmt
  | .node l (.VariableReference id) cs =>
      if id.resolved then (true, .node l (.VariableReference id) cs)
      else
        let newType := getVariableType id.id
        let id := if !newType.isDynamic then Symbol.ofType id.id newType else id
        (id.resolved, .node l (.VariableReference id) cs)
  | s => (false, s)

end Operations

namespace Example

/-- A reference to the variable `x` whose symbol is not resolved yet. -/
def unresolvedX : Stmt :=
  .node loc (.VariableReference ⟨"x", TypeInfo.invalid, VariableStorage.void, false⟩) []

/-- A namespace in which `x` is an int and every other variable is unknown. -/
def xIsInt (id : String) : TypeInfo :=
  if id = "x" then TypeInfo.ofID .Integer else TypeInfo.invalid

end Example

namespace Example

/-- A block with the function template `sum` and a clone of it, both with the id `sum`
and each with one instance (two template arguments) that calls `sum` with one template
argument, which no instance has. -/
def templateAndClone : Stmt :=
  .node loc (.StatementBlock false (TypeInfo.ofID .Void))
    [.node loc (.TemplatedFunction "sum" (TypeInfo.ofID .Integer) true)
      [sumInstance 2 [.node loc (.ReturnStatement (TypeInfo.ofID .Integer)) [callSum 1]]],
     .node loc (.TemplatedFunction "sum" (TypeInfo.ofID .Integer) true)
      [sumInstance 2 [.node loc (.ReturnStatement (TypeInfo.ofID .Integer)) [callSum 1]]]]

end Example

/-! ## `FunctionCall`: the arguments and the object expression -/

/-- Modelled from the spec: `addStatement(statement, addFirst)` of the `Statement` base
class: the statement becomes the last child, or the first one when `addFirst` is set. -/
def Statement.addStatement (self : Stmt) (statement : Stmt) (addFirst : Bool) : Stmt :=
  match self with
  | .node l k cs => if addFirst then .node l k (statement :: cs) else .node l k (cs ++ [statement])

namespace Operations

/-- The member `hasObjectExpression` of a `FunctionCall`. -/
def FunctionCall.hasObjectExpression : Stmt → Bool
  | .node _ (.FunctionCall _ _ _ hasObjectExpression) _ => hasObjectExpression
  | _ => false

/-- The assignment `hasObjectExpression = true`. -/
def FunctionCall.setHasObjectExpression : Stmt → Stmt
  | .node l (.FunctionCall functionId numTemplateParameters returnType _) cs =>
      .node l (.FunctionCall functionId numTemplateParameters returnType true) cs
  | s => s

/-- The method `FunctionCall::getObjectExpression`; none is the null pointer. -/
def FunctionCall.getObjectExpression (self : Stmt) : Option Stmt :=
  if FunctionCall.hasObjectExpression self then self.getSubExpr 0 else none

/-- The method `FunctionCall::setObjectExpression(e)`: an object expression that is there
is replaced in its parent, which is this call; else the flag is set and the expression
is added as the first child. -/
def FunctionCall.setObjectExpression (self : Stmt) (e : Stmt) : Except CompileError Stmt :=
  if FunctionCall.hasObjectExpression self then
    match FunctionCall.getObjectExpression self with
    | some _ => .ok (self.replaceInParent [0] e)
    | none => .error .nullPointer
  else .ok (Statement.addStatement (FunctionCall.setHasObjectExpression self) e true)

/-- The method `FunctionCall::addArgument(arg)`. -/
def FunctionCall.addArgument (self : Stmt) (arg : Stmt) : Stmt :=
  Statement.addStatement self arg false

/-- The method `FunctionCall::getArgument(index)`. -/
def FunctionCall.getArgument (self : Stmt) (index : Nat) : Option Stmt :=
  self.getSubExpr (if !FunctionCall.hasObjectExpression self then index else index + 1)

/-- The method `FunctionCall::getNumArguments` (an `int`). -/
def FunctionCall.getNumArguments (self : Stmt) : Int :=
  if !FunctionCall.hasObjectExpression self then (self.getNumChildStatements : Int)
  else (self.getNumChildStatements : Int) - 1

/-- A call of one of the two methods that change the children of a `FunctionCall`. -/
inductive FunctionCall.Call where
  | addArgument (arg : Stmt)
  | setObjectExpression (e : Stmt)

/-- The statement a call is given. -/
def FunctionCall.Call.statement : FunctionCall.Call → Stmt
  | .addArgument arg => arg
  | .setObjectExpression e => e

/-- A sequence of calls of `addArgument` and `setObjectExpression` on a `FunctionCall`. -/
def FunctionCall.apply : Stmt → List FunctionCall.Call → Except CompileError Stmt
  | self, [] => .ok self
  | self, .addArgument arg :: calls => FunctionCall.apply (FunctionCall.addArgument self arg) calls
  | self, .setObjectExpression e :: calls => do
      let self ← FunctionCall.setObjectExpression self e
      FunctionCall.apply self calls

/-- The arguments added by a sequence of calls, in the order of the calls. -/
def FunctionCall.addedArguments : List FunctionCall.Call → List Stmt
  | [] => []
  | .addArgument arg :: calls => arg :: FunctionCall.addedArguments calls
  | .setObjectExpression _ :: calls => FunctionCall.addedArguments calls

/-- The object expression set last by a sequence of calls, `object` when there is no such
call. -/
def FunctionCall.lastObject (object : Option Stmt) : List FunctionCall.Call → Option Stmt
  | [] => object
  | .addArgument _ :: calls => FunctionCall.lastObject object calls
  | .setObjectExpression e :: calls => FunctionCall.lastObject (some e) calls

end Operations

namespace Example

/-- A call `f()` as its constructor leaves it (for a function that is no `DotOperator`):
no object expression and no argument. -/
def callF : Stmt := .node loc (.FunctionCall "f" 0 (TypeInfo.ofID .Integer) false) []

end Example

/-! ## The code of a `WhileLoop` -/

/-- The value of a comparison of two signed integers with one of the six comparison
operators of the language; none for another token. -/
def JitTokens.compareValue (op : TokenType) (a b : Int) : Option Bool :=
  if op == JitTokens.greaterThan then some (decide (a > b))
  else if op == JitTokens.lessThan then some (decide (a < b))
  else if op == JitTokens.lessThanOrEqual then some (decide (a ≤ b))
  else if op == JitTokens.greaterThanOrEqual then some (decide (a ≥ b))
  else if op == JitTokens.equals then some (decide (a = b))
  else if op == JitTokens.notEquals then some (decide (a ≠ b))
  else none

/-- The meaning of the jumps on the target machine: whether a jump is taken after
`cmp a, b` with the signed 32 bit values `a` and `b` (the x86 condition codes: `jle`,
`jge`, `jg`, `jl` compare signed, `jb` compares the unsigned values, `jmp` is always
taken); none for an instruction that is no jump. -/
def Instr.jumpTaken (i : Instr) (a b : Int) : Option Bool :=
  match i with
  | .jle _ => some (decide (a ≤ b))
  | .jge _ => some (decide (a ≥ b))
  | .jg _ => some (decide (a > b))
  | .jl _ => some (decide (a < b))
  | .jne _ => some (decide (a ≠ b))
  | .je _ => some (decide (a = b))
  | .jb _ => some (decide (a % 2 ^ 32 < b % 2 ^ 32))
  | .jmp _ => some true
  | _ => none

/-- The label a jump goes to. -/
def Instr.target : Instr → Option Label
  | .jle l => some l
  | .jge l => some l
  | .jg l => some l
  | .jl l => some l
  | .jne l => some l
  | .je l => some l
  | .jb l => some l
  | .jmp l => some l
  | _ => none

/-- Whether an instruction is a conditional jump. -/
def Instr.isConditionalJump : Instr → Bool
  | .jle _ => true
  | .jge _ => true
  | .jg _ => true
  | .jl _ => true
  | .jne _ => true
  | .je _ => true
  | .jb _ => true
  | _ => false

/-- Whether an instruction is a conditional jump to the label `l`. -/
def Instr.isConditionalJumpTo (l : Label) (i : Instr) : Bool :=
  i.isConditionalJump && i.target == some l

/-- The operand an instruction writes, if it writes one. -/
def Instr.destination : Instr → Option Operand
  | .xor_ a _ => some a
  | .inc a => some a
  | .mov a _ => some a
  | _ => none

namespace Operations

/-- The state in which `WhileLoop::process` processes the condition: the labels `cond`
and `exit` and the register `why` are created, the register is cleared when the runtime
error check is enabled, and the label `cond` is bound. -/
def WhileLoop.headState (safeCheck : Bool) (st : CompileState) : CompileState :=
  { warnings := st.warnings
    code := st.code
      ++ (if safeCheck then [Instr.xor_ (.reg st.nextReg) (.reg st.nextReg)] else [])
      ++ [Instr.nop, Instr.bind st.nextLabel]
    nextLabel := st.nextLabel + 2
    nextReg := st.nextReg + 1 }

/-- The instructions of the block guarded by `safeCheck`, as a list; `okBranch` is the
label the block creates. -/
def WhileLoop.safeCheckCode (c : Compiler) (location : Location) (why : Reg)
    (exit okBranch : Label) : List Instr :=
  [.inc (.reg why), .cmp (.reg why) (.imm 10000000), .jb okBranch,
   .mov (.reg why) (.imm c.whileLoopErrorCode), .mov (.errorFlag 0 4) (.reg why),
   .mov (.reg why) (.imm location.line), .mov (.errorFlag 4 4) (.reg why),
   .mov (.reg why) (.imm location.col), .mov (.errorFlag 8 4) (.reg why),
   .jmp exit, .bind okBranch]

/-- The state in which `WhileLoop::process` processes the body, when the condition left
the state `st2` and `test` are the instructions of the exit test: the exit test and,
when the runtime error check is enabled, the block guarded by `safeCheck` follow the
code of the condition. `st` is the state in which the code generation began. -/
def WhileLoop.bodyState (c : Compiler) (location : Location) (st : CompileState)
    (test : List Instr) (st2 : CompileState) : CompileState :=
  { warnings := st2.warnings
    code := st2.code ++ test
      ++ (if c.isRuntimeErrorCheckEnabled then
            WhileLoop.safeCheckCode c location st.nextReg (st.nextLabel + 1) st2.nextLabel
          else [])
    nextLabel := if c.isRuntimeErrorCheckEnabled then st2.nextLabel + 1 else st2.nextLabel
    nextReg := st2.nextReg }

/-- The instructions a `WhileLoop` emits itself, around the code of its children: before
the condition, between the condition and the body, and after the body. -/
def WhileLoop.ownCode (c : Compiler) (location : Location) (st : CompileState)
    (test : List Instr) (st2 : CompileState) : List Instr :=
  (if c.isRuntimeErrorCheckEnabled then [Instr.xor_ (.reg st.nextReg) (.reg st.nextReg)]
    else [])
  ++ [Instr.nop, Instr.bind st.nextLabel]
  ++ test
  ++ (if c.isRuntimeErrorCheckEnabled then
        WhileLoop.safeCheckCode c location st.nextReg (st.nextLabel + 1) st2.nextLabel
      else [])
  ++ [Instr.jmp st.nextLabel, Instr.bind (st.nextLabel + 1)]

/-- The instructions of the six `INT_COMPARE` lines for the operator `op`: each line
whose token is the operator gives its jump. -/
def WhileLoop.compareJumps (op : TokenType) (exit : Label) : List Instr :=
  (if op == JitTokens.greaterThan then [Instr.jle exit] else [])
  ++ (if op == JitTokens.lessThan then [Instr.jge exit] else [])
  ++ (if op == JitTokens.lessThanOrEqual then [Instr.jg exit] else [])
  ++ (if op == JitTokens.greaterThanOrEqual then [Instr.jl exit] else [])
  ++ (if op == JitTokens.equals then [Instr.jne exit] else [])
  ++ (if op == JitTokens.notEquals then [Instr.je exit] else [])

/-- The instructions of the exit test for a condition that is no comparison. -/
def WhileLoop.registerTest (cReg : Reg) (exit : Label) : List Instr :=
  [.inlineComment "check condition", .cmp (.reg cReg) (.imm 0), .je exit]

end Operations

/-! ## Execution of the emitted instructions -/

/-- The integer `v` as a signed 32 bit value. -/
def wrap32 (v : Int) : Int := (v + 2 ^ 31) % 2 ^ 32 - 2 ^ 31

/-- The state of the target machine that runs the emitted instructions, as far as these
instructions use it: the 32 bit registers, the operands of the last `cmp` (the flags),
the 4 byte values at the byte offsets of the runtime error flag and the position of the
next instruction. -/
structure Machine where
  regs : Reg → Int
  flags : Int × Int
  errorFlag : Nat → Int
  pc : Nat

namespace Machine

/-- The value of an operand. -/
def value (m : Machine) : Operand → Int
  | .reg r => m.regs r
  | .imm v => wrap32 v
  | .errorFlag offset _ => m.errorFlag offset

/-- A write to an operand; an immediate cannot be written. -/
def write (m : Machine) (o : Operand) (v : Int) : Machine :=
  match o with
  | .reg r => { m with regs := fun x => if x = r then v else m.regs x }
  | .errorFlag offset _ =>
      { m with errorFlag := fun x => if x = offset then v else m.errorFlag x }
  | .imm _ => m

/-- The machine at the following instruction. -/
def next (m : Machine) : Machine := { m with pc := m.pc + 1 }

/-- The effect of one instruction on the target machine. `xor`, `inc` and `mov` write
their first operand, `cmp` keeps its operands for the jumps that follow, a jump that is
taken continues at the position where its label is bound (and the machine is stuck when
the label is bound nowhere), `nop`, `bind` and an inline comment do nothing. The flags
are the operands of the last `cmp` only: the instructions of this header test them
right after a `cmp`. -/
def exec (code : List Instr) (m : Machine) (i : Instr) : Option Machine :=
  match i with
  | .xor_ a b => some (m.write a (Int.xor (m.value a) (m.value b))).next
  | .inc a => some (m.write a (wrap32 (m.value a + 1))).next
  | .mov a b => some (m.write a (m.value b)).next
  | .cmp a b => some { m with flags := (m.value a, m.value b), pc := m.pc + 1 }
  | .nop => some m.next
  | .bind _ => some m.next
  | .inlineComment _ => some m.next
  | jump =>
      match jump.jumpTaken m.flags.1 m.flags.2, jump.target with
      | some true, some l =>
          if Instr.bind l ∈ code then some { m with pc := code.indexOf (Instr.bind l) }
          else none
      | _, _ => some m.next

/-- One step of the machine; none when there is no instruction at the position (the code
has been left) or the machine is stuck. -/
def step (code : List Instr) (m : Machine) : Option Machine :=
  match code[m.pc]? with
  | none => none
  | some i => m.exec code i

/-- At most `fuel` steps of the machine, with the number of times the position `target`
has been reached added to `count`. -/
def runCounting (code : List Instr) (target : Nat) : Nat → Machine → Nat → Machine × Nat
  | 0, m, count => (m, count)
  | fuel + 1, m, count =>
      match m.step code with
      | none => (m, count)
      | some m1 => runCounting code target fuel m1 (if m1.pc = target then count + 1 else count)

end Machine

/-- Whether an instruction belongs to straight-line code: no jump and no label. -/
def Instr.isPlain : Instr → Bool
  | .xor_ _ _ => true
  | .inc _ => true
  | .mov _ _ => true
  | .cmp _ _ => true
  | .nop => true
  | .inlineComment _ => true
  | _ => false

namespace Example

/-- A compiler with the runtime error check enabled whose child processing emits the
instructions `conditionCode` for a node that is no statement block and `bodyCode` for
a statement block; every condition holds the register `cReg`. -/
def straightLineCompiler (conditionCode bodyCode : List Instr) (cReg : Reg)
    (errorCode : Int) : Compiler :=
  ⟨fun _ s st => .ok (s, st), fun _ s st => .ok (s, st),
    fun _ s st => .ok (s,
      { st with code := st.code ++ (if s.kind.isStatementBlock then bodyCode else conditionCode) }),
    fun _ => some cReg, true, errorCode⟩

/-- The loop `while (x) {}`. -/
def whileX : Stmt := .node loc .WhileLoop [var "x", emptyBlock]

end Example

namespace Example

/-- The instructions `WhileLoop::process` emits for the loop `while (x) {}` with the
runtime error check enabled, when the condition emits `conditionCode` and the body
`bodyCode`. -/
def straightLineCode (conditionCode bodyCode : List Instr) (cReg : Reg) (errorCode : Int) :
    List Instr :=
  match Operations.WhileLoop.codeGeneration
      (straightLineCompiler conditionCode bodyCode cReg errorCode) whileX CompileState.empty with
  | .ok (_, st) => st.code
  | .error _ => []

end Example

/-- The machine reaches the state and count `s2` from `s1` in some number of steps. -/
def Machine.Reaches (code : List Instr) (target : Nat) (s1 s2 : Machine × Nat) : Prop :=
  ∃ fuel, Machine.runCounting code target fuel s1.1 s1.2 = s2

/-! # Theorems -/

open Operations


theorem runPasses_append_error (process : Pass → Stmt → CompileState → Processed)
    (pre post : List Pass) (p : Pass) (s s1 : Stmt) (st st1 : CompileState) (e : CompileError)
    (hpre : (runPasses process pre s st).2 = .ok (s1, st1))
    (hp : process p s1 st1 = .error e) :
    runPasses process (pre ++ p :: post) s st = ((runPasses process pre s st).1 ++ [p], .error e) := by
  induction pre generalizing s st with
  | nil =>
      simp only [runPasses, Except.ok.injEq, Prod.mk.injEq] at hpre
      obtain ⟨rfl, rfl⟩ := hpre
      simp [runPasses, hp]
  | cons q qs ih =>
      simp only [runPasses, List.cons_append] at hpre ⊢
      cases hq : process q s st with
      | error e1 => simp [hq] at hpre
      | ok r =>
          obtain ⟨s2, st2⟩ := r
          simp only [hq] at hpre ⊢
          have h := ih s2 st2 hpre
          simp only [List.append_eq] at h ⊢
          rw [h]
          simp

theorem runPasses_entered_subset (process : Pass → Stmt → CompileState → Processed)
    (ps : List Pass) (s : Stmt) (st : CompileState) :
    ∀ p ∈ (runPasses process ps s st).1, p ∈ ps := by
  induction ps generalizing s st with
  | nil => simp [runPasses]
  | cons q qs ih =>
      intro p hp
      simp only [runPasses] at hp
      cases hq : process q s st with
      | error e1 => simp [hq] at hp; simp [hp]
      | ok r =>
          obtain ⟨s2, st2⟩ := r
          simp only [hq, List.mem_cons] at hp
          rcases hp with h | h
          · simp [h]
          · exact List.mem_cons_of_mem _ (ih s2 st2 p h)

/-- Claim C1 (counterexample): the condition of `while (0.5f) {}` is a compile-time
constant whose value 0.5 is not zero, but its `toInt()` is 0: the TypeCheck pass returns
without an error, every pass is entered and the CodeGeneration pass emits the code of
the loop. -/
theorem WhileLoop_constant_half_reaches_codeGeneration :
    Example.halfLiteral.isConstExpr = true
    ∧ Example.halfLiteral.getConstExprValue.value ≠ 0
    ∧ Example.halfLiteral.getConstExprValue.toInt = 0
    ∧ WhileLoop.process Example.compiler .TypeCheck Example.whileHalf CompileState.empty
        = .ok (Example.whileHalf, CompileState.empty)
    ∧ runPasses (WhileLoop.process Example.compiler) passOrder Example.whileHalf
        CompileState.empty
        = (passOrder, .ok (Example.whileHalf,
            { warnings := []
              code := [.nop, .bind 0, .inlineComment "check condition",
                .cmp (.reg 0) (.imm 0), .je 1, .jmp 0, .bind 1]
              nextLabel := 2
              nextReg := 1 })) := by
  refine ⟨rfl, by decide, by decide, rfl, rfl⟩

/-- Claim C1 (amended): a `WhileLoop` whose condition is a compile-time constant whose
value converts to a non-zero integer fails in the TypeCheck pass with "Endless loop
detected": when the passes before TypeCheck went through and the base processing of the
TypeCheck pass leaves a constant condition with `toInt() != 0`, `WhileLoop::process`
throws that error, the pass driver ends with it, and the CodeGeneration pass is never
entered for the loop. -/
theorem WhileLoop_constant_condition_fails (c : Compiler) (self self1 self2 cond : Stmt)
    (st st1 st2 : CompileState)
    (hpre : (runPasses (WhileLoop.process c)
        [.Parsing, .ComplexTypeParsing, .DataAllocation, .SyntaxSugarReplacements] self st).2
          = .ok (self1, st1))
    (hbase : c.processBaseWithChildren .TypeCheck self1 st1 = .ok (self2, st2))
    (hcond : self2.getSubExpr 0 = some cond)
    (hconst : cond.isConstExpr = true)
    (hval : cond.getConstExprValue.toInt ≠ 0) :
    WhileLoop.process c .TypeCheck self1 st1 = .error (.thrown "Endless loop detected")
    ∧ (runPasses (WhileLoop.process c) passOrder self st).2
        = .error (.thrown "Endless loop detected")
    ∧ Pass.CodeGeneration ∉ (runPasses (WhileLoop.process c) passOrder self st).1 := by
  have h1 : WhileLoop.process c .TypeCheck self1 st1
      = .error (.thrown "Endless loop detected") := by
    simp [WhileLoop.process, hbase, WhileLoop.typeCheck, hcond, hconst, hval, bind, Except.bind]
  have h2 := runPasses_append_error (WhileLoop.process c)
    [.Parsing, .ComplexTypeParsing, .DataAllocation, .SyntaxSugarReplacements]
    [.FunctionParsing, .FunctionCompilation, .RegisterAllocation, .CodeGeneration]
    .TypeCheck self self1 st st1 _ hpre h1
  have h3 : passOrder = [.Parsing, .ComplexTypeParsing, .DataAllocation, .SyntaxSugarReplacements]
      ++ Pass.TypeCheck :: [.FunctionParsing, .FunctionCompilation, .RegisterAllocation,
        .CodeGeneration] := rfl
  refine ⟨h1, ?_, ?_⟩
  · rw [h3, h2]
  · rw [h3, h2]
    intro hmem
    simp only [List.mem_append, List.mem_singleton] at hmem
    rcases hmem with h | h
    · have := runPasses_entered_subset _ _ _ _ _ h
      simp at this
    · cases h


theorem WhileLoop_constant_condition_fails_witness :
    WhileLoop.process Example.compiler .TypeCheck Example.whileTrue CompileState.empty
        = .error (.thrown "Endless loop detected")
    ∧ (runPasses (WhileLoop.process Example.compiler) passOrder Example.whileTrue
        CompileState.empty).2 = .error (.thrown "Endless loop detected")
    ∧ Pass.CodeGeneration ∉ (runPasses (WhileLoop.process Example.compiler) passOrder
        Example.whileTrue CompileState.empty).1 :=
  WhileLoop_constant_condition_fails Example.compiler Example.whileTrue Example.whileTrue
    Example.whileTrue (Example.intLiteral 1) CompileState.empty CompileState.empty
    CompileState.empty rfl rfl rfl rfl (by decide)

theorem VariableReference.isLastLoop_false (this : List Nat) (id : Symbol)
    (walker : List (List Nat × Symbol)) :
    ∀ (lastOne : List Nat × Symbol) (isLast : Bool),
      (∀ e ∈ lastOne :: walker, e.1 = this → e.2.same id = true) →
      (isLast = true → lastOne.1 = this) →
      VariableReference.isLastLoop this id lastOne walker isLast = false := by
  induction walker with
  | nil =>
      intro lastOne isLast hsame hlast
      cases hs : lastOne.2.same id with
      | true => simp [VariableReference.isLastLoop, hs]
      | false =>
          cases hl : isLast with
          | false => simp [VariableReference.isLastLoop, hs]
          | true =>
              have := hsame lastOne (by simp) (hlast hl)
              simp [hs] at this
  | cons next walker ih =>
      intro lastOne isLast hsame hlast
      have hrest : ∀ e ∈ next :: walker, e.1 = this → e.2.same id = true :=
        fun e he => hsame e (List.mem_cons_of_mem _ he)
      cases hs : lastOne.2.same id with
      | true =>
          simp only [VariableReference.isLastLoop, hs, Bool.not_true, Bool.false_eq_true,
            if_false]
          exact ih next _ hrest (by simp)
      | false =>
          simp only [VariableReference.isLastLoop, hs, Bool.not_false, if_true]
          refine ih next isLast hrest ?_
          intro hl
          have := hsame lastOne (by simp) (hlast hl)
          simp [hs] at this

/-- Claim C2 (the code at the failing input): in the block `{ x = 1; }` the only
reference to `x` has no later reference to the same symbol, and
`isLastVariableReference` returns false for it. -/
theorem isLastVariableReference_only_reference :
    VariableReference.noLaterReference Example.assignOnce [0, 1] = true
    ∧ VariableReference.isLastVariableReference Example.assignOnce [0, 1] = false := by
  constructor <;> decide

mutual
theorem SyntaxTreeWalker.scan_get :
    ∀ (s : Stmt) (path : List Nat) (e : List Nat × Stmt), e ∈ SyntaxTreeWalker.scan s path →
      ∃ q, e.1 = path ++ q ∧ s.get? q = some e.2
  | .node l k cs, path, e, he => by
      simp only [SyntaxTreeWalker.scan, List.mem_cons] at he
      rcases he with rfl | he
      · exact ⟨[], by simp, rfl⟩
      · obtain ⟨j, q, c, h1, h2, h3⟩ := SyntaxTreeWalker.scanChildren_get cs path 0 e he
        refine ⟨j :: q, by simpa using h1, ?_⟩
        simp [Stmt.get?, h2, h3]
theorem SyntaxTreeWalker.scanChildren_get :
    ∀ (cs : List Stmt) (path : List Nat) (index : Nat) (e : List Nat × Stmt),
      e ∈ SyntaxTreeWalker.scanChildren cs path index →
      ∃ j q c, e.1 = path ++ (index + j) :: q ∧ cs[j]? = some c ∧ c.get? q = some e.2
  | [], _, _, e, he => by simp [SyntaxTreeWalker.scanChildren] at he
  | c :: cs, path, index, e, he => by
      simp only [SyntaxTreeWalker.scanChildren, List.mem_append] at he
      rcases he with he | he
      · obtain ⟨q, h1, h2⟩ := SyntaxTreeWalker.scan_get c (path ++ [index]) e he
        exact ⟨0, q, c, by simpa using h1, by simp, h2⟩
      · obtain ⟨j, q, c1, h1, h2, h3⟩ :=
          SyntaxTreeWalker.scanChildren_get cs path (index + 1) e he
        refine ⟨j + 1, q, c1, ?_, by simpa using h2, h3⟩
        rw [h1]
        congr 2
        omega
end

theorem SyntaxTreeWalker.variableReferences_mem (walk : List (List Nat × Stmt))
    (p : List Nat) (id : Symbol) (h : (p, id) ∈ SyntaxTreeWalker.variableReferences walk) :
    ∃ l cs, (p, Stmt.node l (.VariableReference id) cs) ∈ walk := by
  induction walk with
  | nil => simp [SyntaxTreeWalker.variableReferences] at h
  | cons e rest ih =>
      obtain ⟨q, s⟩ := e
      obtain ⟨l, k, cs⟩ := s
      cases k
      case VariableReference id1 =>
        simp only [SyntaxTreeWalker.variableReferences, List.mem_cons, Prod.mk.injEq] at h
        rcases h with ⟨rfl, rfl⟩ | h
        · exact ⟨l, cs, by simp⟩
        · obtain ⟨l1, cs1, h1⟩ := ih h
          exact ⟨l1, cs1, List.mem_cons_of_mem _ h1⟩
      all_goals
        simp only [SyntaxTreeWalker.variableReferences] at h
        obtain ⟨l1, cs1, h1⟩ := ih h
        exact ⟨l1, cs1, List.mem_cons_of_mem _ h1⟩

/-- The method `isLastVariableReference` returns false for every variable reference of
every tree. -/
theorem VariableReference.isLastVariableReference_false (root : Stmt) (this : List Nat) :
    VariableReference.isLastVariableReference root this = false := by
  unfold VariableReference.isLastVariableReference
  split
  · rename_i l id cs hthis
    split
    · rfl
    · rename_i lastOne walker hrefs
      apply VariableReference.isLastLoop_false
      · intro e he h1
        rw [← hrefs] at he
        obtain ⟨l1, cs1, hmem⟩ := SyntaxTreeWalker.variableReferences_mem _ e.1 e.2 he
        obtain ⟨q, hq1, hq2⟩ := SyntaxTreeWalker.scan_get root [] _ hmem
        simp only [List.nil_append] at hq1
        rw [← hq1, h1, hthis] at hq2
        simp only [Option.some.injEq, Stmt.node.injEq, Kind.VariableReference.injEq] at hq2
        rw [← hq2.2.1]
        simp [Symbol.same]
      · intro h
        simpa using h
  · rfl

/-- Claim C3: when the base processing of the TypeCheck pass leaves a `Compare` with the
operands `l` and `r`, then, if the types `getType()` of the operands differ,
`Compare::process` replaces the right operand by a `Cast` that wraps `r` and targets the
type of `l`, keeps `l`, logs one warning, raises no error, and both operands of the
result have the same type; if the types are equal the node and the log stay as they
are. -/
theorem Compare_typeCheck_inserts_cast (c : Compiler)
    (codeGeneration : Stmt → CompileState → Processed) (self l r : Stmt)
    (st st1 : CompileState) (loc : Location) (op : TokenType) (flag : Bool)
    (hbase : c.processBaseWithChildren .TypeCheck self st
      = .ok (.node loc (.Compare op flag) [l, r], st1))
    (hl : l.kind.isExpression = true) (hr : r.kind.isExpression = true) :
    Compare.process c codeGeneration .TypeCheck self st
      = (if l.getType ≠ r.getType then
          .ok (.node loc (.Compare op flag) [l, .node loc (.Cast (TypeInfo.ofID l.getType)) [r]],
            { st1 with warnings := st1.warnings ++ ["Implicit cast to int for comparison"] })
        else .ok (.node loc (.Compare op flag) [l, r], st1))
    ∧ (Stmt.node loc (.Cast (TypeInfo.ofID l.getType)) [r]).getType = l.getType := by
  refine ⟨?_, rfl⟩
  have h0 : (Stmt.node loc (.Compare op flag) [l, r]).getSubExpr 0 = some l := by
    simp [Stmt.getSubExpr, Stmt.getChildStatement, Stmt.children, hl]
  have h1 : (Stmt.node loc (.Compare op flag) [l, r]).getSubExpr 1 = some r := by
    simp [Stmt.getSubExpr, Stmt.getChildStatement, Stmt.children, hr]
  by_cases h : l.getType = r.getType
  · simp [Compare.process, hbase, Compare.typeCheck, h0, h1, h, bind, Except.bind, pure,
      Except.pure]
  · simp [Compare.process, hbase, Compare.typeCheck, h0, h1, h, bind, Except.bind, pure,
      Except.pure, Cast.new, Stmt.replaceChildStatement, Stmt.location,
      CompileState.logWarning]

theorem Compare_typeCheck_inserts_cast_witness :
    Compare.process Example.compiler Example.noCodeGeneration .TypeCheck
        Example.compareFloatInt CompileState.empty
      = (if (Example.floatLiteral 1).getType ≠ (Example.intLiteral 2).getType then
          .ok (.node Example.loc (.Compare JitTokens.lessThan false)
              [Example.floatLiteral 1,
               .node Example.loc (.Cast (TypeInfo.ofID (Example.floatLiteral 1).getType))
                 [Example.intLiteral 2]],
            { CompileState.empty with
              warnings := CompileState.empty.warnings ++ ["Implicit cast to int for comparison"] })
        else .ok (.node Example.loc (.Compare JitTokens.lessThan false)
              [Example.floatLiteral 1, Example.intLiteral 2], CompileState.empty))
    ∧ (Stmt.node Example.loc (.Cast (TypeInfo.ofID (Example.floatLiteral 1).getType))
        [Example.intLiteral 2]).getType = (Example.floatLiteral 1).getType :=
  Compare_typeCheck_inserts_cast Example.compiler Example.noCodeGeneration
    Example.compareFloatInt (Example.floatLiteral 1) (Example.intLiteral 2)
    CompileState.empty CompileState.empty Example.loc JitTokens.lessThan false rfl rfl rfl

/-- Claim C4 (counterexample): the comparison `1.0f < 2` has operands of different types;
the type check inserts the cast of the right operand to float, and the result type of
the comparison is then `Integer` while its left operand has type `Float`. -/
theorem Compare_result_type_is_not_left_type :
    (Example.floatLiteral 1).getType ≠ (Example.intLiteral 2).getType
    ∧ Compare.process Example.compiler Example.noCodeGeneration .TypeCheck
        Example.compareFloatInt CompileState.empty
      = .ok (Example.compareFloatIntCast, ⟨["Implicit cast to int for comparison"], [], 0, 0⟩)
    ∧ Example.compareFloatIntCast.getSubExpr 0 = some (Example.floatLiteral 1)
    ∧ Example.compareFloatIntCast.getTypeInfo ≠ (Example.floatLiteral 1).getTypeInfo
    ∧ Example.compareFloatIntCast.getType = .Integer
    ∧ (Example.floatLiteral 1).getType = .Float := by
  refine ⟨by decide, rfl, rfl, by decide, rfl, rfl⟩

/-- Claim C4 (amended): the result type of a `BinaryOp` is the type of its left operand,
whatever the right operand is (the original one or the inserted cast); the result type
of a `Compare` is always `Integer`, also after it inserted the implicit cast. -/
theorem BinaryOp_and_Compare_result_type (loc : Location) (op : TokenType) (flag : Bool)
    (l r : Stmt) :
    (Stmt.node loc (.BinaryOp op flag) [l, r]).getTypeInfo = l.getTypeInfo
    ∧ (Stmt.node loc (.BinaryOp op flag) [l, Cast.new loc r l.getType]).getTypeInfo
        = l.getTypeInfo
    ∧ (Stmt.node loc (.Compare op flag) [l, r]).getTypeInfo = TypeInfo.ofID .Integer
    ∧ ∀ st s1 st1, Compare.typeCheck (.node loc (.Compare op flag) [l, r]) st = .ok (s1, st1) →
        s1.getTypeInfo = TypeInfo.ofID .Integer := by
  refine ⟨rfl, rfl, rfl, ?_⟩
  intro st s1 st1 h
  unfold Compare.typeCheck at h
  split at h
  · split at h
    · simp only [Except.ok.injEq, Prod.mk.injEq] at h
      rw [← h.1]
      rfl
    · simp only [Except.ok.injEq, Prod.mk.injEq] at h
      rw [← h.1]
      rfl
  · cases h

/-- Claim C5: when the base processing of the TypeCheck pass went through,
`ReturnStatement::process` (1) throws "Can't deduce return type." without an enclosing
function scope; inside a function scope it (2) throws "Can't return a value from a void
function." when the enclosing return type is void and the statement has an expression
of non-void type, (3) throws "function must return a value" when the enclosing return
type is not void and the statement has no expression or one of type void, and
(4) for a bare return in a void function raises none of them: it goes on to
`checkAndSetType(0, getTypeInfo())` and returns what that returns. -/
theorem ReturnStatement_typeCheck_void_agreement (c : Compiler)
    (checkAndSetType : Nat → TypeInfo → Stmt → CompileState → Processed)
    (codeGeneration : Stmt → CompileState → Processed)
    (self : Stmt) (st st1 : CompileState) (loc : Location) (returnType : TypeInfo)
    (cs : List Stmt)
    (hbase : c.processBaseWithChildren .TypeCheck self st
      = .ok (.node loc (.ReturnStatement returnType) cs, st1)) :
    ReturnStatement.process c false checkAndSetType codeGeneration .TypeCheck self st
        = .error (.thrown "Can't deduce return type.")
    ∧ (returnType.getType = .Void →
        (∃ first, (Stmt.node loc (.ReturnStatement returnType) cs).getSubExpr 0 = some first
          ∧ first.getTypeInfo.getType ≠ .Void) →
        ReturnStatement.process c true checkAndSetType codeGeneration .TypeCheck self st
          = .error (.thrown "Can't return a value from a void function."))
    ∧ (returnType.getType ≠ .Void →
        ((Stmt.node loc (.ReturnStatement returnType) cs).getSubExpr 0 = none
          ∨ ∃ first, (Stmt.node loc (.ReturnStatement returnType) cs).getSubExpr 0 = some first
            ∧ first.getTypeInfo.getType = .Void) →
        ReturnStatement.process c true checkAndSetType codeGeneration .TypeCheck self st
          = .error (.thrown "function must return a value"))
    ∧ (returnType.getType = .Void → cs = [] →
        ReturnStatement.process c true checkAndSetType codeGeneration .TypeCheck self st
          = checkAndSetType 0 returnType (.node loc (.ReturnStatement returnType) []) st1) := by
  have hty : (Stmt.node loc (.ReturnStatement returnType) cs).getTypeInfo = returnType := rfl
  have hvoid : (TypeInfo.ofID .Void).getType = .Void := rfl
  refine ⟨?_, ?_, ?_, ?_⟩
  · simp [ReturnStatement.process, hbase, ReturnStatement.typeCheck, bind, Except.bind]
  · rintro hv ⟨first, hf, hne⟩
    simp [ReturnStatement.process, hbase, ReturnStatement.typeCheck, bind, Except.bind,
      ReturnStatement.isVoid, hty, TypeInfo.isID, hv, hf, hne]
  · rintro hv (hf | ⟨first, hf, he⟩)
    · simp [ReturnStatement.process, hbase, ReturnStatement.typeCheck, bind, Except.bind,
        ReturnStatement.isVoid, hty, TypeInfo.isID, hv, hf, hvoid]
    · simp [ReturnStatement.process, hbase, ReturnStatement.typeCheck, bind, Except.bind,
        ReturnStatement.isVoid, hty, TypeInfo.isID, hv, hf, he]
  · rintro hv rfl
    have hnone : (Stmt.node loc (.ReturnStatement returnType) []).getSubExpr 0 = none := rfl
    simp only [ReturnStatement.process, hbase, ReturnStatement.typeCheck, bind, Except.bind,
      ReturnStatement.isVoid, hty, TypeInfo.isID, hv, hnone, hvoid]
    simp
    cases checkAndSetType 0 returnType (.node loc (.ReturnStatement returnType) []) st1 <;> rfl

theorem ReturnStatement_typeCheck_void_agreement_witness :
    ReturnStatement.process Example.compiler true Example.acceptType Example.noCodeGeneration
        .TypeCheck Example.returnValueInVoid CompileState.empty
      = .error (.thrown "Can't return a value from a void function.")
    ∧ ReturnStatement.process Example.compiler true Example.acceptType Example.noCodeGeneration
        .TypeCheck Example.returnVoid CompileState.empty
      = .ok (Example.returnVoid, CompileState.empty)
    ∧ ReturnStatement.process Example.compiler false Example.acceptType Example.noCodeGeneration
        .TypeCheck Example.returnVoid CompileState.empty
      = .error (.thrown "Can't deduce return type.")
    ∧ ReturnStatement.process Example.compiler true Example.acceptType Example.noCodeGeneration
        .TypeCheck Example.returnNothingInInt CompileState.empty
      = .error (.thrown "function must return a value") :=
  ⟨(ReturnStatement_typeCheck_void_agreement Example.compiler Example.acceptType
      Example.noCodeGeneration Example.returnValueInVoid CompileState.empty CompileState.empty
      Example.loc (TypeInfo.ofID .Void) [Example.intLiteral 1] rfl).2.1 rfl
      ⟨Example.intLiteral 1, rfl, by decide⟩,
   (ReturnStatement_typeCheck_void_agreement Example.compiler Example.acceptType
      Example.noCodeGeneration Example.returnVoid CompileState.empty CompileState.empty
      Example.loc (TypeInfo.ofID .Void) [] rfl).2.2.2 rfl rfl,
   (ReturnStatement_typeCheck_void_agreement Example.compiler Example.acceptType
      Example.noCodeGeneration Example.returnVoid CompileState.empty CompileState.empty
      Example.loc (TypeInfo.ofID .Void) [] rfl).1,
   (ReturnStatement_typeCheck_void_agreement Example.compiler Example.acceptType
      Example.noCodeGeneration Example.returnNothingInInt CompileState.empty CompileState.empty
      Example.loc (TypeInfo.ofID .Integer) [] rfl).2.2.1 (by decide) (Or.inl rfl)⟩

/-- Claim C6 (counterexample): the `break` of `while (x < 1) { break; }` is nested in a
`WhileLoop` (the root of the tree, two levels above it), and its type check fails with
"a break may only be used within a loop or switch". -/
theorem ControlFlowStatement_break_in_WhileLoop_fails :
    Example.whileBreak.kind = .WhileLoop
    ∧ Example.whileBreak.get? [1, 0] = some Example.breakStatement
    ∧ ControlFlowStatement.process Example.compiler Example.noCodeGenerationAt .TypeCheck
        Example.whileBreak [1, 0] CompileState.empty
      = .error (.thrown "a break may only be used within a loop or switch") := by
  exact ⟨rfl, rfl, rfl⟩

theorem Stmt.get?_modifyAt_self (f : Stmt → Stmt) :
    ∀ (p : List Nat) (root s : Stmt), root.get? p = some s →
      (root.modifyAt p f).get? p = some (f s)
  | [], root, s, h => by
      simp only [Stmt.get?, Option.some.injEq] at h
      simp [Stmt.modifyAt, Stmt.get?, h]
  | i :: p, .node l k cs, s, h => by
      simp only [Stmt.get?] at h
      cases hc : cs[i]? with
      | none => simp [hc] at h
      | some c =>
          simp only [hc] at h
          have hi : i < cs.length := by
            rcases Nat.lt_or_ge i cs.length with h1 | h1
            · exact h1
            · simp [List.getElem?_eq_none h1] at hc
          simp only [Stmt.modifyAt, hc, Stmt.get?, List.getElem?_set_self hi]
          exact Stmt.get?_modifyAt_self f p c s h

theorem Stmt.isTypeAt_modifyAt_prefix (isType : Kind → Bool) (f : Stmt → Stmt) :
    ∀ (p q : List Nat) (root s : Stmt), root.get? (p ++ q) = some s → q ≠ [] →
      Stmt.isTypeAt isType (root.modifyAt (p ++ q) f) p = Stmt.isTypeAt isType root p
  | [], [], _, _, _, hq => absurd rfl hq
  | [], j :: q, .node l k cs, s, h, _ => by
      simp only [List.nil_append, Stmt.isTypeAt, Stmt.get?, Stmt.modifyAt]
      cases cs[j]? <;> rfl
  | i :: p, q, .node l k cs, s, h, hq => by
      simp only [List.cons_append, Stmt.get?] at h
      cases hc : cs[i]? with
      | none => simp [hc] at h
      | some c =>
          simp only [hc] at h
          have hi : i < cs.length := by
            rcases Nat.lt_or_ge i cs.length with h1 | h1
            · exact h1
            · simp [List.getElem?_eq_none h1] at hc
          have ih := Stmt.isTypeAt_modifyAt_prefix isType f p q c s h hq
          simp only [Stmt.isTypeAt] at ih
          simp only [List.cons_append, Stmt.isTypeAt, Stmt.modifyAt, hc, Stmt.get?,
            List.getElem?_set_self hi]
          exact ih

/-- Claim C6 (amended): for a break or continue statement at path `this` of a tree, when
the base processing of the TypeCheck pass went through, `ControlFlowStatement::process`
succeeds exactly when one of the proper ancestors of the statement is a range-based
`Loop` node, and otherwise it throws "a break/continue may only be used within a loop
or switch"; a `WhileLoop` ancestor does not count. -/
theorem ControlFlowStatement_typeCheck_iff_enclosing_Loop (c : Compiler)
    (codeGeneration : Stmt → List Nat → CompileState → Processed)
    (root self : Stmt) (this : List Nat) (st st1 : CompileState)
    (loc : Location) (isBreak : Bool) (parentLoop : Option (List Nat)) (cs : List Stmt)
    (hself : root.get? this = some self)
    (hbase : c.processBaseWithChildren .TypeCheck self st
      = .ok (.node loc (.ControlFlowStatement isBreak parentLoop) cs, st1)) :
    ((∃ r, ControlFlowStatement.process c codeGeneration .TypeCheck root this st = .ok r)
      ↔ ∃ p, p <+: this ∧ p ≠ this ∧ Stmt.isTypeAt Kind.isLoop root p = true)
    ∧ ((¬ ∃ p, p <+: this ∧ p ≠ this ∧ Stmt.isTypeAt Kind.isLoop root p = true) →
        ControlFlowStatement.process c codeGeneration .TypeCheck root this st
          = .error (.thrown ("a " ++ ControlFlowStatement.getStatementId isBreak
              ++ " may only be used within a loop or switch"))) := by
  have hget := Stmt.get?_modifyAt_self
    (fun _ => Stmt.node loc (.ControlFlowStatement isBreak parentLoop) cs) this root self hself
  have hpred : ∀ p, p <+: this →
      Stmt.isTypeAt Kind.isLoop (root.modifyAt this
        (fun _ => Stmt.node loc (.ControlFlowStatement isBreak parentLoop) cs)) p
        = (if p = this then false else Stmt.isTypeAt Kind.isLoop root p) := by
    rintro p ⟨q, rfl⟩
    by_cases hq : q = []
    · subst hq
      simp only [List.append_nil] at hget ⊢
      simp [Stmt.isTypeAt, hget, Stmt.kind, Kind.isLoop]
    · have hne : p ≠ p ++ q := by
        intro h
        exact hq (by simpa using h.symm)
      simp only [hne, if_false]
      exact Stmt.isTypeAt_modifyAt_prefix Kind.isLoop _ p q root self hself hq
  have hfind : findParentStatementOfType Kind.isLoop (root.modifyAt this
        (fun _ => Stmt.node loc (.ControlFlowStatement isBreak parentLoop) cs)) this = none
      ↔ ¬ ∃ p, p <+: this ∧ p ≠ this ∧ Stmt.isTypeAt Kind.isLoop root p = true := by
    simp only [findParentStatementOfType, List.find?_eq_none, List.mem_reverse,
      List.mem_inits]
    constructor
    · rintro h ⟨p, hp, hne, ht⟩
      have := h p hp
      rw [hpred p hp] at this
      simp [hne, ht] at this
    · intro h p hp
      rw [hpred p hp]
      by_cases hpe : p = this
      · simp [hpe]
      · simp only [hpe, if_false]
        intro ht
        exact h ⟨p, hp, hpe, ht⟩
  have hproc : ControlFlowStatement.process c codeGeneration .TypeCheck root this st
      = ControlFlowStatement.typeCheck (root.modifyAt this
          (fun _ => Stmt.node loc (.ControlFlowStatement isBreak parentLoop) cs)) this st1 := by
    simp only [ControlFlowStatement.process, hself, hbase, bind, Except.bind, pure, Except.pure]
    simp
    cases ControlFlowStatement.typeCheck (root.modifyAt this
      (fun _ => Stmt.node loc (.ControlFlowStatement isBreak parentLoop) cs)) this st1 <;> rfl
  rw [hproc]
  unfold ControlFlowStatement.typeCheck
  simp only [hget]
  cases hf : findParentStatementOfType Kind.isLoop (root.modifyAt this
      (fun _ => Stmt.node loc (.ControlFlowStatement isBreak parentLoop) cs)) this with
  | none =>
      have hno := hfind.mp hf
      refine ⟨⟨?_, fun h => absurd h hno⟩, fun _ => rfl⟩
      rintro ⟨r, hr⟩
      cases hr
  | some pl =>
      have hyes : ∃ p, p <+: this ∧ p ≠ this ∧ Stmt.isTypeAt Kind.isLoop root p = true := by
        by_contra hcon
        rw [hfind.mpr hcon] at hf
        cases hf
      exact ⟨⟨fun _ => hyes, fun _ => ⟨_, rfl⟩⟩, fun h => absurd hyes h⟩

theorem ControlFlowStatement_typeCheck_iff_enclosing_Loop_witness :
    ((∃ r, ControlFlowStatement.process Example.compiler Example.noCodeGenerationAt .TypeCheck
        Example.forBreak [1, 0] CompileState.empty = .ok r)
      ↔ ∃ p, p <+: [1, 0] ∧ p ≠ [1, 0] ∧ Stmt.isTypeAt Kind.isLoop Example.forBreak p = true)
    ∧ ((¬ ∃ p, p <+: [1, 0] ∧ p ≠ [1, 0] ∧ Stmt.isTypeAt Kind.isLoop Example.forBreak p = true) →
        ControlFlowStatement.process Example.compiler Example.noCodeGenerationAt .TypeCheck
          Example.forBreak [1, 0] CompileState.empty
          = .error (.thrown ("a " ++ ControlFlowStatement.getStatementId true
              ++ " may only be used within a loop or switch"))) :=
  ControlFlowStatement_typeCheck_iff_enclosing_Loop Example.compiler Example.noCodeGenerationAt
    Example.forBreak Example.breakStatement [1, 0] CompileState.empty CompileState.empty
    Example.loc true none [] rfl rfl

/-- Claim C8 (the code at the failing input): for `for (int x : data)` over a
`span<float, 8>` the DataAllocation pass succeeds and leaves the iterator with the type
float. The mismatch test of the pass would throw for the declared type int, but
`tryToResolveType`, which the pass calls first, has replaced the declared type by the
element type. -/
theorem Loop_declared_iterator_type_is_overwritten :
    (Loop.selectTargetType Example.loopCompiler.toString Example.spanOf8Floats
        (Example.intVar "x")).2
      = .error (.thrown ("iterator type mismatch: "
          ++ Example.loopCompiler.toString (TypeInfo.ofID .Integer) ++ " expected: "
          ++ Example.loopCompiler.toString (TypeInfo.ofID .Float)))
    ∧ Loop.tryToResolveType Example.loopCompiler Example.forIntOverFloats
      = .ok (.node Example.loc
          (.Loop (Symbol.ofType "x" (TypeInfo.ofID .Float)) true false .Undefined)
          [Example.spanData, Example.emptyBlock])
    ∧ Loop.process Example.compiler Example.loopCompiler Example.noCodeGenerationAt
        .DataAllocation Example.forIntOverFloats [] CompileState.empty
      = .ok (.node Example.loc
          (.Loop (Symbol.ofType "x" (TypeInfo.ofID .Float)) true false .Span)
          [Example.spanData, Example.emptyBlock], CompileState.empty) := by
  refine ⟨rfl, rfl, rfl⟩

theorem Loop.selectTargetType_kind (toString : TypeInfo → String) (targetType : TypeInfo)
    (iterator : Symbol) :
    (Loop.selectTargetType toString targetType iterator).1 = Loop.kindOfTargetType targetType := by
  cases targetType with
  | native type isConst isRef =>
      by_cases h : type = .Block <;> simp [Loop.selectTargetType, Loop.kindOfTargetType, h]
  | span e n isConst isRef => rfl
  | dyn e isConst isRef => rfl
  | struct id b bt s isConst isRef =>
      cases b <;> cases s <;> simp [Loop.selectTargetType, Loop.kindOfTargetType]

theorem Loop.selectTargetType_none_fails (toString : TypeInfo → String) (targetType : TypeInfo)
    (iterator : Symbol) (h : Loop.kindOfTargetType targetType = none) :
    ∃ message, (Loop.selectTargetType toString targetType iterator).2
      = .error (.thrown message) := by
  cases targetType with
  | native type isConst isRef =>
      by_cases hb : type = .Block
      · simp [Loop.kindOfTargetType, hb] at h
      · refine ⟨"Can't deduce loop target type", ?_⟩
        simp [Loop.selectTargetType, hb]
  | span e n isConst isRef => simp [Loop.kindOfTargetType] at h
  | dyn e isConst isRef => simp [Loop.kindOfTargetType] at h
  | struct id b bt s isConst isRef =>
      refine ⟨toString (.struct id b bt s isConst isRef) ++ " does not have iterator methods", ?_⟩
      cases b <;> cases s <;> simp [Loop.kindOfTargetType] at h <;>
        simp [Loop.selectTargetType]

theorem Loop.loopTargetType_setIterator (i : Symbol) (s : Stmt) :
    Loop.loopTargetType (Loop.setIterator i s) = Loop.loopTargetType s := by
  obtain ⟨l, k, cs⟩ := s
  cases k <;> rfl

theorem Loop.loopTargetType_replaceChildStatement (s : Stmt) (n : Nat) (c : Stmt) :
    Loop.loopTargetType (s.replaceChildStatement n c) = Loop.loopTargetType s := by
  obtain ⟨l, k, cs⟩ := s
  cases k <;> rfl

theorem Loop.loopTargetType_setLoadIterator (b : Bool) (s : Stmt) :
    Loop.loopTargetType (Loop.setLoadIterator b s) = Loop.loopTargetType s := by
  obtain ⟨l, k, cs⟩ := s
  cases k <;> rfl

theorem Loop.iterator_replaceChildStatement (s : Stmt) (n : Nat) (c : Stmt) :
    Loop.iterator (s.replaceChildStatement n c) = Loop.iterator s := by
  obtain ⟨l, k, cs⟩ := s
  cases k <;> rfl

theorem Loop.loopTargetType_setLoopTargetType (t : ArrayType) (s : Stmt) (i : Symbol)
    (h : Loop.iterator s = some i) :
    Loop.loopTargetType (Loop.setLoopTargetType t s) = some t := by
  obtain ⟨l, k, cs⟩ := s
  cases k <;> first | rfl | cases h

theorem Loop.evaluateIteratorLoad_loopTargetType (root root1 : Stmt) (this : List Nat)
    (b : Bool) (h : Loop.evaluateIteratorLoad root this = .ok (b, root1)) :
    (root1.get? this).bind Loop.loopTargetType = (root.get? this).bind Loop.loopTargetType := by
  unfold Loop.evaluateIteratorLoad at h
  split at h
  · rename_i l iterator loadIterator storeIterator loopTargetType cs hget
    split at h
    · simp only [Except.ok.injEq, Prod.mk.injEq] at h
      rw [← h.2]
    · split at h
      · cases h
      · simp only [bind, Except.bind] at h
        split at h
        · cases h
        · simp only [pure, Except.pure, Except.ok.injEq, Prod.mk.injEq] at h
          rw [← h.2, Stmt.get?_modifyAt_self _ this root _ hget, hget]
          rfl
  · cases h

theorem Except_bind_eq_ok_iff {ε α β : Type} (x : Except ε α) (f : α → Except ε β) (b : β) :
    (x >>= f) = .ok b ↔ ∃ a, x = .ok a ∧ f a = .ok b := by
  cases x <;> simp [bind, Except.bind]

theorem Loop.dataAllocation_ok (c : Compiler) (env : LoopCompiler)
    (self1 self2 self3 target target1 : Stmt) (st1 st2 st3 : CompileState)
    (hresolve : Loop.tryToResolveType env self1 = .ok self2)
    (htarget : self2.getSubExpr 0 = some target)
    (hprocess : c.processChild .DataAllocation target st1 = .ok (target1, st2))
    (h : Loop.dataAllocation c env self1 st1 = .ok (self3, st3)) :
    Loop.loopTargetType self3 = Loop.kindOfTargetType target1.getTypeInfo
    ∧ Loop.kindOfTargetType target1.getTypeInfo ≠ none := by
  simp only [Loop.dataAllocation, Except_bind_eq_ok_iff, hresolve, Except.ok.injEq,
    exists_eq_left', htarget, pure, Except.pure, hprocess] at h
  cases hit : Loop.iterator (self2.replaceChildStatement 0 target1) with
  | none => simp [hit, throw, throwThe, MonadExceptOf.throw, bind, Except.bind] at h
  | some iterator =>
      simp only [hit, bind, Except.bind] at h
      have hk := Loop.selectTargetType_kind env.toString target1.getTypeInfo iterator
      cases hsel : (Loop.selectTargetType env.toString target1.getTypeInfo iterator).2 with
      | error e => simp [hsel] at h
      | ok iterator1 =>
          cases hkind : Loop.kindOfTargetType target1.getTypeInfo with
          | none =>
              obtain ⟨m, hm⟩ := Loop.selectTargetType_none_fails env.toString
                target1.getTypeInfo iterator hkind
              rw [hm] at hsel
              cases hsel
          | some kind =>
              rw [hkind] at hk
              simp only [hsel, hk] at h
              cases hblock : Loop.getLoopBlock (Loop.setIterator iterator1
                  (Loop.setLoopTargetType kind (self2.replaceChildStatement 0 target1))) with
              | none => simp [hblock, throw, throwThe, MonadExceptOf.throw] at h
              | some b =>
                  simp only [hblock] at h
                  cases hpb : c.processChild .DataAllocation b st2 with
                  | error e => simp [hpb] at h
                  | ok v =>
                      simp only [hpb, Except.ok.injEq, Prod.mk.injEq] at h
                      rw [← h.1]
                      simp only [Loop.loopTargetType_replaceChildStatement,
                        Loop.loopTargetType_setIterator]
                      exact ⟨Loop.loopTargetType_setLoopTargetType kind _ iterator hit,
                        by simp⟩

theorem Loop.dataAllocation_fails (c : Compiler) (env : LoopCompiler)
    (self1 self2 target target1 : Stmt) (st1 st2 : CompileState)
    (hresolve : Loop.tryToResolveType env self1 = .ok self2)
    (htarget : self2.getSubExpr 0 = some target)
    (hprocess : c.processChild .DataAllocation target st1 = .ok (target1, st2))
    (hnone : Loop.kindOfTargetType target1.getTypeInfo = none) :
    ∃ e, Loop.dataAllocation c env self1 st1 = .error e := by
  cases h : Loop.dataAllocation c env self1 st1 with
  | error e => exact ⟨e, rfl⟩
  | ok r =>
      obtain ⟨s3, st3⟩ := r
      exact absurd hnone
        (Loop.dataAllocation_ok c env self1 self2 s3 target target1 st1 st2 st3 hresolve
          htarget hprocess h).2

/-- Claim C7: in the DataAllocation pass (after the base processing, `tryToResolveType`
and the processing of the target went through) the value `Loop::process` leaves in
`loopTargetType` is a function of the resolved type of the target alone: `Span` for a
span, `Dyn` for a dyn, `CustomObject` for a struct whose function class has a begin
iterator and a size function; a block target is accepted (as `Dyn`) and a dynamic
iterator becomes float; for every other target type, a struct without one of the two
functions included, the pass fails. In the passes other than DataAllocation and
CodeGeneration `process` leaves `loopTargetType` as the base processing left it. -/
theorem Loop_target_kind_from_target_type (c : Compiler) (env : LoopCompiler)
    (codeGeneration : Stmt → List Nat → CompileState → Processed)
    (root self self1 self2 target target1 : Stmt) (this : List Nat)
    (st st1 st2 : CompileState)
    (hself : root.get? this = some self)
    (hbase : c.processBaseWithoutChildren .DataAllocation self st = .ok (self1, st1))
    (hresolve : Loop.tryToResolveType env self1 = .ok self2)
    (htarget : self2.getSubExpr 0 = some target)
    (hprocess : c.processChild .DataAllocation target st1 = .ok (target1, st2)) :
    (∀ r, Loop.process c env codeGeneration .DataAllocation root this st = .ok r →
        (r.1.get? this).bind Loop.loopTargetType = Loop.kindOfTargetType target1.getTypeInfo
        ∧ Loop.kindOfTargetType target1.getTypeInfo ≠ none)
    ∧ (Loop.kindOfTargetType target1.getTypeInfo = none →
        ∃ e, Loop.process c env codeGeneration .DataAllocation root this st = .error e)
    ∧ (∀ e n isConst isRef, Loop.kindOfTargetType (.span e n isConst isRef) = some .Span)
    ∧ (∀ e isConst isRef, Loop.kindOfTargetType (.dyn e isConst isRef) = some .Dyn)
    ∧ (∀ id bt isConst isRef,
        Loop.kindOfTargetType (.struct id true bt true isConst isRef) = some .CustomObject)
    ∧ (∀ id b bt s isConst isRef, (b = false ∨ s = false) →
        Loop.kindOfTargetType (.struct id b bt s isConst isRef) = none)
    ∧ (∀ t isConst isRef, t ≠ .Block → Loop.kindOfTargetType (.native t isConst isRef) = none)
    ∧ (∀ isConst isRef (iterator : Symbol), iterator.typeInfo.isDynamic = true →
        Loop.selectTargetType env.toString (.native .Block isConst isRef) iterator
          = (some .Dyn, .ok ⟨iterator.id,
              .native .Float iterator.typeInfo.isConst iterator.typeInfo.isRef,
              iterator.constExprValue, iterator.resolved⟩))
    ∧ (∀ pass r s1 st3, pass ≠ .DataAllocation → pass ≠ .CodeGeneration →
        c.processBaseWithoutChildren pass self st = .ok (s1, st3) →
        Loop.process c env codeGeneration pass root this st = .ok r →
        (r.1.get? this).bind Loop.loopTargetType = Loop.loopTargetType s1) := by
  refine ⟨?_, ?_, fun _ _ _ _ => rfl, fun _ _ _ => rfl, fun _ _ _ _ => rfl, ?_, ?_, ?_, ?_⟩
  · intro r hr
    simp only [Loop.process, hself, hbase, Except_bind_eq_ok_iff, pure, Except.pure,
      Except.ok.injEq, exists_eq_left', ne_eq, not_true_eq_false, false_and, if_false,
      if_true, reduceCtorEq] at hr
    obtain ⟨⟨s3, st3⟩, hda, root1, hload, rfl⟩ := hr
    have hok := Loop.dataAllocation_ok c env self1 self2 s3 target target1 st1 st2 st3
      hresolve htarget hprocess hda
    refine ⟨?_, hok.2⟩
    cases hev : Loop.evaluateIteratorLoad (root.modifyAt this fun _ => s3) this with
    | error e => simp [hev, Except.map] at hload
    | ok res =>
        obtain ⟨b, root2⟩ := res
        simp only [hev, Except.map, Except.ok.injEq] at hload
        subst hload
        have h1 := Loop.evaluateIteratorLoad_loopTargetType _ _ this b hev
        simp only at h1 ⊢
        rw [h1, Stmt.get?_modifyAt_self _ this root self hself]
        exact hok.1
  · intro hnone
    obtain ⟨e, he⟩ := Loop.dataAllocation_fails c env self1 self2 target target1 st1 st2
      hresolve htarget hprocess hnone
    refine ⟨e, ?_⟩
    simp [Loop.process, hself, hbase, he, bind, Except.bind, pure, Except.pure]
  · rintro id b bt s isConst isRef (h | h) <;> simp [Loop.kindOfTargetType, h]
  · intro t isConst isRef h
    simp [Loop.kindOfTargetType, h]
  · intro isConst isRef iterator h
    simp [Loop.selectTargetType, h]
  · intro pass r s1 st3 hp1 hp2 hb hr
    simp only [Loop.process, hself, hb, bind, Except.bind, pure, Except.pure, hp1, hp2,
      ne_eq, not_false_eq_true, and_self, if_true, if_false] at hr
    cases ht : s1.getSubExpr 0 with
    | none => simp [ht, throw, throwThe, MonadExceptOf.throw] at hr
    | some t =>
        simp only [ht] at hr
        cases hpt : c.processChild pass t st3 with
        | error e => simp [hpt] at hr
        | ok v =>
            simp only [hpt] at hr
            cases hb2 : Loop.getLoopBlock (s1.replaceChildStatement 0 v.1) with
            | none => simp [hb2, throw, throwThe, MonadExceptOf.throw] at hr
            | some b =>
                simp only [hb2] at hr
                cases hpb : c.processChild pass b v.2 with
                | error e => simp [hpb] at hr
                | ok v1 =>
                    simp only [hpb, Except.ok.injEq] at hr
                    subst hr
                    simp only
                    rw [Stmt.get?_modifyAt_self _ this root self hself]
                    simp [Option.bind, Loop.loopTargetType_replaceChildStatement]

theorem Loop_target_kind_from_target_type_witness :
    Loop.process Example.compiler Example.loopCompiler Example.noCodeGenerationAt
        .DataAllocation Example.forAutoOverFloats [] CompileState.empty
      = .ok (.node Example.loc
          (.Loop (Symbol.ofType "x" (.native .Float false true)) true false .Span)
          [Example.spanData, Example.emptyBlock], CompileState.empty)
    ∧ ((Stmt.node Example.loc
          (.Loop (Symbol.ofType "x" (.native .Float false true)) true false .Span)
          [Example.spanData, Example.emptyBlock]).get? []).bind Loop.loopTargetType
        = Loop.kindOfTargetType Example.spanData.getTypeInfo
    ∧ Loop.kindOfTargetType Example.spanData.getTypeInfo ≠ none :=
  ⟨rfl, (Loop_target_kind_from_target_type Example.compiler Example.loopCompiler
      Example.noCodeGenerationAt Example.forAutoOverFloats Example.forAutoOverFloats
      Example.forAutoOverFloats
      (.node Example.loc
        (.Loop (Symbol.ofType "x" (.native .Float false true)) true false .Undefined)
        [Example.spanData, Example.emptyBlock])
      Example.spanData Example.spanData [] CompileState.empty CompileState.empty
      CompileState.empty rfl rfl rfl rfl rfl).1 _ rfl⟩

mutual
theorem SyntaxTreeWalker.mem_scan :
    ∀ (s : Stmt) (path q : List Nat) (t : Stmt), s.get? q = some t →
      (path ++ q, t) ∈ SyntaxTreeWalker.scan s path
  | .node l k cs, path, [], t, h => by
      simp only [Stmt.get?, Option.some.injEq] at h
      simp [SyntaxTreeWalker.scan, h]
  | .node l k cs, path, j :: q, t, h => by
      simp only [Stmt.get?] at h
      cases hc : cs[j]? with
      | none => simp [hc] at h
      | some c =>
          simp only [hc] at h
          have := SyntaxTreeWalker.mem_scanChildren cs path 0 j q c t hc h
          simp only [Nat.zero_add] at this
          simp [SyntaxTreeWalker.scan, this]
theorem SyntaxTreeWalker.mem_scanChildren :
    ∀ (cs : List Stmt) (path : List Nat) (index j : Nat) (q : List Nat) (c t : Stmt),
      cs[j]? = some c → c.get? q = some t →
      (path ++ (index + j) :: q, t) ∈ SyntaxTreeWalker.scanChildren cs path index
  | [], _, _, _, _, _, _, hc, _ => by simp at hc
  | c0 :: cs, path, index, 0, q, c, t, hc, h => by
      simp only [List.getElem?_cons_zero, Option.some.injEq] at hc
      subst hc
      have := SyntaxTreeWalker.mem_scan c0 (path ++ [index]) q t h
      simp only [List.append_assoc, List.singleton_append] at this
      simp [SyntaxTreeWalker.scanChildren, this]
  | c0 :: cs, path, index, j + 1, q, c, t, hc, h => by
      simp only [List.getElem?_cons_succ] at hc
      have := SyntaxTreeWalker.mem_scanChildren cs path (index + 1) j q c t hc h
      have he : index + 1 + j = index + (j + 1) := by omega
      rw [he] at this
      simp [SyntaxTreeWalker.scanChildren, this]
end

theorem SyntaxTreeWalker.mem_variableReferences (walk : List (List Nat × Stmt))
    (p : List Nat) (l : Location) (id : Symbol) (cs : List Stmt)
    (h : (p, Stmt.node l (.VariableReference id) cs) ∈ walk) :
    (p, id) ∈ SyntaxTreeWalker.variableReferences walk := by
  induction walk with
  | nil => cases h
  | cons e rest ih =>
      obtain ⟨q, s⟩ := e
      obtain ⟨l1, k, cs1⟩ := s
      simp only [List.mem_cons, Prod.mk.injEq, Stmt.node.injEq] at h
      rcases h with ⟨rfl, rfl, rfl, rfl⟩ | h
      · simp [SyntaxTreeWalker.variableReferences]
      · cases k
        case VariableReference id1 =>
          simp only [SyntaxTreeWalker.variableReferences, List.mem_cons]
          exact Or.inr (ih h)
        all_goals
          simp only [SyntaxTreeWalker.variableReferences]
          exact ih h

theorem Stmt.get?_append :
    ∀ (p q : List Nat) (root : Stmt), root.get? (p ++ q) = (root.get? p).bind (fun s => s.get? q)
  | [], q, root => by simp [Stmt.get?]
  | i :: p, q, .node l k cs => by
      simp only [List.cons_append, Stmt.get?]
      cases cs[i]? with
      | none => rfl
      | some c => exact Stmt.get?_append p q c

/-- The loop of `evaluateIteratorStore` sets the flag exactly when the walker returns a
reference to the iterator whose parent has a side effect, unless the parent is an
assignment and the reference is its child 0. -/
theorem Loop.evaluateIteratorStoreLoop_eq_true (root : Stmt) (iterator : Symbol)
    (w : List (List Nat × Symbol)) :
    Loop.evaluateIteratorStoreLoop root iterator w = true ↔
      ∃ v id, (v, id) ∈ w ∧ id.same iterator = true
        ∧ ((root.get? v.dropLast).map Stmt.hasSideEffect).getD false = true
        ∧ ¬ (Stmt.isTypeAt Kind.isAssignment root v.dropLast = true ∧ v = v.dropLast ++ [0]) := by
  induction w with
  | nil => simp [Loop.evaluateIteratorStoreLoop]
  | cons e rest ih =>
      obtain ⟨v, id⟩ := e
      simp only [Loop.evaluateIteratorStoreLoop, List.mem_cons, Prod.mk.injEq]
      by_cases h1 : id.same iterator = true
      · by_cases h2 : ((root.get? v.dropLast).map Stmt.hasSideEffect).getD false = true
        · by_cases h3 : Stmt.isTypeAt Kind.isAssignment root v.dropLast = true
              ∧ v = v.dropLast ++ [0]
          · have h3b : (Stmt.isTypeAt Kind.isAssignment root v.dropLast
                && v == v.dropLast ++ [0]) = true := by
              simp only [Bool.and_eq_true, beq_iff_eq]
              exact h3
            simp only [h1, h2, h3b, if_true, ih]
            constructor
            · rintro ⟨v1, id1, hm, r⟩
              exact ⟨v1, id1, Or.inr hm, r⟩
            · rintro ⟨v1, id1, ⟨rfl, rfl⟩ | hm, r1, r2, r3⟩
              · exact absurd h3 r3
              · exact ⟨v1, id1, hm, r1, r2, r3⟩
          · have h3b : (Stmt.isTypeAt Kind.isAssignment root v.dropLast
                && v == v.dropLast ++ [0]) = false := by
              rw [Bool.eq_false_iff]
              simp only [ne_eq, Bool.and_eq_true, beq_iff_eq]
              exact h3
            simp only [h1, h2, h3b, if_true, Bool.false_eq_true, if_false, true_iff]
            exact ⟨v, id, Or.inl ⟨rfl, rfl⟩, h1, h2, h3⟩
        · simp only [h1, h2, if_true, ih, Bool.false_eq_true, if_false]
          constructor
          · rintro ⟨v1, id1, hm, r⟩
            exact ⟨v1, id1, Or.inr hm, r⟩
          · rintro ⟨v1, id1, ⟨rfl, rfl⟩ | hm, r1, r2, r3⟩
            · exact absurd r2 h2
            · exact ⟨v1, id1, hm, r1, r2, r3⟩
      · simp only [h1, ih, Bool.false_eq_true, if_false]
        constructor
        · rintro ⟨v1, id1, hm, r⟩
          exact ⟨v1, id1, Or.inr hm, r⟩
        · rintro ⟨v1, id1, ⟨rfl, rfl⟩ | hm, r1, r2, r3⟩
          · exact absurd r1 h1
          · exact ⟨v1, id1, hm, r1, r2, r3⟩

theorem SyntaxTreeWalker.mem_variableReferences_scan_iff (block : Stmt) (path v : List Nat)
    (id : Symbol) :
    (v, id) ∈ SyntaxTreeWalker.variableReferences (SyntaxTreeWalker.scan block path) ↔
      ∃ q l cs, v = path ++ q ∧ block.get? q = some (.node l (.VariableReference id) cs) := by
  constructor
  · intro h
    obtain ⟨l, cs, hm⟩ := SyntaxTreeWalker.variableReferences_mem _ v id h
    obtain ⟨q, hq1, hq2⟩ := SyntaxTreeWalker.scan_get block path _ hm
    exact ⟨q, l, cs, hq1, hq2⟩
  · rintro ⟨q, l, cs, rfl, hq⟩
    exact SyntaxTreeWalker.mem_variableReferences _ _ l id cs
      (SyntaxTreeWalker.mem_scan block path q _ hq)

/-- Claim C10: on a `Loop` (at path `this` of the tree `root`) whose store flag is not set,
`evaluateIteratorStore` returns, and it returns true exactly when below the loop block
there is a reference to the iterator whose parent node has a side effect and which is not
child 0 (the value expression) of an assignment parent. In particular it returns true
when the body contains an assignment whose target is the iterator or an increment of the
iterator, and false when every reference to the iterator has a parent without side
effect or is the value of an assignment. -/
theorem Loop_evaluateIteratorStore_iff_written (root target : Stmt) (this : List Nat)
    (l lb : Location) (iterator : Symbol) (loadIterator isInlined : Bool)
    (loopTargetType : ArrayType) (returnType : TypeInfo) (body : List Stmt)
    (hloop : root.get? this = some (.node l (.Loop iterator loadIterator false loopTargetType)
      [target, .node lb (.StatementBlock isInlined returnType) body])) :
    ∃ b root1, Loop.evaluateIteratorStore root this = .ok (b, root1)
      ∧ (b = true ↔ ∃ v l1 id cs1, (this ++ [1]) <+: v
          ∧ root.get? v = some (.node l1 (.VariableReference id) cs1)
          ∧ id.same iterator = true
          ∧ ((root.get? v.dropLast).map Stmt.hasSideEffect).getD false = true
          ∧ ¬ (Stmt.isTypeAt Kind.isAssignment root v.dropLast = true ∧ v = v.dropLast ++ [0]))
      ∧ (∀ a la ty first value l1 id cs1, (this ++ [1]) <+: a →
          root.get? a = some (.node la (.Assignment ty first)
            [value, .node l1 (.VariableReference id) cs1]) →
          id.same iterator = true → b = true)
      ∧ (∀ a la pre dec l1 id cs1, (this ++ [1]) <+: a →
          root.get? a = some (.node la (.Increment pre dec)
            [.node l1 (.VariableReference id) cs1]) →
          id.same iterator = true → b = true)
      ∧ ((∀ v l1 id cs1, (this ++ [1]) <+: v →
          root.get? v = some (.node l1 (.VariableReference id) cs1) →
          id.same iterator = true →
          ((root.get? v.dropLast).map Stmt.hasSideEffect).getD false = false
            ∨ (Stmt.isTypeAt Kind.isAssignment root v.dropLast = true ∧ v = v.dropLast ++ [0])) →
          b = false) := by
  have hblock : ∀ q, root.get? (this ++ [1] ++ q)
      = (Stmt.node lb (.StatementBlock isInlined returnType) body).get? q := by
    intro q
    rw [List.append_assoc, Stmt.get?_append, hloop]
    simp [Stmt.get?]
  have hmain : Loop.evaluateIteratorStoreLoop root iterator
        (SyntaxTreeWalker.variableReferences (SyntaxTreeWalker.scan
          (.node lb (.StatementBlock isInlined returnType) body) (this ++ [1]))) = true
      ↔ ∃ v l1 id cs1, (this ++ [1]) <+: v
          ∧ root.get? v = some (.node l1 (.VariableReference id) cs1)
          ∧ id.same iterator = true
          ∧ ((root.get? v.dropLast).map Stmt.hasSideEffect).getD false = true
          ∧ ¬ (Stmt.isTypeAt Kind.isAssignment root v.dropLast = true
              ∧ v = v.dropLast ++ [0]) := by
    rw [Loop.evaluateIteratorStoreLoop_eq_true]
    constructor
    · rintro ⟨v, id, hm, r1, r2, r3⟩
      obtain ⟨q, l1, cs1, rfl, hq⟩ :=
        (SyntaxTreeWalker.mem_variableReferences_scan_iff _ _ _ _).mp hm
      exact ⟨_, l1, id, cs1, ⟨q, rfl⟩, by rw [hblock, hq], r1, r2, r3⟩
    · rintro ⟨v, l1, id, cs1, ⟨q, rfl⟩, hv, r1, r2, r3⟩
      rw [hblock] at hv
      exact ⟨_, id, (SyntaxTreeWalker.mem_variableReferences_scan_iff _ _ _ _).mpr
        ⟨q, l1, cs1, rfl, hv⟩, r1, r2, r3⟩
  refine ⟨Loop.evaluateIteratorStoreLoop root iterator
      (SyntaxTreeWalker.variableReferences (SyntaxTreeWalker.scan
        (.node lb (.StatementBlock isInlined returnType) body) (this ++ [1]))),
    root.modifyAt this (Loop.setStoreIterator (Loop.evaluateIteratorStoreLoop root iterator
      (SyntaxTreeWalker.variableReferences (SyntaxTreeWalker.scan
        (.node lb (.StatementBlock isInlined returnType) body) (this ++ [1]))))),
    ?_, hmain, ?_, ?_, ?_⟩
  · simp [Loop.evaluateIteratorStore, hloop, Loop.getLoopBlock, Stmt.getChildStatement,
      Stmt.children]
  · intro a la ty first value l1 id cs1 ha hget hsame
    rw [hmain]
    refine ⟨a ++ [1], l1, id, cs1, ?_, ?_, hsame, ?_, ?_⟩
    · exact ha.trans (List.prefix_append a [1])
    · rw [Stmt.get?_append, hget]
      simp [Stmt.get?]
    · simp [List.dropLast_concat, hget, Stmt.hasSideEffect, Stmt.kind]
    · simp [List.dropLast_concat]
  · intro a la pre dec l1 id cs1 ha hget hsame
    rw [hmain]
    refine ⟨a ++ [0], l1, id, cs1, ?_, ?_, hsame, ?_, ?_⟩
    · exact ha.trans (List.prefix_append a [0])
    · rw [Stmt.get?_append, hget]
      simp [Stmt.get?]
    · simp [List.dropLast_concat, hget, Stmt.hasSideEffect, Stmt.kind]
    · simp [List.dropLast_concat, Stmt.isTypeAt, hget, Stmt.kind, Kind.isAssignment]
  · intro hall
    rw [Bool.eq_false_iff, ne_eq, hmain]
    rintro ⟨v, l1, id, cs1, hv, hget, r1, r2, r3⟩
    rcases hall v l1 id cs1 hv hget r1 with h | h
    · rw [h] at r2
      cases r2
    · exact r3 h

theorem Loop_evaluateIteratorStore_iff_written_witness :
    ∃ root1, Loop.evaluateIteratorStore Example.forTimesTwo [] = .ok (true, root1) := by
  obtain ⟨b, root1, h, -, hassign, -, -⟩ := Loop_evaluateIteratorStore_iff_written
    Example.forTimesTwo Example.spanData [] Example.loc Example.loc Example.autoRefX true false
    .Undefined (TypeInfo.ofID .Void) [Example.assign (Example.var "x") Example.xTimesTwo] rfl
  have hb : b = true :=
    hassign [1, 0] Example.loc JitTokens.assign_ false Example.xTimesTwo Example.loc
      (Example.intVar "x") [] ⟨[0], rfl⟩ rfl rfl
  subst hb
  exact ⟨root1, h⟩

/-- Claim C13: for a `Subscript` whose target is a span of `n` elements (the member
`spanType` is set) and whose index, after `tryToResolveType`, has the type int and is a
compile-time constant with the value `i`, the TypeCheck block of `Subscript::process`
(after the base processing went through) throws "constant index out of bounds" exactly
when `i < 0` or `i >= n`, and for `0 <= i < n` it raises no error at all. -/
theorem Subscript_constant_index_bounds (c : Compiler) (env : SubscriptCompiler)
    (codeGeneration : Stmt → CompileState → Processed) (self target index : Stmt)
    (st st1 : CompileState) (l : Location) (e elem : TypeInfo) (w isConst isRef : Bool)
    (t : ArrayType) (dt : Option TypeInfo) (n : Nat) (i : Int)
    (hbase : c.processBaseWithChildren .TypeCheck self st
      = .ok (.node l (.Subscript e w t (some (.span elem n isConst isRef)) dt) [target, index],
          st1))
    (hexpr : index.kind.isExpression = true)
    (hint : (env.indexTryToResolveType index).getType = .Integer)
    (hconst : (env.indexTryToResolveType index).isConstExpr = true)
    (hval : (env.indexTryToResolveType index).getConstExprValue.toInt = i) :
    (Subscript.process c env codeGeneration .TypeCheck self st
        = .error (.thrown "constant index out of bounds") ↔ (i < 0 ∨ (n : Int) ≤ i))
    ∧ (0 ≤ i ∧ i < (n : Int) →
        Subscript.process c env codeGeneration .TypeCheck self st
          = .ok (.node l (.Subscript e w t (some (.span elem n isConst isRef)) dt)
              [target, env.indexTryToResolveType index], st1)) := by
  have h1 : (Stmt.node l (.Subscript e w t (some (.span elem n isConst isRef)) dt)
      [target, index]).getSubExpr 1 = some index := by
    simp [Stmt.getSubExpr, Stmt.getChildStatement, Stmt.children, hexpr]
  have hty : (env.indexTryToResolveType index).getTypeInfo.getType = .Integer := hint
  have hproc : Subscript.process c env codeGeneration .TypeCheck self st
      = (if isPositiveAndBelow i n then
          .ok (.node l (.Subscript e w t (some (.span elem n isConst isRef)) dt)
              [target, env.indexTryToResolveType index], st1)
        else .error (.thrown "constant index out of bounds")) := by
    simp only [Subscript.process, hbase, Subscript.typeCheck, h1, bind, Except.bind, pure,
      Except.pure, hty, hconst, hval, TypeInfo.getNumElements, Stmt.replaceChildStatement]
    cases hb : isPositiveAndBelow i n <;> simp
  rw [hproc]
  constructor
  · constructor
    · intro h
      by_cases hb : isPositiveAndBelow i n = true
      · simp [hb] at h
      · simp only [isPositiveAndBelow, Bool.and_eq_true, decide_eq_true_eq, not_and, not_lt] at hb
        by_cases h0 : 0 ≤ i
        · exact Or.inr (hb h0)
        · exact Or.inl (by omega)
    · intro h
      have hb : isPositiveAndBelow i n = false := by
        rw [Bool.eq_false_iff]
        simp only [isPositiveAndBelow, ne_eq, Bool.and_eq_true, decide_eq_true_eq, not_and,
          not_lt]
        intro h0
        omega
      simp [hb]
  · rintro ⟨h0, hn⟩
    have hb : isPositiveAndBelow i n = true := by
      simp [isPositiveAndBelow, h0, hn]
    simp [hb]

theorem Subscript_constant_index_bounds_witness :
    (Subscript.process Example.compiler Example.subscriptCompiler Example.noCodeGeneration
        .TypeCheck (Example.subscriptDataResolved 8) CompileState.empty
        = .error (.thrown "constant index out of bounds") ↔ ((8 : Int) < 0 ∨ ((8 : Nat) : Int) ≤ 8))
    ∧ (0 ≤ (8 : Int) ∧ (8 : Int) < ((8 : Nat) : Int) →
        Subscript.process Example.compiler Example.subscriptCompiler Example.noCodeGeneration
          .TypeCheck (Example.subscriptDataResolved 8) CompileState.empty
          = .ok (.node Example.loc
              (.Subscript (TypeInfo.ofID .Float) false .Span (some Example.spanOf8Floats) none)
              [Example.spanData, Example.subscriptCompiler.indexTryToResolveType
                (Example.intLiteral 8)], CompileState.empty)) :=
  Subscript_constant_index_bounds Example.compiler Example.subscriptCompiler
    Example.noCodeGeneration (Example.subscriptDataResolved 8) Example.spanData
    (Example.intLiteral 8) CompileState.empty CompileState.empty Example.loc
    (TypeInfo.ofID .Float) (TypeInfo.ofID .Float) false false false .Span none 8 8
    rfl rfl rfl rfl rfl

/-- Claim C17 (counterexample): the definition of a local variable `x` of type int whose
name is already declared in a block scope (neither a class nor the global scope) is
validated without a compile error: the method returns true and logs the warning
"declaration of x hides previous declaration". -/
theorem validateLocalDefinition_redeclaration_is_no_error :
    VariableReference.validateLocalDefinition Example.symbolName
        (fun _ => some ⟨.Anonymous, false, false⟩) (Example.var "x") CompileState.empty
      = .ok (true, ⟨["declaration of x hides previous declaration"], [], 0, 0⟩) := by
  rfl

/-- Claim C17 (amended): validating a local definition whose name is already declared in
some scope does not fail on account of the existing declaration. With a resolved type
the method returns true and logs one warning whose text names the nature of the existing
declaration (class member, global variable or previous declaration), except when the
existing declaration is in a class scope whose type pointer is set, where it logs
nothing. The only compile error of the validation is "Use of undefined variable" for a
type that is still dynamic. -/
theorem validateLocalDefinition_existing_declaration_warns
    (toString : Symbol → String) (getScopeForSymbol : String → Option ExistingScope)
    (l : Location) (id : Symbol) (cs : List Stmt) (st : CompileState) (es : ExistingScope)
    (hes : getScopeForSymbol id.id = some es) :
    (id.typeInfo.getType ≠ .Dynamic →
      VariableReference.validateLocalDefinition toString getScopeForSymbol
          (.node l (.VariableReference id) cs) st
        = .ok (true,
            if es.isClassScope && es.hasTypePtr then st
            else { st with warnings := st.warnings ++ ["declaration of " ++ toString id
              ++ " hides "
              ++ (match es.scopeType with
                  | .Class => "class member"
                  | .Global => "global variable"
                  | _ => "previous declaration")] }))
    ∧ (id.typeInfo.getType = .Dynamic →
        VariableReference.validateLocalDefinition toString getScopeForSymbol
          (.node l (.VariableReference id) cs) st
          = .error (.thrown ("Use of undefined variable " ++ toString id))) := by
  have hty : (Stmt.node l (.VariableReference id) cs).getType = id.typeInfo.getType := rfl
  constructor
  · intro hres
    cases hc : es.isClassScope <;> cases ht : es.hasTypePtr <;> cases hs : es.scopeType <;>
      simp [VariableReference.validateLocalDefinition, hes, hty, hres, hc, ht, hs,
        CompileState.logWarning]
  · intro hdyn
    simp [VariableReference.validateLocalDefinition, hty, hdyn]

theorem validateLocalDefinition_existing_declaration_warns_witness :
    VariableReference.validateLocalDefinition Example.symbolName
        (fun _ => some ⟨.Function, false, false⟩) (Example.var "x") CompileState.empty
      = .ok (true, ⟨["declaration of x hides previous declaration"], [], 0, 0⟩)
    ∧ VariableReference.validateLocalDefinition Example.symbolName
        (fun _ => some ⟨.Class, true, true⟩) (Example.var "x") CompileState.empty
      = .ok (true, CompileState.empty) :=
  ⟨(validateLocalDefinition_existing_declaration_warns Example.symbolName
      (fun _ => some ⟨.Function, false, false⟩) Example.loc (Example.intVar "x") []
      CompileState.empty ⟨.Function, false, false⟩ rfl).1 (by decide),
    (validateLocalDefinition_existing_declaration_warns Example.symbolName
      (fun _ => some ⟨.Class, true, true⟩) Example.loc (Example.intVar "x") []
      CompileState.empty ⟨.Class, true, true⟩ rfl).1 (by decide)⟩

/-- Claim C18 (counterexample): the name of the local definition `x` (of type int) already
exists as a member of a class scope whose type pointer is set; the method returns true
and logs no warning. -/
theorem validateLocalDefinition_sub_class_member_is_silent :
    VariableReference.validateLocalDefinition Example.symbolName
        (fun _ => some ⟨.Class, true, true⟩) (Example.var "x") CompileState.empty
      = .ok (true, CompileState.empty) := by
  rfl

/-- Claim C18 (amended): for a local definition with a resolved type whose name already
exists in a class scope or in the global scope, `validateLocalDefinition` raises no
error and returns true; it logs the warning "declaration of <symbol> hides class member"
or "... hides global variable", except when the existing scope is a class scope with a
type pointer (a member of a sub class), where it logs nothing. -/
theorem validateLocalDefinition_shadowing_member_or_global
    (toString : Symbol → String) (getScopeForSymbol : String → Option ExistingScope)
    (l : Location) (id : Symbol) (cs : List Stmt) (st : CompileState) (es : ExistingScope)
    (hes : getScopeForSymbol id.id = some es)
    (hres : id.typeInfo.getType ≠ .Dynamic)
    (hscope : es.scopeType = .Class ∨ es.scopeType = .Global) :
    VariableReference.validateLocalDefinition toString getScopeForSymbol
        (.node l (.VariableReference id) cs) st
      = .ok (true,
          if es.isClassScope && es.hasTypePtr then st
          else { st with warnings := st.warnings ++ ["declaration of " ++ toString id ++ " hides "
            ++ (if es.scopeType = .Class then "class member" else "global variable")] }) := by
  have hty : (Stmt.node l (.VariableReference id) cs).getType = id.typeInfo.getType := rfl
  rcases hscope with hs | hs <;>
    cases hc : es.isClassScope <;> cases ht : es.hasTypePtr <;>
      simp [VariableReference.validateLocalDefinition, hes, hty, hres, hc, ht, hs,
        CompileState.logWarning]

theorem validateLocalDefinition_shadowing_member_or_global_witness :
    VariableReference.validateLocalDefinition Example.symbolName
        (fun _ => some ⟨.Global, false, false⟩) (Example.var "x") CompileState.empty
      = .ok (true,
          if (false && false) then CompileState.empty
          else { CompileState.empty with warnings := CompileState.empty.warnings
            ++ ["declaration of " ++ Example.symbolName (Example.intVar "x") ++ " hides "
            ++ (if ScopeType.Global = .Class then "class member" else "global variable")] }) :=
  validateLocalDefinition_shadowing_member_or_global Example.symbolName
    (fun _ => some ⟨.Global, false, false⟩) Example.loc (Example.intVar "x") []
    CompileState.empty ⟨.Global, false, false⟩ rfl (by decide) (Or.inr rfl)

/-- Claim C19 (the code at the failing input): for the autosave interval the value 30 is
rejected with "The autosave interval must be between 1 and 30 minutes", because the range
test excludes the end of the range; 1 and 29 are accepted, 0 and 31 are rejected. -/
theorem checkInput_AutosaveInterval_rejects_30 :
    HiseSettings.checkInput Example.integerSettings .AutosaveInterval 30
      = some "The autosave interval must be between 1 and 30 minutes"
    ∧ HiseSettings.checkInput Example.integerSettings .AutosaveInterval 29 = none
    ∧ HiseSettings.checkInput Example.integerSettings .AutosaveInterval 1 = none
    ∧ HiseSettings.checkInput Example.integerSettings .AutosaveInterval 0
      = some "The autosave interval must be between 1 and 30 minutes"
    ∧ HiseSettings.checkInput Example.integerSettings .AutosaveInterval 31
      = some "The autosave interval must be between 1 and 30 minutes" := by
  refine ⟨?_, ?_, ?_, ?_, ?_⟩ <;>
    simp [HiseSettings.checkInput, TestFunctions.isValidNumberBetween, Example.integerSettings,
      Range.contains] <;> norm_num

theorem VariableReference.reuseLoop_flags (isLast : List Nat → Bool) (view : RegisterView)
    (parentRegisters : List Reg) :
    ∀ (w : List (List Nat × Symbol)) (flagged : List Reg),
      VariableReference.reuseLoop isLast view parentRegisters w = .ok flagged →
      ∀ r ∈ flagged, r ∉ parentRegisters
        ∧ ∃ v id, (v, id) ∈ w ∧ view.reg v = some r ∧ isLast v = true
          ∧ view.parameterIndex v = -1 := by
  intro w
  induction w with
  | nil =>
      intro flagged h r hr
      simp only [VariableReference.reuseLoop, Except.ok.injEq] at h
      subst h
      cases hr
  | cons e w ih =>
      obtain ⟨v, id⟩ := e
      intro flagged h r hr
      have hrest : ∀ flagged1, VariableReference.reuseLoop isLast view parentRegisters w
          = .ok flagged1 → r ∈ flagged1 → r ∉ parentRegisters
            ∧ ∃ v1 id1, (v1, id1) ∈ (v, id) :: w ∧ view.reg v1 = some r ∧ isLast v1 = true
              ∧ view.parameterIndex v1 = -1 := by
        intro flagged1 h1 hr1
        obtain ⟨hn, v1, id1, hm, h2⟩ := ih flagged1 h1 r hr1
        exact ⟨hn, v1, id1, List.mem_cons_of_mem _ hm, h2⟩
      simp only [VariableReference.reuseLoop] at h
      split at h
      · exact hrest flagged h hr
      · rename_i hcontains
        split at h
        · rename_i hlast
          split at h
          · exact hrest flagged h hr
          · rename_i hparam
            cases hreg : view.reg v with
            | none => simp [hreg] at h
            | some r1 =>
                simp only [hreg] at h hcontains
                cases hloop : VariableReference.reuseLoop isLast view parentRegisters w with
                | error e => simp [hloop, Except.map] at h
                | ok flagged1 =>
                    simp only [hloop, Except.map, Except.ok.injEq] at h
                    subst h
                    simp only [List.mem_cons] at hr
                    rcases hr with rfl | hr
                    · refine ⟨?_, v, id, by simp, hreg, hlast, ?_⟩
                      · simpa using hcontains
                      · simpa using hparam
                    · exact hrest flagged1 hloop hr
        · exact hrest flagged h hr

theorem VariableReference.reuseLoop_never_last (view : RegisterView)
    (parentRegisters : List Reg) (isLast : List Nat → Bool) (hlast : ∀ v, isLast v = false) :
    ∀ w : List (List Nat × Symbol),
      VariableReference.reuseLoop isLast view parentRegisters w = .ok [] := by
  intro w
  induction w with
  | nil => rfl
  | cons e w ih =>
      obtain ⟨v, id⟩ := e
      simp only [VariableReference.reuseLoop, hlast v, Bool.false_eq_true, if_false, ih]
      split <;> rfl

theorem Stmt.get?_isSome_of_prefix (root : Stmt) (a p : List Nat) (ha : a <+: p)
    (hp : (root.get? p).isSome = true) : (root.get? a).isSome = true := by
  obtain ⟨q, rfl⟩ := ha
  rw [Stmt.get?_append] at hp
  cases hq : root.get? a with
  | none => simp [hq] at hp
  | some s => rfl

theorem VariableReference.mem_parentRegisters (root : Stmt) (view : RegisterView)
    (parentStatement : List Nat) (hp : (root.get? parentStatement).isSome = true) (r : Reg) :
    r ∈ VariableReference.parentRegisters root view parentStatement
      ↔ ∃ a, a <+: parentStatement ∧ view.reg a = some r := by
  have hall : parentStatement.inits.reverse.takeWhile (Stmt.isTypeAt Kind.isExpression root)
      = parentStatement.inits.reverse := by
    rw [List.takeWhile_eq_self_iff]
    intro a ha
    have hpre : a <+: parentStatement := by
      rw [List.mem_reverse, List.mem_inits] at ha
      exact ha
    have hsome := Stmt.get?_isSome_of_prefix root a parentStatement hpre hp
    cases hg : root.get? a with
    | none => simp [hg] at hsome
    | some s => simp [Stmt.isTypeAt, hg, Kind.isExpression]
  simp only [VariableReference.parentRegisters, hall, List.mem_filterMap, List.mem_reverse,
    List.mem_inits]

/-- Claim C20: for every statement `p` of a tree and whatever `isLastVariableReference`
answers for the references, every register that `reuseAllLastReferences(p)` flags for
reuse (1) is not the register of `p` or of any statement that encloses `p`, up to the
root, and (2) is the register of a `VariableReference` at or below `p` for which
`isLastVariableReference` answered true (and whose `parameterIndex` is -1). This holds
in particular for the method as it is written in this header. -/
theorem reuseAllLastReferences_flags_only_dead_references (root p : Stmt) (view : RegisterView)
    (parentStatement : List Nat) (hp : root.get? parentStatement = some p) :
    (∀ (isLast : List Nat → Bool) (flagged : List Reg),
        VariableReference.reuseAllLastReferencesWith isLast root view parentStatement
          = .ok flagged →
        ∀ r ∈ flagged,
          (∀ a, a <+: parentStatement → view.reg a ≠ some r)
          ∧ ∃ v l id cs, parentStatement <+: v
            ∧ root.get? v = some (.node l (.VariableReference id) cs)
            ∧ view.reg v = some r ∧ isLast v = true ∧ view.parameterIndex v = -1)
    ∧ ∀ flagged, VariableReference.reuseAllLastReferences root view parentStatement
          = .ok flagged →
        ∀ r ∈ flagged,
          (∀ a, a <+: parentStatement → view.reg a ≠ some r)
          ∧ ∃ v l id cs, parentStatement <+: v
            ∧ root.get? v = some (.node l (.VariableReference id) cs)
            ∧ view.reg v = some r
            ∧ VariableReference.isLastVariableReference root v = true := by
  have key : ∀ (isLast : List Nat → Bool) (flagged : List Reg),
      VariableReference.reuseAllLastReferencesWith isLast root view parentStatement
        = .ok flagged →
      ∀ r ∈ flagged,
        (∀ a, a <+: parentStatement → view.reg a ≠ some r)
        ∧ ∃ v l id cs, parentStatement <+: v
          ∧ root.get? v = some (.node l (.VariableReference id) cs)
          ∧ view.reg v = some r ∧ isLast v = true ∧ view.parameterIndex v = -1 := by
    intro isLast flagged h r hr
    simp only [VariableReference.reuseAllLastReferencesWith, hp] at h
    obtain ⟨hn, v, id, hm, h1, h2, h3⟩ :=
      VariableReference.reuseLoop_flags isLast view _ _ flagged h r hr
    constructor
    · intro a ha hreg
      exact hn ((VariableReference.mem_parentRegisters root view parentStatement
        (by rw [hp]; rfl) r).mpr ⟨a, ha, hreg⟩)
    · obtain ⟨q, l, cs, rfl, hq⟩ :=
        (SyntaxTreeWalker.mem_variableReferences_scan_iff p parentStatement v id).mp hm
      refine ⟨_, l, id, cs, ⟨q, rfl⟩, ?_, h1, h2, h3⟩
      rw [Stmt.get?_append, hp]
      exact hq
  refine ⟨key, ?_⟩
  intro flagged h r hr
  obtain ⟨h1, v, l, id, cs, h2, h3, h4, h5, -⟩ :=
    key (VariableReference.isLastVariableReference root) flagged h r hr
  exact ⟨h1, v, l, id, cs, h2, h3, h4, h5⟩

theorem reuseAllLastReferences_flags_only_dead_references_witness :
    VariableReference.reuseAllLastReferencesWith (fun _ => true) Example.whileAssignProduct
        Example.whileAssignRegisters [1, 0, 0] = .ok [3]
    ∧ ∀ r ∈ [3],
        (∀ a, a <+: [1, 0, 0] → Example.whileAssignRegisters.reg a ≠ some r)
        ∧ ∃ v l id cs, [1, 0, 0] <+: v
          ∧ Example.whileAssignProduct.get? v = some (.node l (.VariableReference id) cs)
          ∧ Example.whileAssignRegisters.reg v = some r ∧ (fun _ => true) v = true
          ∧ Example.whileAssignRegisters.parameterIndex v = -1 :=
  ⟨rfl, (reuseAllLastReferences_flags_only_dead_references Example.whileAssignProduct
    (.node Example.loc (.BinaryOp JitTokens.times false) [Example.var "x", Example.var "y"])
    Example.whileAssignRegisters [1, 0, 0] rfl).1 (fun _ => true) [3] rfl⟩


/-! ## `clone` -/

/-- Induction over a statement tree: a property that holds of a node whenever it holds
of all its children holds of every tree. -/
theorem Stmt.induction {P : Stmt → Prop}
    (h : ∀ l k cs, (∀ c ∈ cs, P c) → P (.node l k cs)) : ∀ t, P t := by
  intro t
  have key : ∀ n (t : Stmt), sizeOf t ≤ n → P t := by
    intro n
    induction n with
    | zero =>
        intro t ht
        cases t with
        | node l k cs => simp at ht
    | succ n ih =>
        intro t ht
        cases t with
        | node l k cs =>
            apply h
            intro c hc
            apply ih
            have h1 := List.sizeOf_lt_of_mem hc
            simp at ht
            omega
  exact key (sizeOf t) t (le_refl _)

theorem Stmt.cloneSubExpr_ok (l : Location) (c c1 : Stmt) :
    ∀ (cs : List Stmt) (index : Nat), cs[index]? = some c → c.kind.isExpression = true →
      Stmt.clone l c = .ok (some c1) → Stmt.cloneSubExpr l cs index = .ok c1 := by
  intro cs
  induction cs with
  | nil => intro index h; simp at h
  | cons d ds ih =>
      intro index h hexpr hclone
      cases index with
      | zero =>
          simp at h
          subst h
          simp [Stmt.cloneSubExpr, hexpr, hclone, addStatement, bind, Except.bind]
      | succ i =>
          simp at h
          simp only [Stmt.cloneSubExpr]
          exact ih i h hexpr hclone

theorem Stmt.constructedAt_get? (l : Location) :
    ∀ (path : List Nat) (t : Stmt),
      (Stmt.constructedAt l t).get? path = (t.get? path).map (Stmt.constructedAt l) := by
  have hlist : ∀ (cs : List Stmt) (i : Nat),
      (Stmt.constructedAtList l cs)[i]? = (cs[i]?).map (Stmt.constructedAt l) := by
    intro cs
    induction cs with
    | nil => intro i; simp [Stmt.constructedAtList]
    | cons c cs ih =>
        intro i
        cases i with
        | zero => simp [Stmt.constructedAtList]
        | succ i => simpa [Stmt.constructedAtList] using ih i
  intro path
  induction path with
  | nil => intro t; simp [Stmt.get?]
  | cons i p ih =>
      intro t
      cases t with
      | node loc k cs =>
          simp only [Stmt.constructedAt, Stmt.get?, hlist]
          cases cs[i]? with
          | none => simp
          | some c => simpa using ih c

theorem Stmt.constructedAtList_length (l : Location) :
    ∀ cs : List Stmt, (Stmt.constructedAtList l cs).length = cs.length := by
  intro cs
  induction cs with
  | nil => rfl
  | cons c cs ih => simp [Stmt.constructedAtList, ih]

theorem Kind.constructed_isExpression (k : Kind) :
    k.constructed.isExpression = k.isExpression := by
  cases k <;> rfl

theorem Kind.constructed_typeName (k : Kind) : k.constructed.typeName = k.typeName := by
  cases k <;> rfl

theorem Stmt.constructedAt_kind (l : Location) (t : Stmt) :
    (Stmt.constructedAt l t).kind = t.kind.constructed := by
  cases t with
  | node loc k cs => rfl

theorem Stmt.constructedAt_isExpression (l : Location) (t : Stmt) :
    (Stmt.constructedAt l t).kind.isExpression = t.kind.isExpression := by
  rw [Stmt.constructedAt_kind, Kind.constructed_isExpression]

theorem Stmt.clone_isBasicTree (l : Location) :
    ∀ t : Stmt, t.isBasicTree = true → Stmt.clone l t = .ok (some (Stmt.constructedAt l t)) := by
  intro t
  induction t using Stmt.induction with
  | h loc k cs ih =>
    intro hb
    cases k with
    | Cast targetType =>
        rcases cs with _ | ⟨a, _ | ⟨b, rest⟩⟩ <;> simp [Stmt.isBasicTree] at hb
        obtain ⟨⟨ht, he⟩, hbt⟩ := hb
        have iha := ih a (by simp) hbt
        simp [Stmt.clone, Stmt.cloneSubExpr, he, iha, addStatement, bind, Except.bind, pure,
          Except.pure, Stmt.constructedAt, Stmt.constructedAtList, Kind.constructed]
        exact ht.symm
    | _ =>
        rcases cs with _ | ⟨a, _ | ⟨b, _ | ⟨c, _ | ⟨d, rest⟩⟩⟩⟩ <;>
        simp [Stmt.isBasicTree] at hb <;>
        simp_all [Stmt.clone, Stmt.cloneSubExpr, addStatement, bind, Except.bind, pure,
          Except.pure, Stmt.constructedAt, Stmt.constructedAtList, Kind.constructed,
          Stmt.constructedAt_isExpression]


theorem Stmt.cloneChildren_ok (l : Location) :
    ∀ cs : List Stmt,
      (∀ c ∈ cs, c.cloneable = true → Stmt.clone l c = .ok (some (Stmt.cloneOr l c))) →
      Stmt.cloneableList cs = true → ∃ cs1, Stmt.cloneChildren l cs = .ok cs1 := by
  intro cs
  induction cs with
  | nil => intro _ _; exact ⟨[], rfl⟩
  | cons c cs ih =>
      intro h hc
      simp [Stmt.cloneableList] at hc
      obtain ⟨cs1, h1⟩ := ih (fun d hd => h d (List.mem_cons_of_mem _ hd)) hc.2
      have h0 := h c (by simp) hc.1
      exact ⟨Stmt.cloneOr l c :: cs1, by
        simp [Stmt.cloneChildren, h0, h1, addStatement, bind, Except.bind, pure, Except.pure]⟩

theorem Stmt.cloneArguments_ok (l : Location) :
    ∀ cs : List Stmt,
      (∀ c ∈ cs, c.cloneable = true → Stmt.clone l c = .ok (some (Stmt.cloneOr l c))) →
      Stmt.cloneableExpressions cs = true → ∃ cs1, Stmt.cloneArguments l cs = .ok cs1 := by
  intro cs
  induction cs with
  | nil => intro _ _; exact ⟨[], rfl⟩
  | cons c cs ih =>
      intro h hc
      simp [Stmt.cloneableExpressions] at hc
      obtain ⟨cs1, h1⟩ := ih (fun d hd => h d (List.mem_cons_of_mem _ hd)) hc.2
      have h0 := h c (by simp) hc.1.2
      exact ⟨Stmt.cloneOr l c :: cs1, by
        simp [Stmt.cloneArguments, hc.1.1, h0, h1, addStatement, bind, Except.bind, pure,
          Except.pure]⟩

theorem Stmt.clone_ClassStatement (l : Location) (t : Stmt)
    (h : t.kind.typeName = "ClassStatement") : Stmt.clone l t = .ok none := by
  cases t with
  | node loc k cs =>
      cases k <;> simp [Stmt.kind, Kind.typeName] at h
      rfl

theorem Stmt.clone_cloneable (l : Location) :
    ∀ t : Stmt, t.cloneable = true →
      ∃ t1, Stmt.clone l t = .ok (some t1) ∧ t1.kind.typeName = t.kind.typeName
        ∧ t1.kind.isExpression = t.kind.isExpression := by
  intro t
  induction t using Stmt.induction with
  | h loc k cs ih =>
    intro hb
    have ih1 : ∀ c ∈ cs, c.cloneable = true →
        Stmt.clone l c = .ok (some (Stmt.cloneOr l c)) := by
      intro c hc hcl
      obtain ⟨c1, h1, -, -⟩ := ih c hc hcl
      simp [Stmt.cloneOr, h1]
    have ih2 : ∀ c ∈ cs, c.cloneable = true →
        (Stmt.cloneOr l c).kind.isExpression = c.kind.isExpression := by
      intro c hc hcl
      obtain ⟨c1, h1, -, h3⟩ := ih c hc hcl
      simp [Stmt.cloneOr, h1, h3]
    clear ih
    cases k with
    | StatementBlock isInlinedFunction returnType =>
        obtain ⟨cs1, h1⟩ := Stmt.cloneChildren_ok l cs ih1 (by simpa [Stmt.cloneable] using hb)
        exact ⟨.node l (.StatementBlock isInlinedFunction returnType) cs1,
          by simp [Stmt.clone, h1, bind, Except.bind, pure, Except.pure], rfl, rfl⟩
    | TemplatedFunction id returnType isVariadic =>
        obtain ⟨cs1, h1⟩ := Stmt.cloneChildren_ok l cs ih1 (by simpa [Stmt.cloneable] using hb)
        exact ⟨.node l (.TemplatedFunction id returnType isVariadic) cs1,
          by simp [Stmt.clone, h1, bind, Except.bind, pure, Except.pure], rfl, rfl⟩
    | ComplexTypeDefinition ids type initValues =>
        obtain ⟨cs1, h1⟩ := Stmt.cloneChildren_ok l cs ih1 (by simpa [Stmt.cloneable] using hb)
        exact ⟨.node l (.ComplexTypeDefinition ids type initValues) cs1,
          by simp [Stmt.clone, h1, bind, Except.bind, pure, Except.pure], rfl, rfl⟩
    | Noop =>
        exact ⟨.node l (.Noop) [], by simp [Stmt.clone, bind, Except.bind, pure, Except.pure], rfl, rfl⟩
    | Immediate v =>
        exact ⟨.node l (.Immediate v) [], by simp [Stmt.clone, bind, Except.bind, pure, Except.pure], rfl, rfl⟩
    | VariableReference id =>
        exact ⟨.node l (.VariableReference id) [], by simp [Stmt.clone, bind, Except.bind, pure, Except.pure], rfl, rfl⟩
    | ControlFlowStatement isBreak parentLoop =>
        exact ⟨.node l (.ControlFlowStatement isBreak none) [], by simp [Stmt.clone, bind, Except.bind, pure, Except.pure], rfl, rfl⟩
    | ThisPointer type =>
        exact ⟨.node l (.ThisPointer type) [], by simp [Stmt.clone, bind, Except.bind, pure, Except.pure], rfl, rfl⟩
    | Function id returnType numTemplateParameters =>
        exact ⟨.node l (.Function id returnType numTemplateParameters) [], by simp [Stmt.clone, bind, Except.bind, pure, Except.pure], rfl, rfl⟩
    | ClassStatement classType => simp [Stmt.cloneable] at hb
    | InlinedArgument argIndex s =>
        rcases cs with _ | ⟨a, rest⟩ <;> simp [Stmt.cloneable] at hb
        have e0 := Stmt.cloneSubExpr_ok l a _ (a :: rest) 0 (by simp) hb.1 (ih1 a (by simp) hb.2)
        exact ⟨.node l (.InlinedArgument argIndex s) [Stmt.cloneOr l a], by simp [Stmt.clone, e0, bind, Except.bind, pure, Except.pure], rfl, rfl⟩
    | Cast targetType =>
        rcases cs with _ | ⟨a, rest⟩ <;> simp [Stmt.cloneable] at hb
        have e0 := Stmt.cloneSubExpr_ok l a _ (a :: rest) 0 (by simp) hb.1 (ih1 a (by simp) hb.2)
        exact ⟨.node l (.Cast (TypeInfo.ofID targetType.getType)) [Stmt.cloneOr l a], by simp [Stmt.clone, e0, bind, Except.bind, pure, Except.pure], rfl, rfl⟩
    | LogicalNot =>
        rcases cs with _ | ⟨a, rest⟩ <;> simp [Stmt.cloneable] at hb
        have e0 := Stmt.cloneSubExpr_ok l a _ (a :: rest) 0 (by simp) hb.1 (ih1 a (by simp) hb.2)
        exact ⟨.node l (.LogicalNot) [Stmt.cloneOr l a], by simp [Stmt.clone, e0, bind, Except.bind, pure, Except.pure], rfl, rfl⟩
    | Increment isPreInc isDecrement =>
        rcases cs with _ | ⟨a, rest⟩ <;> simp [Stmt.cloneable] at hb
        have e0 := Stmt.cloneSubExpr_ok l a _ (a :: rest) 0 (by simp) hb.1 (ih1 a (by simp) hb.2)
        exact ⟨.node l (.Increment isPreInc isDecrement) [Stmt.cloneOr l a], by simp [Stmt.clone, e0, bind, Except.bind, pure, Except.pure], rfl, rfl⟩
    | Negation =>
        rcases cs with _ | ⟨a, rest⟩ <;> simp [Stmt.cloneable] at hb
        have e0 := Stmt.cloneSubExpr_ok l a _ (a :: rest) 0 (by simp) hb.1 (ih1 a (by simp) hb.2)
        exact ⟨.node l (.Negation) [Stmt.cloneOr l a], by simp [Stmt.clone, e0, bind, Except.bind, pure, Except.pure], rfl, rfl⟩
    | MemoryReference type offsetInBytes =>
        rcases cs with _ | ⟨a, rest⟩ <;> simp [Stmt.cloneable] at hb
        have e0 := Stmt.cloneSubExpr_ok l a _ (a :: rest) 0 (by simp) hb.1 (ih1 a (by simp) hb.2)
        exact ⟨.node l (.MemoryReference type offsetInBytes) [Stmt.cloneOr l a], by simp [Stmt.clone, e0, bind, Except.bind, pure, Except.pure], rfl, rfl⟩
    | PointerAccess =>
        rcases cs with _ | ⟨a, rest⟩ <;> simp [Stmt.cloneable] at hb
        have e0 := Stmt.cloneSubExpr_ok l a _ (a :: rest) 0 (by simp) hb.1 (ih1 a (by simp) hb.2)
        exact ⟨.node l (.PointerAccess) [Stmt.cloneOr l a], by simp [Stmt.clone, e0, bind, Except.bind, pure, Except.pure], rfl, rfl⟩
    | DotOperator resolvedType =>
        rcases cs with _ | ⟨a, _ | ⟨b, rest⟩⟩ <;> simp [Stmt.cloneable] at hb
        obtain ⟨⟨⟨ha, hca⟩, hb1⟩, hcb⟩ := hb
        have e0 := Stmt.cloneSubExpr_ok l a _ (a :: b :: rest) 0 (by simp) ha (ih1 a (by simp) hca)
        have e1 := Stmt.cloneSubExpr_ok l b _ (a :: b :: rest) 1 (by simp) hb1 (ih1 b (by simp) hcb)
        exact ⟨.node l (.DotOperator TypeInfo.invalid) [Stmt.cloneOr l a, Stmt.cloneOr l b],
          by simp [Stmt.clone, e0, e1, bind, Except.bind, pure, Except.pure], rfl, rfl⟩
    | Assignment assignmentType isFirstAssignment =>
        rcases cs with _ | ⟨a, _ | ⟨b, rest⟩⟩ <;> simp [Stmt.cloneable] at hb
        obtain ⟨⟨⟨ha, hca⟩, hb1⟩, hcb⟩ := hb
        have e0 := Stmt.cloneSubExpr_ok l a _ (a :: b :: rest) 0 (by simp) ha (ih1 a (by simp) hca)
        have e1 := Stmt.cloneSubExpr_ok l b _ (a :: b :: rest) 1 (by simp) hb1 (ih1 b (by simp) hcb)
        exact ⟨.node l (.Assignment assignmentType isFirstAssignment) [Stmt.cloneOr l a, Stmt.cloneOr l b],
          by simp [Stmt.clone, e0, e1, bind, Except.bind, pure, Except.pure], rfl, rfl⟩
    | Compare op useAsmFlag =>
        rcases cs with _ | ⟨a, _ | ⟨b, rest⟩⟩ <;> simp [Stmt.cloneable] at hb
        obtain ⟨⟨⟨ha, hca⟩, hb1⟩, hcb⟩ := hb
        have e0 := Stmt.cloneSubExpr_ok l a _ (a :: b :: rest) 0 (by simp) ha (ih1 a (by simp) hca)
        have e1 := Stmt.cloneSubExpr_ok l b _ (a :: b :: rest) 1 (by simp) hb1 (ih1 b (by simp) hcb)
        exact ⟨.node l (.Compare op false) [Stmt.cloneOr l a, Stmt.cloneOr l b],
          by simp [Stmt.clone, e0, e1, bind, Except.bind, pure, Except.pure], rfl, rfl⟩
    | BinaryOp op usesTempRegister =>
        rcases cs with _ | ⟨a, _ | ⟨b, rest⟩⟩ <;> simp [Stmt.cloneable] at hb
        obtain ⟨⟨⟨ha, hca⟩, hb1⟩, hcb⟩ := hb
        have e0 := Stmt.cloneSubExpr_ok l a _ (a :: b :: rest) 0 (by simp) ha (ih1 a (by simp) hca)
        have e1 := Stmt.cloneSubExpr_ok l b _ (a :: b :: rest) 1 (by simp) hb1 (ih1 b (by simp) hcb)
        exact ⟨.node l (.BinaryOp op false) [Stmt.cloneOr l a, Stmt.cloneOr l b],
          by simp [Stmt.clone, e0, e1, bind, Except.bind, pure, Except.pure], rfl, rfl⟩
    | WhileLoop =>
        rcases cs with _ | ⟨a, _ | ⟨b, rest⟩⟩ <;> simp [Stmt.cloneable] at hb
        obtain ⟨⟨⟨ha, hca⟩, hb1⟩, hcb⟩ := hb
        have e0 := Stmt.cloneSubExpr_ok l a _ (a :: b :: rest) 0 (by simp) ha (ih1 a (by simp) hca)
        have e1 := Stmt.cloneSubExpr_ok l b _ (a :: b :: rest) 1 (by simp) hb1 (ih1 b (by simp) hcb)
        exact ⟨.node l (.WhileLoop) [Stmt.cloneOr l a, Stmt.cloneOr l b],
          by simp [Stmt.clone, e0, e1, bind, Except.bind, pure, Except.pure], rfl, rfl⟩
    | Loop iterator loadIterator storeIterator loopTargetType =>
        rcases cs with _ | ⟨a, _ | ⟨b, rest⟩⟩ <;> simp [Stmt.cloneable] at hb
        obtain ⟨⟨⟨ha, hca⟩, hb1⟩, hcb⟩ := hb
        have e0 := Stmt.cloneSubExpr_ok l a _ (a :: b :: rest) 0 (by simp) ha (ih1 a (by simp) hca)
        have e1 := Stmt.cloneSubExpr_ok l b _ (a :: b :: rest) 1 (by simp) hb1 (ih1 b (by simp) hcb)
        exact ⟨.node l (.Loop iterator true false .Undefined) [Stmt.cloneOr l a, Stmt.cloneOr l b],
          by simp [Stmt.clone, e0, e1, bind, Except.bind, pure, Except.pure], rfl, rfl⟩
    | Subscript elementType isWriteAccess subscriptType spanType dynType =>
        rcases cs with _ | ⟨a, _ | ⟨b, rest⟩⟩ <;> simp [Stmt.cloneable] at hb
        obtain ⟨⟨⟨ha, hca⟩, hb1⟩, hcb⟩ := hb
        have e0 := Stmt.cloneSubExpr_ok l a _ (a :: b :: rest) 0 (by simp) ha (ih1 a (by simp) hca)
        have e1 := Stmt.cloneSubExpr_ok l b _ (a :: b :: rest) 1 (by simp) hb1 (ih1 b (by simp) hcb)
        exact ⟨.node l (.Subscript elementType isWriteAccess .Undefined none none) [Stmt.cloneOr l a, Stmt.cloneOr l b],
          by simp [Stmt.clone, e0, e1, bind, Except.bind, pure, Except.pure], rfl, rfl⟩
    | TernaryOp type =>
        rcases cs with _ | ⟨a, _ | ⟨b, _ | ⟨c, rest⟩⟩⟩ <;> simp [Stmt.cloneable] at hb
        obtain ⟨⟨⟨⟨⟨ha, hca⟩, hb1⟩, hcb⟩, hc1⟩, hcc⟩ := hb
        have e0 := Stmt.cloneSubExpr_ok l a _ (a :: b :: c :: rest) 0 (by simp) ha (ih1 a (by simp) hca)
        have e1 := Stmt.cloneSubExpr_ok l b _ (a :: b :: c :: rest) 1 (by simp) hb1 (ih1 b (by simp) hcb)
        have e2 := Stmt.cloneSubExpr_ok l c _ (a :: b :: c :: rest) 2 (by simp) hc1 (ih1 c (by simp) hcc)
        exact ⟨.node l (.TernaryOp TypeInfo.invalid) [Stmt.cloneOr l a, Stmt.cloneOr l b, Stmt.cloneOr l c],
          by simp [Stmt.clone, e0, e1, e2, bind, Except.bind, pure, Except.pure], rfl, rfl⟩
    | FunctionCall functionId numTemplateParameters returnType hasObjectExpression =>
        simp only [Stmt.cloneable] at hb
        cases hasObjectExpression with
        | false =>
            obtain ⟨cs1, h1⟩ := Stmt.cloneArguments_ok l cs ih1 hb
            exact ⟨.node l (.FunctionCall functionId numTemplateParameters returnType false) cs1,
              by simp [Stmt.clone, h1, addStatement, bind, Except.bind, pure, Except.pure], rfl, rfl⟩
        | true =>
            rcases cs with _ | ⟨object, arguments⟩
            · exact ⟨.node l (.FunctionCall functionId numTemplateParameters returnType false) [],
                by simp [Stmt.clone, addStatement, bind, Except.bind, pure, Except.pure], rfl, rfl⟩
            · simp [Stmt.cloneableExpressions] at hb
              obtain ⟨⟨ho, hco⟩, hargs⟩ := hb
              obtain ⟨cs1, h1⟩ := Stmt.cloneArguments_ok l arguments
                (fun d hd => ih1 d (List.mem_cons_of_mem _ hd)) hargs
              have h0 := ih1 object (by simp) hco
              exact ⟨.node l (.FunctionCall functionId numTemplateParameters returnType true)
                  (Stmt.cloneOr l object :: cs1),
                by simp [Stmt.clone, ho, h0, h1, addStatement, bind, Except.bind, pure, Except.pure], rfl, rfl⟩
    | ReturnStatement listReturnType =>
        by_cases hv : listReturnType.isID .Void = true
        · exact ⟨.node l (.ReturnStatement listReturnType) [],
            by simp [Stmt.clone, hv, addStatement, bind, Except.bind, pure, Except.pure], rfl, rfl⟩
        · rcases cs with _ | ⟨a, rest⟩ <;> simp [Stmt.cloneable, hv] at hb
          have e0 := Stmt.cloneSubExpr_ok l a _ (a :: rest) 0 (by simp) hb.1 (ih1 a (by simp) hb.2)
          exact ⟨.node l (.ReturnStatement listReturnType) [Stmt.cloneOr l a],
            by simp [Stmt.clone, hv, e0, addStatement, bind, Except.bind, pure, Except.pure], rfl, rfl⟩
    | IfStatement =>
        rcases cs with _ | ⟨c, _ | ⟨t, _ | ⟨f, rest2⟩⟩⟩
        · simp [Stmt.cloneable] at hb
        · simp [Stmt.cloneable] at hb
        · simp [Stmt.cloneable] at hb
          obtain ⟨⟨hc, hcc⟩, hct⟩ := hb
          have h0 := ih1 c (by simp) hcc
          have h1 := ih1 t (by simp) hct
          have h2 := ih2 c (by simp) hcc
          exact ⟨.node l .IfStatement [Stmt.cloneOr l c, Stmt.cloneOr l t],
            by simp [Stmt.clone, h0, h1, h2, hc, addStatement, bind, Except.bind, pure, Except.pure], rfl, rfl⟩
        · simp [Stmt.cloneable] at hb
          obtain ⟨⟨⟨hc, hcc⟩, hct⟩, hrest⟩ := hb
          have h0 := ih1 c (by simp) hcc
          have h1 := ih1 t (by simp) hct
          have h2 := ih2 c (by simp) hcc
          have h3 := ih1 f (by simp) hrest
          exact ⟨.node l .IfStatement [Stmt.cloneOr l c, Stmt.cloneOr l t, Stmt.cloneOr l f],
            by simp [Stmt.clone, h0, h1, h2, h3, hc, addStatement, bind, Except.bind, pure, Except.pure], rfl, rfl⟩
    | TemplateDefinition templateClassId =>
        rcases cs with _ | ⟨s, rest⟩ <;> simp [Stmt.cloneable] at hb
        rcases hb with hcls | hcl
        · have h0 := Stmt.clone_ClassStatement l s hcls
          exact ⟨.node l (.TemplateDefinition templateClassId) [],
            by simp [Stmt.clone, h0, addStatement, bind, Except.bind, pure, Except.pure], rfl, rfl⟩
        · have h0 := ih1 s (by simp) hcl
          exact ⟨.node l (.TemplateDefinition templateClassId) [Stmt.cloneOr l s],
            by simp [Stmt.clone, h0, addStatement, bind, Except.bind, pure, Except.pure], rfl, rfl⟩


/-- Claim C14, the code at a failing input: the clone of the definition
`span<int, 2> d = { x, 2 };` (the root of the tree number 0, cloned into the tree
number 1) has a clone of the expression `x` as its child, but its `initValues` is the
list of the original, whose `ExpressionChild` still points to the child 0 of the tree
number 0: a node of the original is reachable from the clone. -/
theorem ComplexTypeDefinition_clone_shares_initValues :
    Example.spanDefinition
      = .node Example.loc (.ComplexTypeDefinition ["d"]
          (.span (TypeInfo.ofID .Integer) 2 false false)
          (some [.ExpressionChild (0, [0]), .ImmediateChild ⟨.Integer, 2⟩])) [Example.var "x"]
    ∧ Stmt.clone Example.cloneLocation Example.spanDefinition
      = .ok (some (.node Example.cloneLocation (.ComplexTypeDefinition ["d"]
          (.span (TypeInfo.ofID .Integer) 2 false false)
          (some [.ExpressionChild (0, [0]), .ImmediateChild ⟨.Integer, 2⟩]))
          [.node Example.cloneLocation (.VariableReference (Example.intVar "x")) []]))
    ∧ Stmt.reachableNodes 0 Example.spanDefinition = [(0, []), (0, [0]), (0, [0])]
    ∧ Stmt.reachableNodes 1 (Stmt.cloneOr Example.cloneLocation Example.spanDefinition)
      = [(1, []), (1, [0]), (0, [0])]
    ∧ (0, [0]) ∈ Stmt.reachableNodes 0 Example.spanDefinition
    ∧ (0, [0]) ∈ Stmt.reachableNodes 1
        (Stmt.cloneOr Example.cloneLocation Example.spanDefinition) :=
  ⟨rfl, rfl, rfl, rfl, by decide, by decide⟩


/-- Claim C15: for every tree built from `Immediate`, `VariableReference`, `Cast`,
`BinaryOp`, `Compare`, `LogicalNot`, `Negation`, `TernaryOp`, `Increment`, `Subscript`,
`DotOperator`, `ControlFlowStatement`, `IfStatement` and `WhileLoop` nodes (each with the
children its constructor adds), `clone(l)` returns a tree with a node at exactly the
positions of the original; the node at a position has the kind of the original node with
the members its constructor takes (operator, value, symbol, cast target type, the flags
of an increment, the break flag), the same number of children (so an `IfStatement` keeps
its false branch) and the location `l`. -/
theorem clone_returns_tree_of_identical_shape (l : Location) (t : Stmt)
    (h : t.isBasicTree = true) :
    ∃ cloned, Stmt.clone l t = .ok (some cloned) ∧ ∀ path : List Nat,
      (t.get? path = none → cloned.get? path = none)
      ∧ ∀ n, t.get? path = some n →
          ∃ n1, cloned.get? path = some n1
            ∧ n1.kind = n.kind.constructed
            ∧ n1.kind.typeName = n.kind.typeName
            ∧ n1.children.length = n.children.length
            ∧ n1.location = l := by
  refine ⟨Stmt.constructedAt l t, Stmt.clone_isBasicTree l t h, ?_⟩
  intro path
  rw [Stmt.constructedAt_get?]
  refine ⟨fun h0 => by simp [h0], ?_⟩
  intro n hn
  refine ⟨Stmt.constructedAt l n, by simp [hn], ?_⟩
  cases n with
  | node loc k cs =>
      exact ⟨rfl, Kind.constructed_typeName k, Stmt.constructedAtList_length l cs, rfl⟩

theorem clone_returns_tree_of_identical_shape_witness :
    Example.ifElseWhile.isBasicTree = true
    ∧ ∃ cloned, Stmt.clone Example.cloneLocation Example.ifElseWhile = .ok (some cloned)
      ∧ ∀ path : List Nat,
        (Example.ifElseWhile.get? path = none → cloned.get? path = none)
        ∧ ∀ n, Example.ifElseWhile.get? path = some n →
            ∃ n1, cloned.get? path = some n1
              ∧ n1.kind = n.kind.constructed
              ∧ n1.kind.typeName = n.kind.typeName
              ∧ n1.children.length = n.children.length
              ∧ n1.location = Example.cloneLocation :=
  ⟨rfl, clone_returns_tree_of_identical_shape Example.cloneLocation Example.ifElseWhile rfl⟩


/-- Claim C16 as stated fails for a class definition: `ClassStatement::clone` returns the
null pointer, not a `ClassStatement`. -/
theorem ClassStatement_clone_returns_null :
    Stmt.clone Example.cloneLocation Example.classX = .ok none
    ∧ ¬ ∃ cloned, Stmt.clone Example.cloneLocation Example.classX = .ok (some cloned)
        ∧ cloned.kind.typeName = Example.classX.kind.typeName := by
  refine ⟨rfl, ?_⟩
  rintro ⟨cloned, h, -⟩
  have h1 : Stmt.clone Example.cloneLocation Example.classX = .ok none := rfl
  rw [h1] at h
  cases h

/-- Claim C16, amended: for every node kind whose `clone` this header defines (all the
structs but `InlinedParameter`, whose `clone` is only declared here) other than a class
definition, and for every well-formed tree in which `clone` does not reach a class
definition (`Stmt.cloneable`), `clone(l)` returns a node, not the null pointer, of the
same kind as the node it is called on. The clone of a `ClassStatement` is the null
pointer, whatever its children. -/
theorem clone_returns_node_of_same_kind (l : Location) (t : Stmt) (h : t.cloneable = true) :
    (∃ cloned, Stmt.clone l t = .ok (some cloned)
      ∧ cloned.kind.typeName = t.kind.typeName)
    ∧ t.kind.typeName ≠ "ClassStatement"
    ∧ ∀ (loc : Location) (classType : String) (cs : List Stmt),
        Stmt.clone l (.node loc (.ClassStatement classType) cs) = .ok none := by
  obtain ⟨cloned, h1, h2, -⟩ := Stmt.clone_cloneable l t h
  refine ⟨⟨cloned, h1, h2⟩, ?_, fun loc classType cs => rfl⟩
  intro hc
  rw [Stmt.clone_ClassStatement l t hc] at h1
  cases h1

theorem clone_returns_node_of_same_kind_witness :
    Example.blockWithTemplate.cloneable = true
    ∧ (∃ cloned, Stmt.clone Example.cloneLocation Example.blockWithTemplate = .ok (some cloned)
        ∧ cloned.kind.typeName = Example.blockWithTemplate.kind.typeName) :=
  ⟨rfl, (clone_returns_node_of_same_kind Example.cloneLocation Example.blockWithTemplate rfl).1⟩


/-! ## `TemplatedFunction` -/

theorem addIfNotAlreadyThere_nodup (list : List (List Nat)) (p : List Nat)
    (h : list.Nodup) : (addIfNotAlreadyThere list p).Nodup := by
  unfold addIfNotAlreadyThere
  split
  · exact h
  · rename_i hp
    exact List.Nodup.append h (List.nodup_singleton p) (by simpa using hp)

theorem addIfNotAlreadyThere_mem (list : List (List Nat)) (p q : List Nat) :
    q ∈ addIfNotAlreadyThere list p ↔ q ∈ list ∨ q = p := by
  unfold addIfNotAlreadyThere
  split
  · rename_i hp
    constructor
    · intro h; exact Or.inl h
    · rintro (h | h)
      · exact h
      · subst h; exact hp
  · simp

theorem TemplatedFunction.scanCalls_ok
    (getFunction : String → Nat → Except RunError (Option (List Nat))) (id : String) :
    ∀ (w : List (List Nat × Stmt)) (ordered found : List (List Nat)),
      TemplatedFunction.scanCalls getFunction id w ordered = .ok found →
      (ordered.Nodup → found.Nodup) ∧ ∀ q ∈ ordered, q ∈ found := by
  intro w
  induction w with
  | nil =>
      intro ordered found h
      simp [TemplatedFunction.scanCalls] at h
      subst h
      exact ⟨fun hn => hn, fun q hq => hq⟩
  | cons e rest ih =>
      intro ordered found h
      obtain ⟨p, s⟩ := e
      cases s with
      | node loc k cs =>
          cases k
          case FunctionCall functionId numThisF returnType hasObjectExpression =>
            simp only [TemplatedFunction.scanCalls] at h
            by_cases hid : functionId = id
            · simp only [hid, if_true] at h
              cases hg : getFunction id numThisF with
              | error e => simp [hg, bind, Except.bind] at h
              | ok r =>
                  cases r with
                  | none =>
                      simp [hg, bind, Except.bind] at h
                      exact ih ordered found h
                  | some rf =>
                      simp [hg, bind, Except.bind] at h
                      have h1 := ih _ found h
                      exact ⟨fun hn => h1.1 (addIfNotAlreadyThere_nodup ordered rf hn),
                        fun q hq => h1.2 q ((addIfNotAlreadyThere_mem ordered rf q).2 (Or.inl hq))⟩
            · simp only [hid, if_false] at h
              exact ih ordered found h
          all_goals
            simp only [TemplatedFunction.scanCalls] at h
            exact ih ordered found h

theorem Stmt.childrenFrom_mem (path : List Nat) :
    ∀ (cs : List Stmt) (index i : Nat), i < cs.length →
      ∃ c, (path ++ [index + i], c) ∈ Stmt.childrenFrom path index cs := by
  intro cs
  induction cs with
  | nil => intro index i h; simp at h
  | cons c cs ih =>
      intro index i h
      cases i with
      | zero => exact ⟨c, by simp [Stmt.childrenFrom]⟩
      | succ i =>
          obtain ⟨d, hd⟩ := ih (index + 1) i (by simpa using h)
          refine ⟨d, ?_⟩
          simp only [Stmt.childrenFrom, List.mem_cons]
          right
          have e : index + (i + 1) = index + 1 + i := by omega
          rw [e]
          exact hd

theorem TemplatedFunction.collectLoop_ok
    (getFunction : String → Nat → Except RunError (Option (List Nat))) (id : String) :
    ∀ (children : List (List Nat × Stmt)) (ordered list : List (List Nat)),
      TemplatedFunction.collectLoop getFunction id children ordered = .ok list →
      (ordered.Nodup → list.Nodup) ∧ (∀ q ∈ ordered, q ∈ list)
        ∧ ∀ e ∈ children, e.1 ∈ list := by
  intro children
  induction children with
  | nil =>
      intro ordered list h
      simp [TemplatedFunction.collectLoop] at h
      subst h
      exact ⟨fun hn => hn, fun q hq => hq, by simp⟩
  | cons e rest ih =>
      intro ordered list h
      obtain ⟨p, f⟩ := e
      simp only [TemplatedFunction.collectLoop] at h
      cases hd : TemplatedFunction.functionData f with
      | error e => simp [hd, bind, Except.bind] at h
      | ok d =>
          cases hc : f.children with
          | nil => simp [hd, hc, bind, Except.bind] at h
          | cons statements others =>
              cases hs : TemplatedFunction.scanCalls getFunction id
                  (SyntaxTreeWalker.scan statements (p ++ [0])) ordered with
              | error e => simp [hd, hc, hs, bind, Except.bind] at h
              | ok found =>
                  simp [hd, hc, hs, bind, Except.bind] at h
                  have h1 := TemplatedFunction.scanCalls_ok getFunction id _ _ _ hs
                  have h2 := ih _ list h
                  refine ⟨fun hn => h2.1 (addIfNotAlreadyThere_nodup found p (h1.1 hn)),
                    fun q hq => h2.2.1 q ((addIfNotAlreadyThere_mem found p q).2
                      (Or.inl (h1.2 q hq))), ?_⟩
                  intro e he
                  rcases List.mem_cons.mp he with rfl | he
                  · exact h2.2.1 _ ((addIfNotAlreadyThere_mem found p p).2 (Or.inr rfl))
                  · exact h2.2.2 e he

theorem Stmt.childrenFrom_snd_mem (path : List Nat) :
    ∀ (cs : List Stmt) (index : Nat), ∀ e ∈ Stmt.childrenFrom path index cs, e.2 ∈ cs := by
  intro cs
  induction cs with
  | nil => intro index e he; simp [Stmt.childrenFrom] at he
  | cons c cs ih =>
      intro index e he
      simp only [Stmt.childrenFrom, List.mem_cons] at he
      rcases he with rfl | he
      · simp
      · exact List.mem_cons_of_mem _ (ih (index + 1) e he)

theorem TemplatedFunction.findInstance_total (id : String) (n : Nat) :
    ∀ children : List (List Nat × Stmt),
      (∀ e ∈ children, ∃ d, TemplatedFunction.functionData e.2 = .ok d) →
      ∃ r, TemplatedFunction.findInstance id n children = .ok r := by
  intro children
  induction children with
  | nil => intro _; exact ⟨none, rfl⟩
  | cons e rest ih =>
      intro h
      obtain ⟨p, f⟩ := e
      obtain ⟨d, hd⟩ := h (p, f) (by simp)
      obtain ⟨r, hr⟩ := ih (fun e he => h e (List.mem_cons_of_mem _ he))
      by_cases hm : id = d.1 ∧ d.2 = n
      · exact ⟨some p, by
          simp [TemplatedFunction.findInstance, hd, hm, bind, Except.bind, pure, Except.pure]⟩
      · exact ⟨r, by
          simp [TemplatedFunction.findInstance, hd, hm, hr, bind, Except.bind, pure,
            Except.pure]⟩

theorem TemplatedFunction.walkerLoop_none
    (collect : List Nat → Except RunError (List (List Nat))) (root : Stmt) (this : List Nat)
    (id : String) (n : Nat) :
    ∀ w : List (List Nat × Stmt),
      (∀ e ∈ w, ∀ loc rt v cs, e.2 = .node loc (.TemplatedFunction id rt v) cs → e.1 = this) →
      TemplatedFunction.walkerLoop collect root this id n w = .ok none := by
  intro w
  induction w with
  | nil => intro _; rfl
  | cons e rest ih =>
      intro h
      have hrest := ih (fun e he => h e (List.mem_cons_of_mem _ he))
      obtain ⟨p, s⟩ := e
      cases s with
      | node loc k cs =>
          cases k
          case TemplatedFunction tfId rt v =>
            simp only [TemplatedFunction.walkerLoop]
            by_cases hp : p = this
            · simp [hp, hrest]
            · have hne : tfId ≠ id := by
                intro he
                subst he
                exact hp (h (p, _) (by simp) loc rt v cs rfl)
              simp [hp, hne, hrest]
          all_goals
            simp only [TemplatedFunction.walkerLoop]
            exact hrest

theorem TemplatedFunction.scanCalls_total
    (getFunction : String → Nat → Except RunError (Option (List Nat))) (id : String)
    (hget : ∀ n, ∃ r, getFunction id n = .ok r) :
    ∀ (w : List (List Nat × Stmt)) (ordered : List (List Nat)),
      ∃ found, TemplatedFunction.scanCalls getFunction id w ordered = .ok found := by
  intro w
  induction w with
  | nil => intro ordered; exact ⟨ordered, rfl⟩
  | cons e rest ih =>
      intro ordered
      obtain ⟨p, s⟩ := e
      cases s with
      | node loc k cs =>
          cases k
          case FunctionCall functionId numThisF returnType hasObjectExpression =>
            simp only [TemplatedFunction.scanCalls]
            by_cases hid : functionId = id
            · obtain ⟨r, hr⟩ := hget numThisF
              cases r with
              | none =>
                  obtain ⟨found, hf⟩ := ih ordered
                  exact ⟨found, by simp [hid, hr, hf, bind, Except.bind]⟩
              | some rf =>
                  obtain ⟨found, hf⟩ := ih (addIfNotAlreadyThere ordered rf)
                  exact ⟨found, by simp [hid, hr, hf, bind, Except.bind]⟩
            · obtain ⟨found, hf⟩ := ih ordered
              exact ⟨found, by simp [hid, hf]⟩
          all_goals
            simp only [TemplatedFunction.scanCalls]
            exact ih ordered

theorem TemplatedFunction.collectLoop_total
    (getFunction : String → Nat → Except RunError (Option (List Nat))) (id : String)
    (hget : ∀ n, ∃ r, getFunction id n = .ok r) :
    ∀ (children : List (List Nat × Stmt)) (ordered : List (List Nat)),
      (∀ e ∈ children, (∃ d, TemplatedFunction.functionData e.2 = .ok d)
        ∧ ∃ statements rest, e.2.children = statements :: rest) →
      ∃ list, TemplatedFunction.collectLoop getFunction id children ordered = .ok list := by
  intro children
  induction children with
  | nil => intro ordered _; exact ⟨ordered, rfl⟩
  | cons e rest ih =>
      intro ordered h
      obtain ⟨p, f⟩ := e
      obtain ⟨⟨d, hd⟩, statements, others, hc⟩ := h (p, f) (by simp)
      obtain ⟨found, hf⟩ := TemplatedFunction.scanCalls_total getFunction id hget
        (SyntaxTreeWalker.scan statements (p ++ [0])) ordered
      obtain ⟨list, hl⟩ := ih (addIfNotAlreadyThere found p)
        (fun e he => h e (List.mem_cons_of_mem _ he))
      exact ⟨list, by
        simp only [TemplatedFunction.collectLoop] at hl ⊢
        simp [hd, hc, hf, hl, bind, Except.bind]⟩


theorem TemplatedFunction.Sorter.compareElements_le (root : Stmt) (a b : List Nat) :
    TemplatedFunction.Sorter.compareElements root a b ≤ 0
      ↔ TemplatedFunction.numTemplateParameters root a
          ≤ TemplatedFunction.numTemplateParameters root b := by
  unfold TemplatedFunction.Sorter.compareElements
  simp only
  split
  · rename_i h
    constructor
    · intro h1; omega
    · intro h1; omega
  · split
    · rename_i h1 h2
      constructor
      · intro _; omega
      · intro _; omega
    · rename_i h1 h2
      constructor
      · intro _; omega
      · intro _; omega

/-- Claim C11: in the FunctionCompilation pass of a variadic `TemplatedFunction`, the
statements it processes are the collected function instances in the order of `sort` with
`Sorter::compareElements`: their numbers of template arguments do not decrease along the
list, every child `Function` of the `TemplatedFunction` is in the list, and no instance
is in it twice. The pass does process them: when the children are `Function` statements
with their statements and no other `TemplatedFunction` of the tree has the id, the
collection returns (with any fuel but none). The `sort` of the list class is any function
that permutes the list into an order the comparator accepts. -/
theorem TemplatedFunction_variadic_instances_processed_in_order
    (sort : (List Nat → List Nat → Int) → List (List Nat) → List (List Nat))
    (root : Stmt) (this : List Nat) (loc : Location) (id : String) (returnType : TypeInfo)
    (cs : List Stmt)
    (hthis : root.get? this = some (.node loc (.TemplatedFunction id returnType true) cs))
    (hperm : ∀ list, (sort (TemplatedFunction.Sorter.compareElements root) list).Perm list)
    (hsorted : ∀ list, (sort (TemplatedFunction.Sorter.compareElements root) list).Pairwise
      (fun a b => TemplatedFunction.Sorter.compareElements root a b ≤ 0)) :
    ((∀ c ∈ cs, ∃ lf fid rt n statements rest,
          c = .node lf (.Function fid rt n) (statements :: rest)) →
      (∀ e ∈ SyntaxTreeWalker.scan root [], ∀ l rt v ds,
          e.2 = .node l (.TemplatedFunction id rt v) ds → e.1 = this) →
      ∀ fuel, ∃ order,
        TemplatedFunction.functionCompilation sort root (fuel + 1) this = .ok order)
    ∧ ∀ fuel order, TemplatedFunction.functionCompilation sort root fuel this = .ok order →
        order.Pairwise (fun a b => TemplatedFunction.numTemplateParameters root a
          ≤ TemplatedFunction.numTemplateParameters root b)
        ∧ (∀ i, i < cs.length → this ++ [i] ∈ order)
        ∧ order.Nodup := by
  constructor
  · intro hwf hsolo fuel
    have hget : ∀ n, ∃ r, TemplatedFunction.getFunctionWithTemplateAmountWith
        (TemplatedFunction.collectFunctionInstances root fuel) root this id n = .ok r := by
      intro n
      obtain ⟨r, hr⟩ := TemplatedFunction.findInstance_total id n (Stmt.childrenFrom this 0 cs)
        (by
          intro e he
          obtain ⟨lf, fid, rt, m, statements, rest, hc⟩ :=
            hwf e.2 (Stmt.childrenFrom_snd_mem this cs 0 e he)
          exact ⟨(fid, m), by rw [hc]; rfl⟩)
      have hw := TemplatedFunction.walkerLoop_none
        (TemplatedFunction.collectFunctionInstances root fuel) root this id n
        (SyntaxTreeWalker.scan root []) hsolo
      cases r with
      | some f =>
          exact ⟨some f, by
            simp [TemplatedFunction.getFunctionWithTemplateAmountWith, hthis, hr, bind,
              Except.bind, pure, Except.pure]⟩
      | none =>
          exact ⟨none, by
            simp [TemplatedFunction.getFunctionWithTemplateAmountWith, hthis, hr, hw, bind,
              Except.bind]⟩
    obtain ⟨list, hl⟩ := TemplatedFunction.collectLoop_total _ id hget
      (Stmt.childrenFrom this 0 cs) []
      (by
        intro e he
        obtain ⟨lf, fid, rt, m, statements, rest, hc⟩ :=
          hwf e.2 (Stmt.childrenFrom_snd_mem this cs 0 e he)
        exact ⟨⟨(fid, m), by rw [hc]; rfl⟩, statements, rest, by rw [hc]; rfl⟩)
    exact ⟨sort (TemplatedFunction.Sorter.compareElements root) list, by
      simp [TemplatedFunction.functionCompilation, TemplatedFunction.collectFunctionInstances,
        TemplatedFunction.collectFunctionInstancesWith, hthis, hl, bind, Except.bind, pure,
        Except.pure]⟩
  · intro fuel order h
    simp only [TemplatedFunction.functionCompilation, hthis] at h
    cases hc : TemplatedFunction.collectFunctionInstances root fuel this with
    | error e => simp [hc, bind, Except.bind] at h
    | ok list =>
        simp [hc, bind, Except.bind, pure, Except.pure] at h
        subst h
        cases fuel with
        | zero => simp [TemplatedFunction.collectFunctionInstances] at hc
        | succ fuel =>
            simp only [TemplatedFunction.collectFunctionInstances,
              TemplatedFunction.collectFunctionInstancesWith, hthis] at hc
            have h1 := TemplatedFunction.collectLoop_ok _ id _ _ _ hc
            refine ⟨?_, ?_, ?_⟩
            · exact (hsorted list).imp
                (fun hab => (TemplatedFunction.Sorter.compareElements_le root _ _).1 hab)
            · intro i hi
              obtain ⟨c, hm⟩ := Stmt.childrenFrom_mem this cs 0 i hi
              rw [Nat.zero_add] at hm
              exact (hperm list).mem_iff.2 (h1.2.2 _ hm)
            · exact (hperm list).nodup_iff.2 (h1.1 List.nodup_nil)

theorem TemplatedFunction_variadic_instances_processed_in_order_witness :
    TemplatedFunction.functionCompilation Example.sortWith Example.variadicSum 1 [0]
      = .ok [[0, 2], [0, 1], [0, 0]]
    ∧ TemplatedFunction.collectFunctionInstances Example.variadicSum 1 [0]
      = .ok [[0, 1], [0, 0], [0, 2]]
    ∧ ([[0, 2], [0, 1], [0, 0]] : List (List Nat)).Pairwise
        (fun a b => TemplatedFunction.numTemplateParameters Example.variadicSum a
          ≤ TemplatedFunction.numTemplateParameters Example.variadicSum b)
    ∧ (∀ i, i < 3 → [0] ++ [i] ∈ ([[0, 2], [0, 1], [0, 0]] : List (List Nat)))
    ∧ ([[0, 2], [0, 1], [0, 0]] : List (List Nat)).Nodup := by
  have hle : ∀ a b, TemplatedFunction.Sorter.compareElements Example.variadicSum a b ≤ 0
      ↔ TemplatedFunction.numTemplateParameters Example.variadicSum a
          ≤ TemplatedFunction.numTemplateParameters Example.variadicSum b :=
    TemplatedFunction.Sorter.compareElements_le Example.variadicSum
  haveI : IsTotal (List Nat)
      (fun a b => TemplatedFunction.Sorter.compareElements Example.variadicSum a b ≤ 0) :=
    ⟨fun a b => by simp only [hle]; exact Nat.le_total _ _⟩
  haveI : IsTrans (List Nat)
      (fun a b => TemplatedFunction.Sorter.compareElements Example.variadicSum a b ≤ 0) :=
    ⟨fun a b c => by simp only [hle]; exact Nat.le_trans⟩
  exact ⟨rfl, rfl,
    (TemplatedFunction_variadic_instances_processed_in_order Example.sortWith
      Example.variadicSum [0] Example.loc "sum" (TypeInfo.ofID .Integer) _ rfl
      (fun list => List.perm_insertionSort _ list)
      (fun list => List.sorted_insertionSort _ list)).2 1 _ rfl⟩


/-! ## `BinaryOp` -/

theorem VariableReference.reuseAllLastReferences_nil (root : Stmt) (view : RegisterView)
    (parentStatement : List Nat) (p : Stmt) (h : root.get? parentStatement = some p) :
    VariableReference.reuseAllLastReferences root view parentStatement = .ok [] := by
  unfold VariableReference.reuseAllLastReferences VariableReference.reuseAllLastReferencesWith
  simp only [h]
  exact VariableReference.reuseLoop_never_last view _ _
    (VariableReference.isLastVariableReference_false root) _

theorem Stmt.getSubExpr_children (l1 l2 : Location) (k1 k2 : Kind) (cs : List Stmt)
    (index : Nat) :
    (Stmt.node l1 k1 cs).getSubExpr index = (Stmt.node l2 k2 cs).getSubExpr index := rfl

theorem Stmt.getSubExpr_some (self e : Stmt) (index : Nat)
    (h : self.getSubExpr index = some e) : self.get? [index] = some e := by
  cases self with
  | node l k cs =>
      simp only [Stmt.getSubExpr, Stmt.getChildStatement, Stmt.children] at h
      simp only [Stmt.get?]
      cases hc : cs[index]? with
      | none => simp [hc] at h
      | some c =>
          simp only [hc] at h
          split at h
          · simp at h; subst h; rfl
          · simp at h

theorem Stmt.getSubRegister_eq (root : Stmt) (view : RegisterView) (this : List Nat)
    (index : Nat) (self e : Stmt) (h : root.get? this = some self)
    (he : self.getSubExpr index = some e) :
    root.getSubRegister view this index = .ok (view.reg (this ++ [index])) := by
  simp [Stmt.getSubRegister, h, he]

theorem Stmt.getSubRegister_inv (root : Stmt) (view : RegisterView) (this : List Nat)
    (index : Nat) (self : Stmt) (r : Option Reg) (h : root.get? this = some self)
    (hr : root.getSubRegister view this index = .ok r) :
    (∃ e, self.getSubExpr index = some e) ∧ view.reg (this ++ [index]) = r := by
  simp only [Stmt.getSubRegister, h] at hr
  cases he : self.getSubExpr index with
  | none => simp [he] at hr
  | some e =>
      simp only [he, Except.ok.injEq] at hr
      exact ⟨⟨e, rfl⟩, hr⟩

theorem List.append_singleton_ne_self (p : List Nat) (i : Nat) : p ++ [i] ≠ p := by
  intro h
  have := congrArg List.length h
  simp at this


theorem BinaryOp.reuseOperands_eq {R : Type} (pool : RegisterPool R) (this : List Nat)
    (s : CodeGenState R) (self e0 e1 : Stmt) (h : s.root.get? this = some self)
    (h0 : self.getSubExpr 0 = some e0) (h1 : self.getSubExpr 1 = some e1) :
    BinaryOp.reuseOperands pool this s = .ok s := by
  have g0 : s.root.get? (this ++ [0]) = some e0 := by
    rw [Stmt.get?_append, h]; exact Stmt.getSubExpr_some self e0 0 h0
  have g1 : s.root.get? (this ++ [1]) = some e1 := by
    rw [Stmt.get?_append, h]; exact Stmt.getSubExpr_some self e1 1 h1
  simp [BinaryOp.reuseOperands, VariableReference.reuseAllLastReferences_nil _ _ _ _ g0,
    VariableReference.reuseAllLastReferences_nil _ _ _ _ g1, bind, Except.bind, pure,
    Except.pure]

theorem BinaryOp.emitArithmetic_reuse {R : Type} (pool : RegisterPool R)
    (this : List Nat) (s : CodeGenState R) (loc : Location) (op : TokenType)
    (usesTempRegister : Bool) (cs : List Stmt) (l r : Reg)
    (hself : s.root.get? this = some (.node loc (.BinaryOp op usesTempRegister) cs))
    (hl : s.root.getSubRegister s.view this 0 = .ok (some l))
    (hr : s.root.getSubRegister s.view this 1 = .ok (some r))
    (hcan : pool.canBeReused (BinaryOp.flagTempOperand pool
      (.node loc (.BinaryOp op usesTempRegister) cs) s.registers l) l = true) :
    BinaryOp.emitArithmetic pool this s = .ok
      { root := s.root.modifyAt this (BinaryOp.setUsesTempRegister false)
        view := s.view.setReg this l
        registers := pool.removeReuseFlag (BinaryOp.flagTempOperand pool
          (.node loc (.BinaryOp op usesTempRegister) cs) s.registers l) l
        calls := s.calls ++ [AsmCall.emitBinaryOp op l r] } := by
  obtain ⟨⟨e0, he0⟩, hv0⟩ := Stmt.getSubRegister_inv _ _ _ _ _ _ hself hl
  obtain ⟨⟨e1, he1⟩, hv1⟩ := Stmt.getSubRegister_inv _ _ _ _ _ _ hself hr
  have hne1 := List.append_singleton_ne_self this 1
  have hm : (s.root.modifyAt this (BinaryOp.setUsesTempRegister false)).get? this
      = some (.node loc (.BinaryOp op false) cs) :=
    Stmt.get?_modifyAt_self _ this s.root _ hself
  have hx0 : (Stmt.node loc (.BinaryOp op false) cs).getSubExpr 0 = some e0 := he0
  have hx1 : (Stmt.node loc (.BinaryOp op false) cs).getSubExpr 1 = some e1 := he1
  have g1 : (s.root.modifyAt this (BinaryOp.setUsesTempRegister false)).getSubRegister
      (s.view.setReg this l) this 1 = .ok (some r) := by
    rw [Stmt.getSubRegister_eq _ _ _ _ _ _ hm hx1]
    simp [RegisterView.setReg, hne1, hv1]
  have hreuse := BinaryOp.reuseOperands_eq pool this
    { root := s.root.modifyAt this (BinaryOp.setUsesTempRegister false)
      view := s.view.setReg this l
      registers := pool.removeReuseFlag (BinaryOp.flagTempOperand pool
        (.node loc (.BinaryOp op usesTempRegister) cs) s.registers l) l
      calls := s.calls ++ [AsmCall.emitBinaryOp op l r] } _ e0 e1 hm hx0 hx1
  simp only [BinaryOp.emitArithmetic, hself, hl, Reg.deref, bind, Except.bind, hcan,
    if_true, pure, Except.pure, g1]
  simp only [RegisterView.setReg, if_true]
  exact hreuse

theorem BinaryOp.emitArithmetic_own {R : Type} (pool : RegisterPool R)
    (this : List Nat) (s : CodeGenState R) (loc : Location) (op : TokenType)
    (usesTempRegister : Bool) (cs : List Stmt) (l r own : Reg)
    (hself : s.root.get? this = some (.node loc (.BinaryOp op usesTempRegister) cs))
    (hl : s.root.getSubRegister s.view this 0 = .ok (some l))
    (hr : s.root.getSubRegister s.view this 1 = .ok (some r))
    (hcan : pool.canBeReused (BinaryOp.flagTempOperand pool
      (.node loc (.BinaryOp op usesTempRegister) cs) s.registers l) l = false)
    (hown : s.view.reg this = some own) :
    BinaryOp.emitArithmetic pool this s = .ok
      { root := s.root.modifyAt this (BinaryOp.setUsesTempRegister false)
        view := s.view
        registers := BinaryOp.flagTempOperand pool
          (.node loc (.BinaryOp op usesTempRegister) cs) s.registers l
        calls := s.calls ++ [AsmCall.emitStore own l, AsmCall.emitBinaryOp op own r] } := by
  obtain ⟨⟨e0, he0⟩, hv0⟩ := Stmt.getSubRegister_inv _ _ _ _ _ _ hself hl
  obtain ⟨⟨e1, he1⟩, hv1⟩ := Stmt.getSubRegister_inv _ _ _ _ _ _ hself hr
  have hm : (s.root.modifyAt this (BinaryOp.setUsesTempRegister false)).get? this
      = some (.node loc (.BinaryOp op false) cs) :=
    Stmt.get?_modifyAt_self _ this s.root _ hself
  have hx0 : (Stmt.node loc (.BinaryOp op false) cs).getSubExpr 0 = some e0 := he0
  have hx1 : (Stmt.node loc (.BinaryOp op false) cs).getSubExpr 1 = some e1 := he1
  have g0 : (s.root.modifyAt this (BinaryOp.setUsesTempRegister false)).getSubRegister
      s.view this 0 = .ok (some l) := by
    rw [Stmt.getSubRegister_eq _ _ _ _ _ _ hm hx0, hv0]
  have g1 : (s.root.modifyAt this (BinaryOp.setUsesTempRegister false)).getSubRegister
      s.view this 1 = .ok (some r) := by
    rw [Stmt.getSubRegister_eq _ _ _ _ _ _ hm hx1, hv1]
  have hreuse := BinaryOp.reuseOperands_eq pool this
    { root := s.root.modifyAt this (BinaryOp.setUsesTempRegister false)
      view := s.view
      registers := BinaryOp.flagTempOperand pool
        (.node loc (.BinaryOp op usesTempRegister) cs) s.registers l
      calls := s.calls ++ [AsmCall.emitStore own l, AsmCall.emitBinaryOp op own r] }
    _ e0 e1 hm hx0 hx1
  simp only [BinaryOp.emitArithmetic, hself, hl, Reg.deref, bind, Except.bind, hcan,
    pure, Except.pure, hown, g0, g1, Bool.false_eq_true, if_false]
  simpa using hreuse

theorem BinaryOp.emitArithmetic_pool {R : Type} (pool : RegisterPool R)
    (this : List Nat) (s : CodeGenState R) (loc : Location) (op : TokenType)
    (usesTempRegister : Bool) (cs : List Stmt) (l r : Reg)
    (hself : s.root.get? this = some (.node loc (.BinaryOp op usesTempRegister) cs))
    (hl : s.root.getSubRegister s.view this 0 = .ok (some l))
    (hr : s.root.getSubRegister s.view this 1 = .ok (some r))
    (hcan : pool.canBeReused (BinaryOp.flagTempOperand pool
      (.node loc (.BinaryOp op usesTempRegister) cs) s.registers l) l = false)
    (hown : s.view.reg this = none) :
    BinaryOp.emitArithmetic pool this s = .ok
      { root := (s.root.modifyAt this (BinaryOp.setUsesTempRegister false)).modifyAt this
          (BinaryOp.setUsesTempRegister true)
        view := s.view.setReg this (pool.getRegFromPool (BinaryOp.flagTempOperand pool
          (.node loc (.BinaryOp op usesTempRegister) cs) s.registers l)
          (Stmt.node loc (.BinaryOp op usesTempRegister) cs).getTypeInfo).1
        registers := (pool.getRegFromPool (BinaryOp.flagTempOperand pool
          (.node loc (.BinaryOp op usesTempRegister) cs) s.registers l)
          (Stmt.node loc (.BinaryOp op usesTempRegister) cs).getTypeInfo).2
        calls := s.calls ++ [AsmCall.emitComment "temp register for binary op",
          AsmCall.emitStore (pool.getRegFromPool (BinaryOp.flagTempOperand pool
            (.node loc (.BinaryOp op usesTempRegister) cs) s.registers l)
            (Stmt.node loc (.BinaryOp op usesTempRegister) cs).getTypeInfo).1 l,
          AsmCall.emitBinaryOp op (pool.getRegFromPool (BinaryOp.flagTempOperand pool
            (.node loc (.BinaryOp op usesTempRegister) cs) s.registers l)
            (Stmt.node loc (.BinaryOp op usesTempRegister) cs).getTypeInfo).1 r] } := by
  obtain ⟨⟨e0, he0⟩, hv0⟩ := Stmt.getSubRegister_inv _ _ _ _ _ _ hself hl
  obtain ⟨⟨e1, he1⟩, hv1⟩ := Stmt.getSubRegister_inv _ _ _ _ _ _ hself hr
  have hne0 := List.append_singleton_ne_self this 0
  have hne1 := List.append_singleton_ne_self this 1
  have hm : (s.root.modifyAt this (BinaryOp.setUsesTempRegister false)).get? this
      = some (.node loc (.BinaryOp op false) cs) :=
    Stmt.get?_modifyAt_self _ this s.root _ hself
  have hmm : ((s.root.modifyAt this (BinaryOp.setUsesTempRegister false)).modifyAt this
      (BinaryOp.setUsesTempRegister true)).get? this
      = some (.node loc (.BinaryOp op true) cs) :=
    Stmt.get?_modifyAt_self _ this _ _ hm
  have hx0 : (Stmt.node loc (.BinaryOp op true) cs).getSubExpr 0 = some e0 := he0
  have hx1 : (Stmt.node loc (.BinaryOp op true) cs).getSubExpr 1 = some e1 := he1
  have g0 : ∀ x, ((s.root.modifyAt this (BinaryOp.setUsesTempRegister false)).modifyAt this
      (BinaryOp.setUsesTempRegister true)).getSubRegister (s.view.setReg this x) this 0
      = .ok (some l) := by
    intro x
    rw [Stmt.getSubRegister_eq _ _ _ _ _ _ hmm hx0]
    simp [RegisterView.setReg, hne0, hv0]
  have g1 : ∀ x, ((s.root.modifyAt this (BinaryOp.setUsesTempRegister false)).modifyAt this
      (BinaryOp.setUsesTempRegister true)).getSubRegister (s.view.setReg this x) this 1
      = .ok (some r) := by
    intro x
    rw [Stmt.getSubRegister_eq _ _ _ _ _ _ hmm hx1]
    simp [RegisterView.setReg, hne1, hv1]
  have hreuse := BinaryOp.reuseOperands_eq pool this
    { root := (s.root.modifyAt this (BinaryOp.setUsesTempRegister false)).modifyAt this
          (BinaryOp.setUsesTempRegister true)
      view := s.view.setReg this (pool.getRegFromPool (BinaryOp.flagTempOperand pool
          (.node loc (.BinaryOp op usesTempRegister) cs) s.registers l)
          (Stmt.node loc (.BinaryOp op usesTempRegister) cs).getTypeInfo).1
      registers := (pool.getRegFromPool (BinaryOp.flagTempOperand pool
          (.node loc (.BinaryOp op usesTempRegister) cs) s.registers l)
          (Stmt.node loc (.BinaryOp op usesTempRegister) cs).getTypeInfo).2
      calls := s.calls ++ [AsmCall.emitComment "temp register for binary op",
          AsmCall.emitStore (pool.getRegFromPool (BinaryOp.flagTempOperand pool
            (.node loc (.BinaryOp op usesTempRegister) cs) s.registers l)
            (Stmt.node loc (.BinaryOp op usesTempRegister) cs).getTypeInfo).1 l,
          AsmCall.emitBinaryOp op (pool.getRegFromPool (BinaryOp.flagTempOperand pool
            (.node loc (.BinaryOp op usesTempRegister) cs) s.registers l)
            (Stmt.node loc (.BinaryOp op usesTempRegister) cs).getTypeInfo).1 r] }
    _ e0 e1 hmm hx0 hx1
  simp only [BinaryOp.emitArithmetic, hself, hl, Reg.deref, bind, Except.bind, hcan,
    pure, Except.pure, hown, g0, g1, Bool.false_eq_true, if_false]
  simp only [RegisterView.setReg, if_true, g0, g1]
  simpa [RegisterView.setReg] using hreuse

/-- Claim C21: the code generation of a `BinaryOp` that is no logic operation, with the
left operand in the register `l` and the right operand in `r`. The flag of `l` is asked
after a left operand that is a `BinaryOp` with a temporary register has been flagged.
If `l` can be reused, the result register is `l`, `removeReuseFlag()` is the last call
on it, the only call emitted is the operation on `l` (no store) and `usesTempRegister`
is false. Otherwise the result register is the register the node already had, or, when
it had none, a register taken from the pool; the store of `l` into the result register
is emitted before the operation, and `usesTempRegister` is true exactly in the case of
the pool register. -/
theorem BinaryOp_arithmetic_result_register {R : Type} (pool : RegisterPool R)
    (this : List Nat) (s : CodeGenState R) (loc : Location) (op : TokenType)
    (usesTempRegister : Bool) (cs : List Stmt) (l r : Reg)
    (hself : s.root.get? this = some (.node loc (.BinaryOp op usesTempRegister) cs))
    (hl : s.root.getSubRegister s.view this 0 = .ok (some l))
    (hr : s.root.getSubRegister s.view this 1 = .ok (some r)) :
    ∃ s1, BinaryOp.emitArithmetic pool this s = .ok s1
      ∧ (pool.canBeReused (BinaryOp.flagTempOperand pool
            (.node loc (.BinaryOp op usesTempRegister) cs) s.registers l) l = true →
          s1.view.reg this = some l
          ∧ s1.registers = pool.removeReuseFlag (BinaryOp.flagTempOperand pool
              (.node loc (.BinaryOp op usesTempRegister) cs) s.registers l) l
          ∧ s1.calls = s.calls ++ [AsmCall.emitBinaryOp op l r]
          ∧ s1.root.get? this = some (.node loc (.BinaryOp op false) cs))
      ∧ (pool.canBeReused (BinaryOp.flagTempOperand pool
            (.node loc (.BinaryOp op usesTempRegister) cs) s.registers l) l = false →
          (∀ own, s.view.reg this = some own →
            s1.view.reg this = some own
            ∧ s1.registers = BinaryOp.flagTempOperand pool
                (.node loc (.BinaryOp op usesTempRegister) cs) s.registers l
            ∧ s1.calls = s.calls ++ [AsmCall.emitStore own l, AsmCall.emitBinaryOp op own r]
            ∧ s1.root.get? this = some (.node loc (.BinaryOp op false) cs))
          ∧ (s.view.reg this = none →
            ∃ fresh registers,
              pool.getRegFromPool (BinaryOp.flagTempOperand pool
                (.node loc (.BinaryOp op usesTempRegister) cs) s.registers l)
                (Stmt.node loc (.BinaryOp op usesTempRegister) cs).getTypeInfo
                = (fresh, registers)
              ∧ s1.view.reg this = some fresh
              ∧ s1.registers = registers
              ∧ s1.calls = s.calls ++ [AsmCall.emitComment "temp register for binary op",
                  AsmCall.emitStore fresh l, AsmCall.emitBinaryOp op fresh r]
              ∧ s1.root.get? this = some (.node loc (.BinaryOp op true) cs))) := by
  have hm : ∀ b, (s.root.modifyAt this (BinaryOp.setUsesTempRegister b)).get? this
      = some (.node loc (.BinaryOp op b) cs) := fun b =>
    Stmt.get?_modifyAt_self _ this s.root _ hself
  cases hcan : pool.canBeReused (BinaryOp.flagTempOperand pool
      (.node loc (.BinaryOp op usesTempRegister) cs) s.registers l) l with
  | true =>
      refine ⟨_, BinaryOp.emitArithmetic_reuse pool this s loc op usesTempRegister cs l r
        hself hl hr hcan, fun _ => ⟨?_, rfl, rfl, hm false⟩, (fun h => by cases h)⟩
      simp [RegisterView.setReg]
  | false =>
      cases hown : s.view.reg this with
      | some own =>
          refine ⟨_, BinaryOp.emitArithmetic_own pool this s loc op usesTempRegister cs l r
            own hself hl hr hcan hown, (fun h => by cases h), fun _ => ⟨?_, (fun h => by cases h)⟩⟩
          intro own1 h1
          cases h1
          exact ⟨hown, rfl, rfl, hm false⟩
      | none =>
          refine ⟨_, BinaryOp.emitArithmetic_pool pool this s loc op usesTempRegister cs l r
            hself hl hr hcan hown, (fun h => by cases h),
            fun _ => ⟨(fun own h => by cases h), fun _ => ⟨_, _, rfl, ?_, rfl, rfl, ?_⟩⟩⟩
          · simp [RegisterView.setReg]
          · exact Stmt.get?_modifyAt_self _ this _ _ (hm false)

theorem BinaryOp_arithmetic_result_register_witness :
    BinaryOp.emitArithmetic Example.registerPool []
        ⟨Example.xTimesTwo, Example.operandRegisters, ⟨[2], 0⟩, []⟩
      = .ok ⟨Example.xTimesTwo, Example.operandRegisters.setReg [] 2, ⟨[], 0⟩,
          [AsmCall.emitBinaryOp JitTokens.times 2 3]⟩
    ∧ BinaryOp.emitArithmetic Example.registerPool []
        ⟨Example.xTimesTwo, Example.operandRegisters, ⟨[], 0⟩, []⟩
      = .ok ⟨.node Example.loc (.BinaryOp JitTokens.times true)
            [Example.var "x", Example.intLiteral 2],
          Example.operandRegisters.setReg [] 100, ⟨[], 1⟩,
          [AsmCall.emitComment "temp register for binary op", AsmCall.emitStore 100 2,
            AsmCall.emitBinaryOp JitTokens.times 100 3]⟩
    ∧ ∃ s1, BinaryOp.emitArithmetic Example.registerPool []
        ⟨Example.xTimesTwo, Example.operandRegisters, ⟨[2], 0⟩, []⟩ = .ok s1
      ∧ s1.view.reg [] = some 2 ∧ s1.calls = [AsmCall.emitBinaryOp JitTokens.times 2 3] := by
  obtain ⟨s1, h1, h2, -⟩ := BinaryOp_arithmetic_result_register Example.registerPool []
    ⟨Example.xTimesTwo, Example.operandRegisters, ⟨[2], 0⟩, []⟩ Example.loc JitTokens.times
    false [Example.var "x", Example.intLiteral 2] 2 3 rfl rfl rfl
  have h3 := h2 rfl
  exact ⟨rfl, rfl, s1, h1, h3.1, h3.2.2.1⟩


/-! ## The base processing of `process` -/

theorem findParentStatementOfType_nil (isType : Kind → Bool) (root : Stmt) :
    findParentStatementOfType isType root []
      = if Stmt.isTypeAt isType root [] then some [] else none := by
  simp [findParentStatementOfType, List.find?]
  cases Stmt.isTypeAt isType root [] <;> rfl

theorem findParentStatementOfType_concat (isType : Kind → Bool) (root : Stmt) (q : List Nat)
    (i : Nat) :
    findParentStatementOfType isType root (q ++ [i])
      = if Stmt.isTypeAt isType root (q ++ [i]) then some (q ++ [i])
        else findParentStatementOfType isType root q := by
  simp only [findParentStatementOfType, List.inits_append]
  simp [List.inits, List.find?]
  cases Stmt.isTypeAt isType root (q ++ [i]) <;> simp

theorem findParentStatementOfType_eq_none (isType : Kind → Bool) (root : Stmt) (p : List Nat)
    (h : ∀ q, q <+: p → Stmt.isTypeAt isType root q = false) :
    findParentStatementOfType isType root p = none := by
  simp only [findParentStatementOfType, List.find?_eq_none, List.mem_reverse, List.mem_inits]
  intro q hq
  simp [h q hq]

theorem StatementBlock.findArgument_eq (s : Symbol) (sb : List Nat) :
    ∀ (cs : List Stmt) (index : Nat),
      StatementBlock.findArgument s sb index cs
        = (cs.findIdx? (StatementBlock.isArgumentWith s) index).map (fun i => sb ++ [i]) := by
  intro cs
  induction cs with
  | nil => intro index; rfl
  | cons c rest ih =>
      intro index
      cases c with
      | node l k ds =>
          cases k
          case InlinedArgument argIndex s1 =>
            simp only [StatementBlock.findArgument, List.findIdx?_cons, ih,
              StatementBlock.isArgumentWith, Stmt.kind]
            by_cases h : s1.same s = true <;> simp [h]
          all_goals
            simp only [StatementBlock.findArgument, List.findIdx?_cons, ih,
              StatementBlock.isArgumentWith, Stmt.kind]
            simp

theorem Stmt.get?_isSome_of_concat (root : Stmt) (q : List Nat) (i : Nat)
    (h : (root.get? (q ++ [i])).isSome = true) : (root.get? q).isSome = true := by
  rw [Stmt.get?_append] at h
  cases hq : root.get? q with
  | none => simp [hq] at h
  | some s => rfl

theorem StatementBlock.findInlinedParameterLoop_eq (root : Stmt) (s : Symbol) :
    ∀ (fuel : Nat) (p : List Nat), p.length < fuel → (root.get? p).isSome = true →
      (∀ q, q <+: p → Stmt.isTypeAt Kind.isInlinedArgument root q = false) →
      StatementBlock.findInlinedParameterLoop root s fuel (some p)
        = .ok (StatementBlock.inlinedParameterOfNearestBlock root p s) := by
  intro fuel
  induction fuel with
  | zero => intro p h; omega
  | succ fuel ih =>
      intro p hlen hp hnot
      have hnone := findParentStatementOfType_eq_none Kind.isInlinedArgument root p hnot
      cases hg : root.get? p with
      | none => simp [hg] at hp
      | some self =>
          cases self with
          | node l k cs =>
              by_cases hk : Kind.isInlinedFunction k = true
              · -- the block is an inlined function
                have hfind : findParentStatementOfType Kind.isInlinedFunction root p = some p := by
                  rcases List.eq_nil_or_concat p with rfl | ⟨q, i, rfl⟩
                  · rw [findParentStatementOfType_nil]
                    simp [Stmt.isTypeAt, hg, Stmt.kind, hk]
                  · rw [List.concat_eq_append] at hg ⊢
                    rw [findParentStatementOfType_concat]
                    simp [Stmt.isTypeAt, hg, Stmt.kind, hk]
                cases k <;> simp [Kind.isInlinedFunction] at hk
                subst hk
                simp [StatementBlock.findInlinedParameterLoop, hnone, hg, bind, Except.bind,
                  pure, Except.pure, StatementBlock.inlinedParameterOfNearestBlock, hfind,
                  StatementBlock.findArgument_eq]
              · -- go on with the parent
                have hstep : StatementBlock.findInlinedParameterLoop root s (fuel + 1) (some p)
                    = StatementBlock.findInlinedParameterLoop root s fuel (Stmt.parentOf p) := by
                  cases k <;>
                    first
                    | simp [StatementBlock.findInlinedParameterLoop, hnone, hg, bind,
                        Except.bind, pure, Except.pure]; done
                    | (rename_i isInlinedFunction returnType
                       cases isInlinedFunction
                       · simp [StatementBlock.findInlinedParameterLoop, hnone, hg, bind,
                           Except.bind, pure, Except.pure]
                       · simp [Kind.isInlinedFunction] at hk)
                rw [hstep]
                rcases List.eq_nil_or_concat p with rfl | ⟨q, i, rfl⟩
                · simp [Stmt.parentOf, StatementBlock.findInlinedParameterLoop,
                    StatementBlock.inlinedParameterOfNearestBlock,
                    findParentStatementOfType_nil, Stmt.isTypeAt, hg, Stmt.kind, hk]
                · rw [List.concat_eq_append] at hg hp hlen hnot ⊢
                  have hq : Stmt.parentOf (q ++ [i]) = some q := by simp [Stmt.parentOf]
                  rw [hq, ih q (by simp at hlen; omega) (Stmt.get?_isSome_of_concat root q i hp)
                    (fun r hr => hnot r (hr.trans (List.prefix_append q [i])))]
                  simp [StatementBlock.inlinedParameterOfNearestBlock,
                    findParentStatementOfType_concat, Stmt.isTypeAt, hg, Stmt.kind, hk]


theorem findParentStatementOfType_some (isType : Kind → Bool) (root : Stmt) :
    ∀ (p b : List Nat), findParentStatementOfType isType root p = some b →
      b <+: p ∧ Stmt.isTypeAt isType root b = true
        ∧ ∀ q, q <+: p → b <+: q → q ≠ b → Stmt.isTypeAt isType root q = false := by
  intro p
  induction p using List.reverseRecOn with
  | nil =>
      intro b h
      rw [findParentStatementOfType_nil] at h
      by_cases ht : Stmt.isTypeAt isType root [] = true
      · simp [ht] at h
        subst h
        refine ⟨List.prefix_refl _, ht, ?_⟩
        intro q hq _ hne
        exact absurd (List.prefix_nil.mp hq) hne
      · simp [ht] at h
  | append_singleton q i ih =>
      intro b h
      rw [findParentStatementOfType_concat] at h
      by_cases ht : Stmt.isTypeAt isType root (q ++ [i]) = true
      · simp [ht] at h
        subst h
        refine ⟨List.prefix_refl _, ht, ?_⟩
        intro r hr hb hne
        exact absurd (hr.eq_of_length (le_antisymm hr.length_le hb.length_le)) hne
      · simp [ht] at h
        obtain ⟨h1, h2, h3⟩ := ih b h
        refine ⟨h1.trans (List.prefix_append q [i]), h2, ?_⟩
        intro r hr hb hne
        rcases List.prefix_concat_iff.mp hr with rfl | hr1
        · simpa using ht
        · exact h3 r hr1 hb hne

/-- Claim C23: for a statement `p` of the tree that is not nested inside an
`InlinedArgument` (no statement from `p` up to the root is one) and every symbol `s`,
`findInlinedParameterInParentBlocks(p, s)` returns, and what it returns is the first
`InlinedArgument` child with the symbol `s` of the nearest inlined function block that is
`p` or an ancestor of `p`: a result is a child of an inlined function block at or above
`p` with no other inlined function block between it and `p`, and its symbol equals `s`;
the result is null when no inlined function block encloses `p`. -/
theorem findInlinedParameterInParentBlocks_nearest_inlined_block (root : Stmt) (p : List Nat)
    (s : Symbol) (hp : (root.get? p).isSome = true)
    (hnot : ∀ q, q <+: p → Stmt.isTypeAt Kind.isInlinedArgument root q = false) :
    StatementBlock.findInlinedParameterInParentBlocks root (some p) s
      = .ok (StatementBlock.inlinedParameterOfNearestBlock root p s)
    ∧ (∀ ia, StatementBlock.findInlinedParameterInParentBlocks root (some p) s = .ok (some ia) →
        ∃ block index l argIndex s1 cs,
          ia = block ++ [index] ∧ block <+: p
          ∧ Stmt.isTypeAt Kind.isInlinedFunction root block = true
          ∧ (∀ q, q <+: p → block <+: q → q ≠ block →
              Stmt.isTypeAt Kind.isInlinedFunction root q = false)
          ∧ root.get? ia = some (.node l (.InlinedArgument argIndex s1) cs)
          ∧ s1.same s = true
          ∧ ∀ j, j < index → ∀ c, root.get? (block ++ [j]) = some c →
              StatementBlock.isArgumentWith s c = false)
    ∧ ((∀ q, q <+: p → Stmt.isTypeAt Kind.isInlinedFunction root q = false) →
        StatementBlock.findInlinedParameterInParentBlocks root (some p) s = .ok none) := by
  have heq : StatementBlock.findInlinedParameterInParentBlocks root (some p) s
      = .ok (StatementBlock.inlinedParameterOfNearestBlock root p s) :=
    StatementBlock.findInlinedParameterLoop_eq root s (p.length + 1) p (by omega) hp hnot
  refine ⟨heq, ?_, ?_⟩
  · intro ia hia
    rw [heq] at hia
    simp only [Except.ok.injEq] at hia
    unfold StatementBlock.inlinedParameterOfNearestBlock at hia
    cases hf : findParentStatementOfType Kind.isInlinedFunction root p with
    | none => simp [hf] at hia
    | some block =>
        obtain ⟨h1, h2, h3⟩ := findParentStatementOfType_some _ root p block hf
        cases hb : root.get? block with
        | none => simp [hf, hb] at hia
        | some self =>
            cases self with
            | node l k cs =>
                simp only [hf, hb, Option.map_eq_some'] at hia
                obtain ⟨index, hidx, rfl⟩ := hia
                obtain ⟨hlt, hpred, hmin⟩ := List.findIdx?_eq_some_iff_getElem.mp hidx
                have hget : root.get? (block ++ [index]) = some cs[index] := by
                  rw [Stmt.get?_append, hb]
                  simp [Stmt.get?, List.getElem?_eq_getElem hlt]
                cases hc : cs[index] with
                | node l1 k1 ds =>
                    rw [hc] at hpred hget
                    cases k1 <;> simp [StatementBlock.isArgumentWith, Stmt.kind] at hpred
                    rename_i argIndex s1
                    refine ⟨block, index, l1, argIndex, s1, ds, rfl, h1, h2, h3, hget, hpred, ?_⟩
                    intro j hj c hcj
                    rw [Stmt.get?_append, hb] at hcj
                    have hjl : j < cs.length := by omega
                    simp [Stmt.get?, List.getElem?_eq_getElem hjl] at hcj
                    have := hmin j hj
                    rw [hcj] at this
                    simpa using this
  · intro hnone
    rw [heq]
    simp [StatementBlock.inlinedParameterOfNearestBlock,
      findParentStatementOfType_eq_none Kind.isInlinedFunction root p hnone]


theorem findInlinedParameterInParentBlocks_nearest_inlined_block_witness :
    StatementBlock.findInlinedParameterInParentBlocks Example.nestedInlinedBlocks
        (some [2, 2, 0]) (Example.intVar "b") = .ok (some [2, 1])
    ∧ StatementBlock.findInlinedParameterInParentBlocks Example.nestedInlinedBlocks
        (some [2, 2, 0]) (Example.intVar "c") = .ok none
    ∧ StatementBlock.findInlinedParameterInParentBlocks Example.nestedInlinedBlocks
        (some [2, 2, 0]) (Example.intVar "b")
      = .ok (StatementBlock.inlinedParameterOfNearestBlock Example.nestedInlinedBlocks
          [2, 2, 0] (Example.intVar "b")) := by
  refine ⟨rfl, rfl, (findInlinedParameterInParentBlocks_nearest_inlined_block
    Example.nestedInlinedBlocks [2, 2, 0] (Example.intVar "b") rfl ?_).1⟩
  intro q hq
  have hmem : q ∈ ([2, 2, 0] : List Nat).inits := (List.mem_inits _ _).2 hq
  simp only [List.inits, List.map, List.mem_cons, List.mem_singleton] at hmem
  rcases hmem with rfl | rfl | rfl | rfl | h
  · rfl
  · rfl
  · rfl
  · rfl
  · simp at h


/-- Claim C24: `VariableReference::tryToResolveType` on a variable reference. When the
symbol is resolved it returns true and leaves the node as it is; when the symbol is not
resolved and the lookup yields a dynamic type it returns false and leaves the node as it
is; and a second call with the same lookup returns the same flag and leaves the same
node as the first call. -/
theorem VariableReference_tryToResolveType_idempotent (getVariableType : String → TypeInfo)
    (l : Location) (id : Symbol) (cs : List Stmt) :
    (id.resolved = true →
      VariableReference.tryToResolveType getVariableType (.node l (.VariableReference id) cs)
        = (true, .node l (.VariableReference id) cs))
    ∧ (id.resolved = false → (getVariableType id.id).isDynamic = true →
      VariableReference.tryToResolveType getVariableType (.node l (.VariableReference id) cs)
        = (false, .node l (.VariableReference id) cs))
    ∧ VariableReference.tryToResolveType getVariableType
        (VariableReference.tryToResolveType getVariableType
          (.node l (.VariableReference id) cs)).2
      = VariableReference.tryToResolveType getVariableType
          (.node l (.VariableReference id) cs) := by
  refine ⟨?_, ?_, ?_⟩
  · intro h
    simp [VariableReference.tryToResolveType, h]
  · intro h hd
    simp [VariableReference.tryToResolveType, h, hd]
  · cases hr : id.resolved with
    | true => simp [VariableReference.tryToResolveType, hr]
    | false =>
        cases hd : (getVariableType id.id).isDynamic with
        | true => simp [VariableReference.tryToResolveType, hr, hd]
        | false => simp [VariableReference.tryToResolveType, hr, hd, Symbol.ofType]

theorem VariableReference_tryToResolveType_idempotent_witness :
    VariableReference.tryToResolveType Example.xIsInt Example.unresolvedX
      = (true, Example.var "x")
    ∧ VariableReference.tryToResolveType Example.xIsInt (Example.var "x")
      = (true, Example.var "x")
    ∧ VariableReference.tryToResolveType (fun _ => TypeInfo.invalid) Example.unresolvedX
      = (false, Example.unresolvedX) :=
  ⟨rfl,
   (VariableReference_tryToResolveType_idempotent Example.xIsInt Example.loc
     (Example.intVar "x") []).1 rfl,
   (VariableReference_tryToResolveType_idempotent (fun _ => TypeInfo.invalid) Example.loc
     ⟨"x", TypeInfo.invalid, VariableStorage.void, false⟩ []).2.1 rfl rfl⟩


/-- Claim C26: `BinaryOp::process` on a node with a logic operator, the base processing
of the pass done and the left operand `left` in place. The node is replaced by the left
operand (`replaceInParent(getSubExpr(0))`, then the method returns) exactly when `left`
is a constant expression and either the operator is `||` and the constant converts to
the integer 1, or the operator is `&&` and it converts to 0; in both cases that integer
is the value of the logic operation for every right operand. With a left operand that is
no constant or has another value the node is not replaced. -/
theorem BinaryOp_logic_replaced_by_deciding_constant {R : Type} (b : BinaryOpCompiler R)
    (pass : Pass) (this : List Nat) (s s1 : CodeGenState R) (loc : Location) (op : TokenType)
    (usesTempRegister : Bool) (cs : List Stmt) (self1 left : Stmt)
    (hnode : s.root.get? this = some (.node loc (.BinaryOp op usesTempRegister) cs))
    (hlogic : BinaryOp.isLogicOp op = true)
    (hbase : (if pass = .CodeGeneration then b.processBaseWithoutChildren pass this s
      else b.processBaseWithChildren pass this s) = .ok s1)
    (hself : s1.root.get? this = some self1) (hleft : self1.getSubExpr 0 = some left) :
    ((left.isConstExpr = true
        ∧ ((op = JitTokens.logicalOr ∧ left.getConstExprValue.toInt = 1)
          ∨ (op = JitTokens.logicalAnd ∧ left.getConstExprValue.toInt = 0))) →
      BinaryOp.process b pass this s
        = .ok (.replacedInParent { s1 with root := s1.root.replaceInParent this left })
      ∧ ∀ right : Int, JitTokens.logicValue op left.getConstExprValue.toInt right
          = left.getConstExprValue.toInt)
    ∧ (¬ (left.isConstExpr = true
        ∧ ((op = JitTokens.logicalOr ∧ left.getConstExprValue.toInt = 1)
          ∨ (op = JitTokens.logicalAnd ∧ left.getConstExprValue.toInt = 0))) →
      ∀ s2, BinaryOp.process b pass this s ≠ .ok (.replacedInParent s2)) := by
  have hproc : BinaryOp.process b pass this s
      = (match (if left.isConstExpr = true then
            (if (op == JitTokens.logicalOr && left.getConstExprValue.toInt == 1
                || op == JitTokens.logicalAnd && left.getConstExprValue.toInt == 0) = true
              then some left else none) else none) with
        | some left =>
            .ok (.replacedInParent { s1 with root := s1.root.replaceInParent this left })
        | none =>
            (if pass = .TypeCheck then
                if op == JitTokens.logicalAnd || op == JitTokens.logicalOr then
                  b.checkAndSetType this 0 (TypeInfo.ofID .Integer) s1
                else b.checkAndSetType this 0 TypeInfo.invalid s1
              else Except.ok s1) >>= fun s2 =>
            (if pass = .CodeGeneration then
                if BinaryOp.isLogicOp op then b.emitLogicOp this s2
                else BinaryOp.emitArithmetic b.pool this s2
              else Except.ok s2) >>= fun s3 =>
            Except.ok (BinaryOp.Outcome.processed s3)) := by
    by_cases hp : pass = .CodeGeneration
    · simp only [hp, if_true] at hbase
      subst hp
      by_cases hconst : left.isConstExpr = true <;>
      by_cases hcond : (op == JitTokens.logicalOr && left.getConstExprValue.toInt == 1
          || op == JitTokens.logicalAnd && left.getConstExprValue.toInt == 0) = true <;>
      simp only [BinaryOp.process, hnode, hlogic, beq_self_eq_true, Bool.and_self,
        Bool.not_true, Bool.false_eq_true, if_false, hbase, bind, Except.bind, pure,
        Except.pure, hself, hleft, if_true, hconst, hcond, reduceCtorEq]
    · simp only [hp, if_false] at hbase
      have hne : (pass == Pass.CodeGeneration) = false := by simpa using hp
      by_cases ht : pass = .TypeCheck
      · subst ht
        by_cases hconst : left.isConstExpr = true <;>
        by_cases hcond : (op == JitTokens.logicalOr && left.getConstExprValue.toInt == 1
            || op == JitTokens.logicalAnd && left.getConstExprValue.toInt == 0) = true <;>
        simp only [BinaryOp.process, hnode, hlogic, hne, Bool.and_false, Bool.not_false,
          if_true, hbase, bind, Except.bind, pure, Except.pure, hself, hleft, hconst, hcond,
          if_false, reduceCtorEq] <;>
        try (split <;> rfl)
      · by_cases hconst : left.isConstExpr = true <;>
        by_cases hcond : (op == JitTokens.logicalOr && left.getConstExprValue.toInt == 1
            || op == JitTokens.logicalAnd && left.getConstExprValue.toInt == 0) = true <;>
        simp only [BinaryOp.process, hnode, hlogic, hne, Bool.and_false, Bool.not_false,
          if_true, hbase, bind, Except.bind, pure, Except.pure, hself, hleft, hconst, hcond,
          hp, ht, if_false, reduceCtorEq]
  constructor
  · rintro ⟨hconst, hval⟩
    constructor
    · have hcond : (op == JitTokens.logicalOr && left.getConstExprValue.toInt == 1
          || op == JitTokens.logicalAnd && left.getConstExprValue.toInt == 0) = true := by
        rcases hval with ⟨hop, hv⟩ | ⟨hop, hv⟩ <;> simp [hop, hv]
      rw [hproc]
      simp only [hconst, hcond, if_true]
    · intro right
      rcases hval with ⟨hop, hv⟩ | ⟨hop, hv⟩
      · simp [JitTokens.logicValue, hop, hv]
      · subst hop
        simp [JitTokens.logicValue, hv, JitTokens.logicalAnd, JitTokens.logicalOr]
  · intro hcond s2 h
    have hnot : (if left.isConstExpr = true then
        (if (op == JitTokens.logicalOr && left.getConstExprValue.toInt == 1
            || op == JitTokens.logicalAnd && left.getConstExprValue.toInt == 0) = true
          then some left else none) else none) = (none : Option Stmt) := by
      by_cases hconst : left.isConstExpr = true
      · have : ¬ ((op = JitTokens.logicalOr ∧ left.getConstExprValue.toInt = 1)
            ∨ (op = JitTokens.logicalAnd ∧ left.getConstExprValue.toInt = 0)) :=
          fun hv => hcond ⟨hconst, hv⟩
        simp only [hconst, if_true]
        rw [if_neg]
        simpa using this
      · simp [hconst]
    rw [hproc, hnot] at h
    simp only [Except_bind_eq_ok_iff] at h
    obtain ⟨_, _, _, _, h3⟩ := h
    cases h3

theorem BinaryOp_logic_replaced_by_deciding_constant_witness :
    BinaryOp.process Example.binaryOpCompiler .TypeCheck []
        (Example.codeGenState (Example.logicOp JitTokens.logicalOr 1))
      = .ok (.replacedInParent (Example.codeGenState (Example.intLiteral 1)))
    ∧ (∀ s2, BinaryOp.process Example.binaryOpCompiler .TypeCheck []
        (Example.codeGenState (Example.logicOp JitTokens.logicalOr 2))
          ≠ .ok (.replacedInParent s2))
    ∧ (∀ s2, BinaryOp.process Example.binaryOpCompiler .TypeCheck []
        (Example.codeGenState (Example.logicOp JitTokens.logicalAnd 1))
          ≠ .ok (.replacedInParent s2)) :=
  ⟨((BinaryOp_logic_replaced_by_deciding_constant Example.binaryOpCompiler .TypeCheck []
      (Example.codeGenState (Example.logicOp JitTokens.logicalOr 1))
      (Example.codeGenState (Example.logicOp JitTokens.logicalOr 1)) Example.loc
      JitTokens.logicalOr false [Example.intLiteral 1, Example.var "x"]
      (Example.logicOp JitTokens.logicalOr 1) (Example.intLiteral 1) rfl rfl rfl rfl rfl).1
      ⟨rfl, Or.inl ⟨rfl, rfl⟩⟩).1,
   (BinaryOp_logic_replaced_by_deciding_constant Example.binaryOpCompiler .TypeCheck []
      (Example.codeGenState (Example.logicOp JitTokens.logicalOr 2))
      (Example.codeGenState (Example.logicOp JitTokens.logicalOr 2)) Example.loc
      JitTokens.logicalOr false [Example.intLiteral 2, Example.var "x"]
      (Example.logicOp JitTokens.logicalOr 2) (Example.intLiteral 2) rfl rfl rfl rfl rfl).2
      (by decide),
   (BinaryOp_logic_replaced_by_deciding_constant Example.binaryOpCompiler .TypeCheck []
      (Example.codeGenState (Example.logicOp JitTokens.logicalAnd 1))
      (Example.codeGenState (Example.logicOp JitTokens.logicalAnd 1)) Example.loc
      JitTokens.logicalAnd false [Example.intLiteral 1, Example.var "x"]
      (Example.logicOp JitTokens.logicalAnd 1) (Example.intLiteral 1) rfl rfl rfl rfl rfl).2
      (by decide)⟩


/-- Claim C28, the code at a failing input: in the TypeCheck pass `IfStatement::process`
calls `processAllChildren` twice, once for every pass but CodeGeneration and once more
in its TypeCheck block, so the condition, the true branch and the false branch of
`if (x < 1) x++; else while (!x) -x;` are each processed twice; in the DataAllocation
pass they are processed once. The compiler logs every call of the `process` of a
child. -/
theorem IfStatement_typeCheck_processes_children_twice :
    IfStatement.process Example.tracingCompiler Example.noCodeGeneration .TypeCheck
        Example.ifElseWhile CompileState.empty
      = .ok (Example.ifElseWhile,
          ⟨["process Compare", "process Increment", "process WhileLoop",
            "process Compare", "process Increment", "process WhileLoop"], [], 0, 0⟩)
    ∧ IfStatement.process Example.tracingCompiler Example.noCodeGeneration .DataAllocation
        Example.ifElseWhile CompileState.empty
      = .ok (Example.ifElseWhile,
          ⟨["process Compare", "process Increment", "process WhileLoop"], [], 0, 0⟩) :=
  ⟨rfl, rfl⟩


theorem TemplatedFunction.collect_templateAndClone_step
    (collect : List Nat → Except RunError (List (List Nat)))
    (this other : List Nat)
    (hthis : (this = [0] ∧ other = [1]) ∨ (this = [1] ∧ other = [0]))
    (h : collect other = .error .outOfFuel) :
    TemplatedFunction.collectFunctionInstancesWith
      (fun id numTemplateParameters =>
        TemplatedFunction.getFunctionWithTemplateAmountWith collect Example.templateAndClone
          this id numTemplateParameters)
      Example.templateAndClone this = .error .outOfFuel := by
  rcases hthis with ⟨rfl, rfl⟩ | ⟨rfl, rfl⟩
  · simp [TemplatedFunction.collectFunctionInstancesWith, Example.templateAndClone, Stmt.get?,
      TemplatedFunction.collectLoop, Stmt.childrenFrom, TemplatedFunction.functionData,
      Example.sumInstance, Stmt.kind, Stmt.children, SyntaxTreeWalker.scan,
      SyntaxTreeWalker.scanChildren, TemplatedFunction.scanCalls, Example.callSum,
      TemplatedFunction.getFunctionWithTemplateAmountWith, TemplatedFunction.findInstance,
      TemplatedFunction.walkerLoop, h, bind, Except.bind, pure, Except.pure]
  · simp [TemplatedFunction.collectFunctionInstancesWith, Example.templateAndClone, Stmt.get?,
      TemplatedFunction.collectLoop, Stmt.childrenFrom, TemplatedFunction.functionData,
      Example.sumInstance, Stmt.kind, Stmt.children, SyntaxTreeWalker.scan,
      SyntaxTreeWalker.scanChildren, TemplatedFunction.scanCalls, Example.callSum,
      TemplatedFunction.getFunctionWithTemplateAmountWith, TemplatedFunction.findInstance,
      TemplatedFunction.walkerLoop, h, bind, Except.bind, pure, Except.pure]

/-- Claim C29, the code at a failing input: a tree with the function template `sum` and a
clone of it (two `TemplatedFunction` statements with the same id), each with an instance
that calls `sum` with a number of template arguments no instance has. Whatever the fuel,
`collectFunctionInstances` on either statement runs out of it: the lookup
`getFunctionWithTemplateAmount` finds no child, walks the tree, meets the other
statement with the id and calls its `collectFunctionInstances`, which does the same in
turn. -/
theorem collectFunctionInstances_never_returns :
    ∀ fuel : Nat,
      TemplatedFunction.collectFunctionInstances Example.templateAndClone fuel [0]
        = .error .outOfFuel
      ∧ TemplatedFunction.collectFunctionInstances Example.templateAndClone fuel [1]
        = .error .outOfFuel := by
  intro fuel
  induction fuel with
  | zero => exact ⟨rfl, rfl⟩
  | succ fuel ih =>
      exact ⟨TemplatedFunction.collect_templateAndClone_step
          (TemplatedFunction.collectFunctionInstances Example.templateAndClone fuel) [0] [1]
          (Or.inl ⟨rfl, rfl⟩) ih.2,
        TemplatedFunction.collect_templateAndClone_step
          (TemplatedFunction.collectFunctionInstances Example.templateAndClone fuel) [1] [0]
          (Or.inr ⟨rfl, rfl⟩) ih.1⟩


/-! ## `FunctionCall` -/

theorem FunctionCall.lastObject_isExpression :
    ∀ (calls : List FunctionCall.Call) (object : Option Stmt),
      (∀ o, object = some o → o.kind.isExpression = true) →
      (∀ c ∈ calls, c.statement.kind.isExpression = true) →
      ∀ o, FunctionCall.lastObject object calls = some o → o.kind.isExpression = true := by
  intro calls
  induction calls with
  | nil => intro object ho _ o h; exact ho o h
  | cons c calls ih =>
      intro object ho hc o h
      cases c with
      | addArgument arg =>
          exact ih object ho (fun c hc1 => hc c (List.mem_cons_of_mem _ hc1)) o h
      | setObjectExpression e =>
          refine ih (some e) ?_ (fun c hc1 => hc c (List.mem_cons_of_mem _ hc1)) o h
          intro o1 ho1
          cases ho1
          exact hc (.setObjectExpression e) (by simp)

theorem FunctionCall.addedArguments_isExpression :
    ∀ (calls : List FunctionCall.Call),
      (∀ c ∈ calls, c.statement.kind.isExpression = true) →
      ∀ a ∈ FunctionCall.addedArguments calls, a.kind.isExpression = true := by
  intro calls
  induction calls with
  | nil => intro _ a ha; simp [FunctionCall.addedArguments] at ha
  | cons c calls ih =>
      intro hc a ha
      cases c with
      | addArgument arg =>
          simp only [FunctionCall.addedArguments, List.mem_cons] at ha
          rcases ha with rfl | ha
          · exact hc (.addArgument a) (by simp)
          · exact ih (fun c hc1 => hc c (List.mem_cons_of_mem _ hc1)) a ha
      | setObjectExpression e =>
          exact ih (fun c hc1 => hc c (List.mem_cons_of_mem _ hc1)) a ha

theorem FunctionCall.apply_eq (l : Location) (functionId : String)
    (numTemplateParameters : Nat) (returnType : TypeInfo) :
    ∀ (calls : List FunctionCall.Call) (object : Option Stmt) (args : List Stmt),
      (∀ o, object = some o → o.kind.isExpression = true) →
      (∀ c ∈ calls, c.statement.kind.isExpression = true) →
      FunctionCall.apply
          (.node l (.FunctionCall functionId numTemplateParameters returnType object.isSome)
            (object.toList ++ args)) calls
        = .ok (.node l (.FunctionCall functionId numTemplateParameters returnType
            (FunctionCall.lastObject object calls).isSome)
            ((FunctionCall.lastObject object calls).toList ++ args
              ++ FunctionCall.addedArguments calls)) := by
  intro calls
  induction calls with
  | nil =>
      intro object args _ _
      simp [FunctionCall.apply, FunctionCall.lastObject, FunctionCall.addedArguments]
  | cons c calls ih =>
      intro object args ho hc
      have hrest : ∀ c ∈ calls, c.statement.kind.isExpression = true :=
        fun c hc1 => hc c (List.mem_cons_of_mem _ hc1)
      cases c with
      | addArgument arg =>
          have := ih object (args ++ [arg]) ho hrest
          simp only [FunctionCall.apply, FunctionCall.addArgument, Statement.addStatement,
            FunctionCall.lastObject, FunctionCall.addedArguments]
          simpa [List.append_assoc] using this
      | setObjectExpression e =>
          have he : e.kind.isExpression = true := hc (.setObjectExpression e) (by simp)
          have := ih (some e) args (by intro o h; cases h; exact he) hrest
          cases object with
          | none =>
              simp only [FunctionCall.apply, FunctionCall.setObjectExpression,
                FunctionCall.hasObjectExpression, Option.isSome, Bool.false_eq_true, if_false,
                FunctionCall.setHasObjectExpression, Statement.addStatement, if_true, bind,
                Except.bind, FunctionCall.lastObject, Option.toList, List.nil_append]
              simpa using this
          | some o =>
              have hoe : o.kind.isExpression = true := ho o rfl
              simp only [FunctionCall.apply, FunctionCall.setObjectExpression,
                FunctionCall.hasObjectExpression, Option.isSome, if_true,
                FunctionCall.getObjectExpression, Stmt.getSubExpr, Stmt.getChildStatement,
                Stmt.children, Option.toList, List.singleton_append, List.getElem?_cons_zero,
                hoe, Stmt.replaceInParent, Stmt.modifyAt, List.set_cons_zero, bind,
                Except.bind, FunctionCall.lastObject]
              simpa using this


/-- Claim C30: for a `FunctionCall` as its constructor leaves it without object expression
and every sequence of calls of `addArgument` and `setObjectExpression` with expressions,
all calls return and afterwards `getNumArguments()` is the number of `addArgument`
calls, `getArgument(i)` is the argument of the call number `i` of `addArgument` (null
from that number on), and `getObjectExpression()` is the expression of the last
`setObjectExpression` call, null when there was none. -/
theorem FunctionCall_arguments_and_object_expression (l : Location) (functionId : String)
    (numTemplateParameters : Nat) (returnType : TypeInfo) (calls : List FunctionCall.Call)
    (hexpr : ∀ c ∈ calls, c.statement.kind.isExpression = true) :
    ∃ self,
      FunctionCall.apply
        (.node l (.FunctionCall functionId numTemplateParameters returnType false) []) calls
        = .ok self
      ∧ FunctionCall.getNumArguments self = (FunctionCall.addedArguments calls).length
      ∧ (∀ i, FunctionCall.getArgument self i = (FunctionCall.addedArguments calls)[i]?)
      ∧ FunctionCall.getObjectExpression self = FunctionCall.lastObject none calls := by
  have h := FunctionCall.apply_eq l functionId numTemplateParameters returnType calls none []
    (by intro o h; cases h) hexpr
  have hargs := FunctionCall.addedArguments_isExpression calls hexpr
  have hobj := FunctionCall.lastObject_isExpression calls none (by intro o h; cases h) hexpr
  simp only [Option.isSome_none, Option.toList, List.nil_append, List.append_nil] at h
  refine ⟨_, h, ?_, ?_, ?_⟩
  · cases ho : FunctionCall.lastObject none calls with
    | none =>
        simp [FunctionCall.getNumArguments, FunctionCall.hasObjectExpression,
          Stmt.getNumChildStatements, Stmt.children]
    | some o =>
        simp [FunctionCall.getNumArguments, FunctionCall.hasObjectExpression,
          Stmt.getNumChildStatements, Stmt.children]
  · intro i
    have hget : ∀ (cs : List Stmt) (j : Nat) (l1 : Location) (k : Kind),
        (∀ a ∈ cs, a.kind.isExpression = true) →
        (Stmt.node l1 k cs).getSubExpr j = cs[j]? := by
      intro cs j l1 k hall
      simp only [Stmt.getSubExpr, Stmt.getChildStatement, Stmt.children]
      cases hj : cs[j]? with
      | none => rfl
      | some a =>
          have := hall a (List.getElem?_mem hj)
          simp [this]
    cases ho : FunctionCall.lastObject none calls with
    | none =>
        simp only [FunctionCall.getArgument, FunctionCall.hasObjectExpression, Option.isSome,
          Bool.not_false, if_true, List.nil_append]
        exact hget _ i _ _ hargs
    | some o =>
        simp only [FunctionCall.getArgument, FunctionCall.hasObjectExpression, Option.isSome,
          Bool.not_true, Bool.false_eq_true, if_false]
        rw [hget _ (i + 1) _ _ (by
          intro a ha
          simp only [List.singleton_append, List.mem_cons] at ha
          rcases ha with rfl | ha
          · exact hobj a ho
          · exact hargs a ha)]
        simp
  · cases ho : FunctionCall.lastObject none calls with
    | none => simp [FunctionCall.getObjectExpression, FunctionCall.hasObjectExpression]
    | some o =>
        have := hobj o ho
        simp [FunctionCall.getObjectExpression, FunctionCall.hasObjectExpression,
          Stmt.getSubExpr, Stmt.getChildStatement, Stmt.children, this]

theorem FunctionCall_arguments_and_object_expression_witness :
    FunctionCall.apply Example.callF
        [.addArgument (Example.intLiteral 1), .setObjectExpression (Example.var "a"),
         .addArgument (Example.intLiteral 2), .setObjectExpression (Example.var "b")]
      = .ok (.node Example.loc (.FunctionCall "f" 0 (TypeInfo.ofID .Integer) true)
          [Example.var "b", Example.intLiteral 1, Example.intLiteral 2])
    ∧ ∃ self, FunctionCall.apply Example.callF
        [.addArgument (Example.intLiteral 1), .setObjectExpression (Example.var "a"),
         .addArgument (Example.intLiteral 2), .setObjectExpression (Example.var "b")]
        = .ok self
      ∧ FunctionCall.getNumArguments self = 2
      ∧ FunctionCall.getArgument self 1 = some (Example.intLiteral 2)
      ∧ FunctionCall.getObjectExpression self = some (Example.var "b") := by
  obtain ⟨self, h1, h2, h3, h4⟩ := FunctionCall_arguments_and_object_expression Example.loc
    "f" 0 (TypeInfo.ofID .Integer)
    [.addArgument (Example.intLiteral 1), .setObjectExpression (Example.var "a"),
     .addArgument (Example.intLiteral 2), .setObjectExpression (Example.var "b")]
    (by
      intro c hc
      simp only [List.mem_cons, List.mem_singleton, List.not_mem_nil, or_false] at hc
      rcases hc with rfl | rfl | rfl | rfl <;> rfl)
  exact ⟨rfl, self, h1, h2, h3 1, h4⟩

theorem WhileLoop.emitSafeCheck_eq (c : Compiler) (location : Location) (why : Reg)
    (exit : Label) (st : CompileState) :
    WhileLoop.emitSafeCheck c location why exit st
      = { warnings := st.warnings
          code := st.code ++ WhileLoop.safeCheckCode c location why exit st.nextLabel
          nextLabel := st.nextLabel + 1
          nextReg := st.nextReg } := by
  simp [WhileLoop.emitSafeCheck, WhileLoop.safeCheckCode, CompileState.emit,
    CompileState.newLabel]

theorem WhileLoop.headState_eq (safeCheck : Bool) (st : CompileState) :
    (((if safeCheck = true then
          (st.newLabel.2.newLabel.2.newGpd.2).emit
            (.xor_ (.reg st.nextReg) (.reg st.nextReg))
        else st.newLabel.2.newLabel.2.newGpd.2).emit .nop).emit (.bind st.nextLabel))
      = WhileLoop.headState safeCheck st := by
  cases safeCheck <;>
    simp [WhileLoop.headState, CompileState.emit, CompileState.newLabel, CompileState.newGpd]

theorem WhileLoop.bodyState_eq (c : Compiler) (location : Location) (st : CompileState)
    (test : List Instr) (st2 : CompileState) :
    (if c.isRuntimeErrorCheckEnabled = true then
        WhileLoop.emitSafeCheck c location st.nextReg (st.nextLabel + 1)
          { st2 with code := st2.code ++ test }
      else { st2 with code := st2.code ++ test })
      = WhileLoop.bodyState c location st test st2 := by
  cases h : c.isRuntimeErrorCheckEnabled <;>
    simp [WhileLoop.bodyState, WhileLoop.emitSafeCheck_eq, h]

theorem WhileLoop.intCompare_chain (op : TokenType) (exit : Label) (st : CompileState) :
    WhileLoop.intCompare op JitTokens.notEquals .je exit
      (WhileLoop.intCompare op JitTokens.equals .jne exit
        (WhileLoop.intCompare op JitTokens.greaterThanOrEqual .jl exit
          (WhileLoop.intCompare op JitTokens.lessThanOrEqual .jg exit
            (WhileLoop.intCompare op JitTokens.lessThan .jge exit
              (WhileLoop.intCompare op JitTokens.greaterThan .jle exit st)))))
      = { st with code := st.code ++ WhileLoop.compareJumps op exit } := by
  simp only [WhileLoop.intCompare, WhileLoop.compareJumps, CompileState.emit]
  split <;> split <;> split <;> split <;> split <;> split <;> simp

theorem Stmt.location_modifyAt_cons (s : Stmt) (i : Nat) (p : List Nat) (f : Stmt → Stmt) :
    (s.modifyAt (i :: p) f).location = s.location := by
  cases s with
  | node l k cs =>
      simp only [Stmt.modifyAt]
      split <;> rfl

theorem Stmt.location_replaceChildStatement (s : Stmt) (i : Nat) (n : Stmt) :
    (s.replaceChildStatement i n).location = s.location := by
  cases s with
  | node l k cs => rfl

theorem WhileLoop.findReturnCompare_ne_nil (cs : List Stmt) (i : Nat) (p : List Nat)
    (h : WhileLoop.findReturnCompare cs i = some p) : p = [0, i + (p.getD 1 0 - i), 0] ∧ p ≠ [] := by
  induction cs generalizing i with
  | nil => simp [WhileLoop.findReturnCompare] at h
  | cons s rest ih =>
      simp only [WhileLoop.findReturnCompare] at h
      split at h
      · cases h
      · split at h
        · split at h
          · cases h
            simp
          · cases h
        · obtain ⟨h1, h2⟩ := ih (i + 1) h
          refine ⟨?_, h2⟩
          rw [h1]
          simp
          omega

theorem WhileLoop.getCompareCondition_location (self : Stmt) (p : List Nat) (f : Stmt → Stmt)
    (h : WhileLoop.getCompareCondition self = some p) :
    (self.modifyAt p f).location = self.location := by
  have hp : ∃ i q, p = i :: q := by
    simp only [WhileLoop.getCompareCondition] at h
    split at h
    · cases h
      exact ⟨0, [], rfl⟩
    · have := (WhileLoop.findReturnCompare_ne_nil _ _ _ h).1
      exact ⟨_, _, this⟩
    · cases h
  obtain ⟨i, q, rfl⟩ := hp
  exact Stmt.location_modifyAt_cons self i q f

theorem WhileLoop.registerTest_eq (cReg : Reg) (exit : Label) (st : CompileState) :
    ((st.emit (.inlineComment "check condition")).emit (.cmp (.reg cReg) (.imm 0))).emit
        (.je exit)
      = { st with code := st.code ++ WhileLoop.registerTest cReg exit } := by
  simp [WhileLoop.registerTest, CompileState.emit]

theorem WhileLoop.tail_eq (cond exit : Label) (st : CompileState) :
    (st.emit (.jmp cond)).emit (.bind exit)
      = { st with code := st.code ++ [.jmp cond, .bind exit] } := by
  simp [CompileState.emit]

theorem WhileLoop.codeGeneration_ok (c : Compiler) (self self1 : Stmt) (st st1 : CompileState)
    (h : WhileLoop.codeGeneration c self st = .ok (self1, st1)) :
    ∃ (condition condition1 body body1 : Stmt) (st2 st3 : CompileState) (test : List Instr),
      c.processChild .CodeGeneration condition
          (WhileLoop.headState c.isRuntimeErrorCheckEnabled st) = .ok (condition1, st2)
      ∧ ((∃ op, ((WhileLoop.getCompareCondition self).bind
                fun p => (self.get? p).bind Compare.op) = some op
              ∧ test = WhileLoop.compareJumps op (st.nextLabel + 1))
          ∨ (((WhileLoop.getCompareCondition self).bind
                fun p => (self.get? p).bind Compare.op) = none
              ∧ ∃ cReg, c.reg condition1 = some cReg
                ∧ test = WhileLoop.registerTest cReg (st.nextLabel + 1)))
      ∧ c.processChild .CodeGeneration body (WhileLoop.bodyState c self.location st test st2)
          = .ok (body1, st3)
      ∧ st1 = { st3 with
          code := st3.code ++ [.jmp st.nextLabel, .bind (st.nextLabel + 1)] } := by
  have hhead := WhileLoop.headState_eq c.isRuntimeErrorCheckEnabled st
  simp only [CompileState.newLabel, CompileState.newGpd] at hhead
  have hloc : ∀ x, ((match WhileLoop.getCompareCondition self with
      | some p => self.modifyAt p Compare.setUseAsmFlag
      | none => self).replaceChildStatement 0 x).location = self.location := by
    intro x
    rw [Stmt.location_replaceChildStatement]
    cases hcp : WhileLoop.getCompareCondition self with
    | none => rfl
    | some p => exact WhileLoop.getCompareCondition_location self p _ hcp
  simp only [WhileLoop.codeGeneration, CompileState.newLabel, CompileState.newGpd, hhead,
    hloc, WhileLoop.intCompare_chain, WhileLoop.registerTest_eq, WhileLoop.bodyState_eq,
    WhileLoop.tail_eq] at h
  generalize (match WhileLoop.getCompareCondition self with
      | some p => self.modifyAt p Compare.setUseAsmFlag
      | none => self) = self2 at h
  generalize ((WhileLoop.getCompareCondition self).bind
      fun p => (self.get? p).bind Compare.op) = cpOp at h ⊢
  cases hcond : self2.getSubExpr 0 with
  | none =>
      rw [hcond] at h
      cases h
  | some condition =>
      rw [hcond] at h
      simp only [pure_bind] at h
      cases hp : c.processChild .CodeGeneration condition
          (WhileLoop.headState c.isRuntimeErrorCheckEnabled st) with
      | error e =>
          rw [hp] at h
          cases h
      | ok r =>
          obtain ⟨condition1, st2⟩ := r
          rw [hp] at h
          simp only [bind, Except.bind] at h
          cases cpOp with
          | some op =>
              simp only at h
              cases hbody : (self2.replaceChildStatement 0 condition1).getSubExpr 1 with
              | none =>
                  rw [hbody] at h
                  cases h
              | some body =>
                  rw [hbody] at h
                  simp only at h
                  cases hb : c.processChild .CodeGeneration body
                      (WhileLoop.bodyState c self.location st
                        (WhileLoop.compareJumps op (st.nextLabel + 1)) st2) with
                  | error e =>
                      rw [hb] at h
                      cases h
                  | ok r =>
                      obtain ⟨body1, st3⟩ := r
                      rw [hb] at h
                      simp only [pure, Except.pure, Except.ok.injEq, Prod.mk.injEq] at h
                      exact ⟨condition, condition1, body, body1, st2, st3, _, hp,
                        Or.inl ⟨op, rfl, rfl⟩, hb, h.2.symm⟩
          | none =>
              simp only at h
              cases hreg : c.reg condition1 with
              | none =>
                  rw [hreg] at h
                  cases h
              | some cReg =>
                  rw [hreg] at h
                  simp only at h
                  cases hbody : (self2.replaceChildStatement 0 condition1).getSubExpr 1 with
                  | none =>
                      rw [hbody] at h
                      cases h
                  | some body =>
                      rw [hbody] at h
                      simp only at h
                      cases hb : c.processChild .CodeGeneration body
                          (WhileLoop.bodyState c self.location st
                            (WhileLoop.registerTest cReg (st.nextLabel + 1)) st2) with
                      | error e =>
                          rw [hb] at h
                          cases h
                      | ok r =>
                          obtain ⟨body1, st3⟩ := r
                          rw [hb] at h
                          simp only [pure, Except.pure, Except.ok.injEq, Prod.mk.injEq] at h
                          exact ⟨condition, condition1, body, body1, st2, st3, _, hp,
                            Or.inr ⟨rfl, cReg, hreg, rfl⟩, hb, h.2.symm⟩

theorem WhileLoop.compareJumps_eq (op : TokenType) (jump : Label → Instr) (exit : Label)
    (hop : (op, jump) ∈ [(JitTokens.greaterThan, Instr.jle), (JitTokens.lessThan, Instr.jge),
      (JitTokens.lessThanOrEqual, Instr.jg), (JitTokens.greaterThanOrEqual, Instr.jl),
      (JitTokens.equals, Instr.jne), (JitTokens.notEquals, Instr.je)]) :
    WhileLoop.compareJumps op exit = [jump exit] := by
  simp only [List.mem_cons, Prod.mk.injEq, List.mem_singleton, List.not_mem_nil, or_false] at hop
  rcases hop with ⟨rfl, rfl⟩ | ⟨rfl, rfl⟩ | ⟨rfl, rfl⟩ | ⟨rfl, rfl⟩ | ⟨rfl, rfl⟩ | ⟨rfl, rfl⟩ <;>
    rfl

theorem WhileLoop.codeGeneration_compare (c : Compiler) (location l : Location)
    (op : TokenType) (useAsmFlag : Bool) (operands : List Stmt)
    (body condition1 body1 : Stmt) (st st2 st3 : CompileState)
    (hbody : body.kind.isExpression = true)
    (hcondition : c.processChild .CodeGeneration (.node l (.Compare op true) operands)
      (WhileLoop.headState c.isRuntimeErrorCheckEnabled st) = .ok (condition1, st2))
    (hprocess : c.processChild .CodeGeneration body
      (WhileLoop.bodyState c location st (WhileLoop.compareJumps op (st.nextLabel + 1)) st2)
        = .ok (body1, st3)) :
    WhileLoop.codeGeneration c
        (.node location .WhileLoop [.node l (.Compare op useAsmFlag) operands, body]) st
      = .ok (.node location .WhileLoop [condition1, body1],
          { st3 with code := st3.code ++ [.jmp st.nextLabel, .bind (st.nextLabel + 1)] }) := by
  have hhead := WhileLoop.headState_eq c.isRuntimeErrorCheckEnabled st
  simp only [CompileState.newLabel, CompileState.newGpd] at hhead
  have hk1 : (Stmt.node l (.Compare op useAsmFlag) operands).kind.isExpression = true := rfl
  have hk2 : (Stmt.node l (.Compare op true) operands).kind.isExpression = true := rfl
  simp only [WhileLoop.codeGeneration, CompileState.newLabel, CompileState.newGpd, hhead,
    WhileLoop.intCompare_chain, WhileLoop.bodyState_eq, WhileLoop.tail_eq,
    WhileLoop.getCompareCondition, Stmt.getSubExpr, Stmt.getChildStatement, Stmt.children,
    List.getElem?_cons_zero, hk1, hk2, if_true, Option.bind, Stmt.get?,
    Compare.op, Stmt.modifyAt, Compare.setUseAsmFlag, List.set, pure_bind, hcondition,
    Stmt.replaceChildStatement, Stmt.location, bind, Except.bind, List.getElem?_cons_succ,
    hbody, hprocess, pure, Except.pure]

theorem decide_eq_not_decide (p q : Prop) [Decidable p] [Decidable q] (h : p ↔ ¬q) :
    decide p = !decide q := by
  by_cases hq : q <;> simp [hq, h]

/-- Claim C27: for a `WhileLoop` whose condition is a `Compare` with one of the operators
`>`, `<`, `<=`, `>=`, `==`, `!=` (and whose body is an expression node), the code
generation of `WhileLoop::process` returns when the two children are processed, the
instructions the loop emits itself contain exactly one conditional jump to the exit
label, placed right after the code of the condition, and that jump is `jle`, `jge`, `jg`,
`jl`, `jne`, `je` in this order of the operators: after `cmp a, b` on signed integers it
is taken exactly when the comparison of `a` and `b` is false. Labels are never handed
out twice (`hlabels`). -/
theorem WhileLoop_compare_exit_jump_negates_condition (c : Compiler) (location l : Location)
    (op : TokenType) (useAsmFlag : Bool) (operands : List Stmt)
    (body condition1 body1 : Stmt) (st st2 st3 : CompileState) (jump : Label → Instr)
    (hop : (op, jump) ∈ [(JitTokens.greaterThan, Instr.jle), (JitTokens.lessThan, Instr.jge),
      (JitTokens.lessThanOrEqual, Instr.jg), (JitTokens.greaterThanOrEqual, Instr.jl),
      (JitTokens.equals, Instr.jne), (JitTokens.notEquals, Instr.je)])
    (hbody : body.kind.isExpression = true)
    (hlabels : st.nextLabel + 2 ≤ st2.nextLabel)
    (hcondition : c.processChild .CodeGeneration (.node l (.Compare op true) operands)
      (WhileLoop.headState c.isRuntimeErrorCheckEnabled st) = .ok (condition1, st2))
    (hprocess : c.processChild .CodeGeneration body
      (WhileLoop.bodyState c location st [jump (st.nextLabel + 1)] st2) = .ok (body1, st3)) :
    WhileLoop.codeGeneration c
        (.node location .WhileLoop [.node l (.Compare op useAsmFlag) operands, body]) st
      = .ok (.node location .WhileLoop [condition1, body1],
          { st3 with code := st3.code ++ [.jmp st.nextLabel, .bind (st.nextLabel + 1)] })
    ∧ (WhileLoop.ownCode c location st [jump (st.nextLabel + 1)] st2).filter
        (Instr.isConditionalJumpTo (st.nextLabel + 1)) = [jump (st.nextLabel + 1)]
    ∧ ∀ a b : Int, ∃ holds : Bool, JitTokens.compareValue op a b = some holds
        ∧ (jump (st.nextLabel + 1)).jumpTaken a b = some (!holds) := by
  have hjumps := WhileLoop.compareJumps_eq op jump (st.nextLabel + 1) hop
  refine ⟨?_, ?_, ?_⟩
  · apply WhileLoop.codeGeneration_compare c location l op useAsmFlag operands body condition1
      body1 st st2 st3 hbody hcondition
    rw [hjumps]
    exact hprocess
  · have hne : (st2.nextLabel == st.nextLabel + 1) = false := by
      rw [beq_eq_false_iff_ne]
      omega
    simp only [List.mem_cons, Prod.mk.injEq, List.mem_singleton, List.not_mem_nil,
      or_false] at hop
    rcases hop with ⟨rfl, rfl⟩ | ⟨rfl, rfl⟩ | ⟨rfl, rfl⟩ | ⟨rfl, rfl⟩ | ⟨rfl, rfl⟩ | ⟨rfl, rfl⟩ <;>
      cases hs : c.isRuntimeErrorCheckEnabled <;>
      simp [WhileLoop.ownCode, WhileLoop.safeCheckCode, hs, List.filter,
        Instr.isConditionalJumpTo, Instr.isConditionalJump, Instr.target, hne]
  · intro a b
    simp only [List.mem_cons, Prod.mk.injEq, List.mem_singleton, List.not_mem_nil,
      or_false] at hop
    rcases hop with ⟨rfl, rfl⟩ | ⟨rfl, rfl⟩ | ⟨rfl, rfl⟩ | ⟨rfl, rfl⟩ | ⟨rfl, rfl⟩ | ⟨rfl, rfl⟩
    · exact ⟨decide (a > b), rfl, congrArg some (decide_eq_not_decide _ _ (by omega))⟩
    · exact ⟨decide (a < b), rfl, congrArg some (decide_eq_not_decide _ _ (by omega))⟩
    · exact ⟨decide (a ≤ b), rfl, congrArg some (decide_eq_not_decide _ _ (by omega))⟩
    · exact ⟨decide (a ≥ b), rfl, congrArg some (decide_eq_not_decide _ _ (by omega))⟩
    · exact ⟨decide (a = b), rfl, congrArg some (decide_eq_not_decide _ _ (by omega))⟩
    · exact ⟨decide (a ≠ b), rfl, congrArg some (decide_eq_not_decide _ _ (by omega))⟩

theorem WhileLoop_compare_exit_jump_negates_condition_witness :
    WhileLoop.codeGeneration Example.compiler Example.whileBreak CompileState.empty
      = .ok (.node Example.loc .WhileLoop
            [.node Example.loc (.Compare JitTokens.lessThan true)
              [Example.var "x", Example.intLiteral 1], Example.breakBlock],
          { warnings := [], code := [.nop, .bind 0, .jge 1, .jmp 0, .bind 1],
            nextLabel := 2, nextReg := 1 })
    ∧ (WhileLoop.ownCode Example.compiler Example.loc CompileState.empty [Instr.jge 1]
          (WhileLoop.headState false CompileState.empty)).filter
        (Instr.isConditionalJumpTo 1) = [Instr.jge 1]
    ∧ ∀ a b : Int, ∃ holds : Bool, JitTokens.compareValue JitTokens.lessThan a b = some holds
        ∧ (Instr.jge 1).jumpTaken a b = some (!holds) :=
  WhileLoop_compare_exit_jump_negates_condition Example.compiler Example.loc Example.loc
    JitTokens.lessThan false [Example.var "x", Example.intLiteral 1] Example.breakBlock
    (.node Example.loc (.Compare JitTokens.lessThan true)
      [Example.var "x", Example.intLiteral 1])
    Example.breakBlock CompileState.empty (WhileLoop.headState false CompileState.empty)
    (WhileLoop.bodyState Example.compiler Example.loc CompileState.empty [Instr.jge 1]
      (WhileLoop.headState false CompileState.empty))
    Instr.jge (List.mem_cons_of_mem _ (List.mem_cons_self _ _)) rfl (by decide) rfl rfl

theorem WhileLoop.codeGeneration_straightLine (C B : List Instr) (cReg : Reg) (e : Int) :
    WhileLoop.codeGeneration (Example.straightLineCompiler C B cReg e) Example.whileX
        CompileState.empty
      = .ok (Example.whileX,
          { warnings := []
            code := [Instr.xor_ (.reg 0) (.reg 0), .nop, .bind 0] ++ C
              ++ (WhileLoop.registerTest cReg 1
                  ++ WhileLoop.safeCheckCode (Example.straightLineCompiler C B cReg e)
                      Example.loc 0 1 2)
              ++ B ++ [.jmp 0, .bind 1]
            nextLabel := 3
            nextReg := 1 }) := by
  simp [WhileLoop.codeGeneration, Example.straightLineCompiler, Example.whileX,
    CompileState.empty, CompileState.newLabel, CompileState.newGpd, CompileState.emit,
    WhileLoop.getCompareCondition, Stmt.getSubExpr, Stmt.getChildStatement, Stmt.children,
    Example.var, Example.emptyBlock, Stmt.kind, Kind.isExpression, Kind.isStatementBlock,
    Stmt.replaceChildStatement, WhileLoop.emitSafeCheck, WhileLoop.registerTest,
    WhileLoop.safeCheckCode, Stmt.location, bind, Except.bind, pure, Except.pure]

theorem Example.straightLineCode_eq (C B : List Instr) (cReg : Reg) (e : Int) :
    Example.straightLineCode C B cReg e
      = ([Instr.xor_ (.reg 0) (.reg 0), .nop, .bind 0] ++ C)
        ++ ([.inlineComment "check condition", .cmp (.reg cReg) (.imm 0), .je 1,
              .inc (.reg 0), .cmp (.reg 0) (.imm 10000000), .jb 2,
              .mov (.reg 0) (.imm e), .mov (.errorFlag 0 4) (.reg 0),
              .mov (.reg 0) (.imm 1), .mov (.errorFlag 4 4) (.reg 0),
              .mov (.reg 0) (.imm 1), .mov (.errorFlag 8 4) (.reg 0),
              .jmp 1, .bind 2]
          ++ (B ++ [.jmp 0, .bind 1])) := by
  simp only [Example.straightLineCode, WhileLoop.codeGeneration_straightLine]
  simp [WhileLoop.registerTest, WhileLoop.safeCheckCode, Example.straightLineCompiler,
    Example.loc]

theorem Instr.isPlain_ne_bind (P : List Instr) (hP : ∀ i ∈ P, i.isPlain = true) (l : Label) :
    Instr.bind l ∉ P := by
  intro h
  have := hP _ h
  simp [Instr.isPlain] at this

theorem Example.straightLineCode_layout (C B : List Instr) (cReg : Reg) (e : Int)
    (hC : ∀ i ∈ C, i.isPlain = true) (hB : ∀ i ∈ B, i.isPlain = true) :
    (Example.straightLineCode C B cReg e)[0]? = some (Instr.xor_ (.reg 0) (.reg 0))
    ∧ (Example.straightLineCode C B cReg e)[1]? = some Instr.nop
    ∧ (Example.straightLineCode C B cReg e)[2]? = some (Instr.bind 0)
    ∧ (∀ j, j < C.length → (Example.straightLineCode C B cReg e)[3 + j]? = C[j]?)
    ∧ (Example.straightLineCode C B cReg e)[C.length + 3]?
        = some (Instr.inlineComment "check condition")
    ∧ (Example.straightLineCode C B cReg e)[C.length + 4]?
        = some (Instr.cmp (.reg cReg) (.imm 0))
    ∧ (Example.straightLineCode C B cReg e)[C.length + 5]? = some (Instr.je 1)
    ∧ (Example.straightLineCode C B cReg e)[C.length + 6]? = some (Instr.inc (.reg 0))
    ∧ (Example.straightLineCode C B cReg e)[C.length + 7]?
        = some (Instr.cmp (.reg 0) (.imm 10000000))
    ∧ (Example.straightLineCode C B cReg e)[C.length + 8]? = some (Instr.jb 2)
    ∧ (Example.straightLineCode C B cReg e)[C.length + 9]?
        = some (Instr.mov (.reg 0) (.imm e))
    ∧ (Example.straightLineCode C B cReg e)[C.length + 10]?
        = some (Instr.mov (.errorFlag 0 4) (.reg 0))
    ∧ (Example.straightLineCode C B cReg e)[C.length + 11]?
        = some (Instr.mov (.reg 0) (.imm 1))
    ∧ (Example.straightLineCode C B cReg e)[C.length + 12]?
        = some (Instr.mov (.errorFlag 4 4) (.reg 0))
    ∧ (Example.straightLineCode C B cReg e)[C.length + 13]?
        = some (Instr.mov (.reg 0) (.imm 1))
    ∧ (Example.straightLineCode C B cReg e)[C.length + 14]?
        = some (Instr.mov (.errorFlag 8 4) (.reg 0))
    ∧ (Example.straightLineCode C B cReg e)[C.length + 15]? = some (Instr.jmp 1)
    ∧ (Example.straightLineCode C B cReg e)[C.length + 16]? = some (Instr.bind 2)
    ∧ (∀ j, j < B.length →
        (Example.straightLineCode C B cReg e)[C.length + 17 + j]? = B[j]?)
    ∧ (Example.straightLineCode C B cReg e)[C.length + 17 + B.length]? = some (Instr.jmp 0)
    ∧ (Example.straightLineCode C B cReg e)[C.length + 18 + B.length]? = some (Instr.bind 1)
    ∧ (Example.straightLineCode C B cReg e)[C.length + 19 + B.length]? = none
    ∧ (Instr.bind 0 ∈ Example.straightLineCode C B cReg e
        ∧ (Example.straightLineCode C B cReg e).indexOf (Instr.bind 0) = 2)
    ∧ (Instr.bind 1 ∈ Example.straightLineCode C B cReg e
        ∧ (Example.straightLineCode C B cReg e).indexOf (Instr.bind 1)
            = C.length + 18 + B.length)
    ∧ (Instr.bind 2 ∈ Example.straightLineCode C B cReg e
        ∧ (Example.straightLineCode C B cReg e).indexOf (Instr.bind 2) = C.length + 16) := by
  have hCb := Instr.isPlain_ne_bind C hC
  have hBb := Instr.isPlain_ne_bind B hB
  rw [Example.straightLineCode_eq]
  have hlen : ([Instr.xor_ (.reg 0) (.reg 0), .nop, .bind 0] ++ C).length = C.length + 3 := by
    simp
  have hmid : ∀ (M Y : List Instr) (j : Nat), j < M.length →
      (([Instr.xor_ (.reg 0) (.reg 0), .nop, .bind 0] ++ C) ++ (M ++ Y))[C.length + 3 + j]?
        = M[j]? := by
    intro M Y j hj
    rw [List.getElem?_append_right (by rw [hlen]; omega), hlen,
      List.getElem?_append_left (by omega)]
    congr 1
    omega
  have htail : ∀ (M Y : List Instr) (j : Nat), M.length = 14 →
      (([Instr.xor_ (.reg 0) (.reg 0), .nop, .bind 0] ++ C) ++ (M ++ (B ++ Y)))[C.length + 17 + B.length + j]?
        = Y[j]? := by
    intro M Y j hM
    rw [List.getElem?_append_right (by rw [hlen]; omega), hlen,
      List.getElem?_append_right (by omega), List.getElem?_append_right (by omega)]
    congr 1
    omega
  refine ⟨by simp, by simp, by simp, ?_, hmid _ _ 0 (by simp), hmid _ _ 1 (by simp),
    hmid _ _ 2 (by simp), hmid _ _ 3 (by simp), hmid _ _ 4 (by simp), hmid _ _ 5 (by simp),
    hmid _ _ 6 (by simp), hmid _ _ 7 (by simp), hmid _ _ 8 (by simp), hmid _ _ 9 (by simp),
    hmid _ _ 10 (by simp), hmid _ _ 11 (by simp), hmid _ _ 12 (by simp),
    hmid _ _ 13 (by simp), ?_, ?_, ?_, ?_, ?_, ?_, ?_⟩
  · intro j hj
    rw [List.getElem?_append_left (by rw [hlen]; omega),
      List.getElem?_append_right (by simp)]
    congr 1
    simp
  · intro j hj
    rw [List.getElem?_append_right (by rw [hlen]; omega), hlen,
      List.getElem?_append_right (by simp; omega), List.getElem?_append_left (by simp; omega)]
    congr 1
    simp
    omega
  · exact htail _ _ 0 rfl
  · have h := htail
      [.inlineComment "check condition", .cmp (.reg cReg) (.imm 0), .je 1,
        .inc (.reg 0), .cmp (.reg 0) (.imm 10000000), .jb 2,
        .mov (.reg 0) (.imm e), .mov (.errorFlag 0 4) (.reg 0),
        .mov (.reg 0) (.imm 1), .mov (.errorFlag 4 4) (.reg 0),
        .mov (.reg 0) (.imm 1), .mov (.errorFlag 8 4) (.reg 0),
        .jmp 1, .bind 2] [.jmp 0, .bind 1] 1 rfl
    rw [show C.length + 17 + B.length + 1 = C.length + 18 + B.length by omega] at h
    exact h
  · have h := htail
      [.inlineComment "check condition", .cmp (.reg cReg) (.imm 0), .je 1,
        .inc (.reg 0), .cmp (.reg 0) (.imm 10000000), .jb 2,
        .mov (.reg 0) (.imm e), .mov (.errorFlag 0 4) (.reg 0),
        .mov (.reg 0) (.imm 1), .mov (.errorFlag 4 4) (.reg 0),
        .mov (.reg 0) (.imm 1), .mov (.errorFlag 8 4) (.reg 0),
        .jmp 1, .bind 2] [.jmp 0, .bind 1] 2 rfl
    rw [show C.length + 17 + B.length + 2 = C.length + 19 + B.length by omega] at h
    exact h
  · refine ⟨by simp, ?_⟩
    rw [List.indexOf_append_of_mem (by simp)]
    rfl
  · refine ⟨by simp, ?_⟩
    rw [List.indexOf_append_of_not_mem (by simp [hCb]), hlen,
      show ∀ (a b c d f g h i j k l m n o : Instr) (Y : List Instr),
        a :: b :: c :: d :: f :: g :: h :: i :: j :: k :: l :: m :: n :: o :: Y
          = [a, b, c, d, f, g, h, i, j, k, l, m, n, o] ++ Y from fun _ _ _ _ _ _ _ _ _ _ _ _ _ _ _ => rfl,
      List.indexOf_append_of_not_mem (by simp),
      List.indexOf_append_of_not_mem (hBb 1)]
    simp [List.indexOf_cons_ne]
    omega
  · refine ⟨by simp, ?_⟩
    rw [List.indexOf_append_of_not_mem (by simp [hCb]), hlen,
      List.indexOf_append_of_mem (by simp)]
    simp [List.indexOf_cons_ne]
theorem wrap32_small (v : Int) (h1 : 0 ≤ v) (h2 : v < 2147483648) : wrap32 v = v := by
  unfold wrap32
  omega

theorem Machine.runCounting_halted (code : List Instr) (target : Nat) (m : Machine)
    (h : m.step code = none) (fuel count : Nat) :
    Machine.runCounting code target fuel m count = (m, count) := by
  cases fuel with
  | zero => rfl
  | succ n => simp [Machine.runCounting, h]

theorem Machine.runCounting_add (code : List Instr) (target : Nat) (f1 f2 : Nat) :
    ∀ (m : Machine) (count : Nat),
      Machine.runCounting code target (f1 + f2) m count
        = Machine.runCounting code target f2 (Machine.runCounting code target f1 m count).1
            (Machine.runCounting code target f1 m count).2 := by
  induction f1 with
  | zero =>
      intro m count
      simp [Machine.runCounting]
  | succ n ih =>
      intro m count
      rw [show n + 1 + f2 = (n + f2) + 1 by omega]
      cases h : m.step code with
      | none =>
          simp only [Machine.runCounting, h]
          exact (Machine.runCounting_halted code target m h f2 count).symm
      | some m1 =>
          simp only [Machine.runCounting, h]
          exact ih _ _

theorem Machine.Reaches.refl (code : List Instr) (target : Nat) (s : Machine × Nat) :
    Machine.Reaches code target s s := ⟨0, rfl⟩

theorem Machine.Reaches.trans {code : List Instr} {target : Nat} {s1 s2 s3 : Machine × Nat}
    (h12 : Machine.Reaches code target s1 s2) (h23 : Machine.Reaches code target s2 s3) :
    Machine.Reaches code target s1 s3 := by
  obtain ⟨f1, h1⟩ := h12
  obtain ⟨f2, h2⟩ := h23
  refine ⟨f1 + f2, ?_⟩
  rw [Machine.runCounting_add, h1, h2]

theorem Machine.Reaches.step {code : List Instr} (target : Nat) {m m1 : Machine} {i : Instr}
    (count : Nat) (hi : code[m.pc]? = some i) (he : m.exec code i = some m1) :
    Machine.Reaches code target (m, count)
      (m1, if m1.pc = target then count + 1 else count) := by
  refine ⟨1, ?_⟩
  simp [Machine.runCounting, Machine.step, hi, he]

theorem Machine.exec_plain (code : List Instr) (m : Machine) (i : Instr)
    (hi : i.isPlain = true) :
    ∃ m1, m.exec code i = some m1 ∧ m1.pc = m.pc + 1
      ∧ ∀ r, i.destination ≠ some (.reg r) → m1.regs r = m.regs r := by
  cases i <;> simp only [Instr.isPlain, Bool.false_eq_true] at hi
  case xor_ a b =>
    refine ⟨_, rfl, ?_, ?_⟩
    · cases a <;> rfl
    · intro r hr
      cases a with
      | reg x =>
          have hx : r ≠ x := by
            intro h
            exact hr (by rw [h]; rfl)
          simp [Machine.write, Machine.next, hx]
      | imm v => rfl
      | errorFlag o s => rfl
  case inc a =>
    refine ⟨_, rfl, ?_, ?_⟩
    · cases a <;> rfl
    · intro r hr
      cases a with
      | reg x =>
          have hx : r ≠ x := by
            intro h
            exact hr (by rw [h]; rfl)
          simp [Machine.write, Machine.next, hx]
      | imm v => rfl
      | errorFlag o s => rfl
  case mov a b =>
    refine ⟨_, rfl, ?_, ?_⟩
    · cases a <;> rfl
    · intro r hr
      cases a with
      | reg x =>
          have hx : r ≠ x := by
            intro h
            exact hr (by rw [h]; rfl)
          simp [Machine.write, Machine.next, hx]
      | imm v => rfl
      | errorFlag o s => rfl
  case cmp a b => exact ⟨_, rfl, rfl, fun _ _ => rfl⟩
  case nop => exact ⟨_, rfl, rfl, fun _ _ => rfl⟩
  case inlineComment t => exact ⟨_, rfl, rfl, fun _ _ => rfl⟩

theorem Machine.reaches_plain (code : List Instr) (target : Nat) (P : List Instr)
    (hP : ∀ i ∈ P, i.isPlain = true) :
    ∀ (x : Nat) (m : Machine) (count : Nat), (∀ j, j < P.length → code[x + j]? = P[j]?) →
      m.pc = x → (target ≤ x ∨ x + P.length < target) →
      ∃ m1, Machine.Reaches code target (m, count) (m1, count) ∧ m1.pc = x + P.length
        ∧ ∀ r, (∀ i ∈ P, i.destination ≠ some (.reg r)) → m1.regs r = m.regs r := by
  induction P with
  | nil =>
      intro x m count _ hpc _
      exact ⟨m, Machine.Reaches.refl _ _ _, by simpa using hpc, fun _ _ => rfl⟩
  | cons i P ih =>
      intro x m count hget hpc ht
      have hi : code[m.pc]? = some i := by
        have := hget 0 (by simp)
        simpa [hpc] using this
      obtain ⟨m1, he, hpc1, hframe1⟩ := Machine.exec_plain code m i (hP i (List.mem_cons_self _ _))
      have hstep := Machine.Reaches.step target count hi he
      have hne : m1.pc ≠ target := by
        simp only [List.length_cons] at ht
        omega
      rw [if_neg hne] at hstep
      obtain ⟨m2, hreach, hpc2, hframe2⟩ := ih (fun j hj => hP j (List.mem_cons_of_mem _ hj))
        (x + 1) m1 count
        (fun j hj => by
          have := hget (j + 1) (by simp; omega)
          rw [show x + 1 + j = x + (j + 1) by omega, this]
          simp)
        (by omega) (by simp only [List.length_cons] at ht; omega)
      refine ⟨m2, hstep.trans hreach, by simp only [List.length_cons]; omega, ?_⟩
      intro r hr
      rw [hframe2 r (fun j hj => hr j (List.mem_cons_of_mem _ hj)),
        hframe1 r (hr i (List.mem_cons_self _ _))]
theorem Example.straightLine_exit (C B : List Instr) (cReg : Reg) (e : Int)
    (hC : ∀ i ∈ C, i.isPlain = true) (hB : ∀ i ∈ B, i.isPlain = true)
    (regs : Reg → Int) (flags : Int × Int) (ef : Nat → Int) (count : Nat)
    (hzero : regs cReg = 0) :
    Machine.Reaches (Example.straightLineCode C B cReg e) (C.length + 17)
        (⟨regs, flags, ef, C.length + 3⟩, count)
        (⟨regs, (0, 0), ef, C.length + 19 + B.length⟩, count) := by
  obtain ⟨-, -, -, -, h3, h4, h5, h6, h7, h8, h9, h10, h11, h12, h13, h14, h15, h16, -, h17,
    h18, h19, ⟨hm0, hi0⟩, ⟨hm1, hi1⟩, ⟨hm2, hi2⟩⟩ :=
    Example.straightLineCode_layout C B cReg e hC hB
  generalize Example.straightLineCode C B cReg e = code at *
  have hw : wrap32 0 = 0 := wrap32_small _ (by norm_num) (by norm_num)
  have ht1 : ¬ (C.length + 18 + B.length = C.length + 17) := by omega
  have ht2 : ¬ (C.length + 19 + B.length = C.length + 17) := by omega
  refine ⟨4, ?_⟩
  simp [Machine.runCounting, Machine.step, Machine.exec, Machine.next, Machine.value,
    Instr.jumpTaken, Instr.target, h3, h4, h5, h18, hm1, hi1, hzero, hw, ht1, ht2]
  omega

theorem Instr.jumpTaken_jb (k : Nat) (hk : k + 1 < 10000000) :
    (Instr.jb 2).jumpTaken ((k : Int) + 1) 10000000 = some true := by
  show some (decide (((k : Int) + 1) % 2 ^ 32 < 10000000 % 2 ^ 32)) = some true
  rw [decide_eq_true]
  omega

theorem Machine.step_jump_taken (code : List Instr) (m : Machine) (i : Instr) (l : Label)
    (hi : code[m.pc]? = some i) (ht : i.jumpTaken m.flags.1 m.flags.2 = some true)
    (hl : i.target = some l) (hm : Instr.bind l ∈ code) :
    m.step code = some { m with pc := code.indexOf (Instr.bind l) } := by
  cases i <;> simp only [Instr.target, Option.some.injEq, reduceCtorEq] at hl <;>
    subst hl <;> simp [Machine.step, hi, Machine.exec, ht, Instr.target, hm]

theorem Example.straightLine_ok (C B : List Instr) (cReg : Reg) (e : Int)
    (hC : ∀ i ∈ C, i.isPlain = true) (hB : ∀ i ∈ B, i.isPlain = true)
    (regs : Reg → Int) (flags : Int × Int) (ef : Nat → Int) (count k : Nat)
    (hnonzero : regs cReg ≠ 0) (hregs : regs 0 = k) (hk : k + 1 < 10000000) :
    Machine.Reaches (Example.straightLineCode C B cReg e) (C.length + 17)
        (⟨regs, flags, ef, C.length + 3⟩, count)
        (⟨fun x => if x = 0 then (k : Int) + 1 else regs x, ((k : Int) + 1, 10000000),
            ef, C.length + 17⟩, count + 1) := by
  obtain ⟨-, -, -, -, h3, h4, h5, h6, h7, h8, h9, h10, h11, h12, h13, h14, h15, h16, -, h17,
    h18, h19, ⟨hm0, hi0⟩, ⟨hm1, hi1⟩, ⟨hm2, hi2⟩⟩ :=
    Example.straightLineCode_layout C B cReg e hC hB
  generalize Example.straightLineCode C B cReg e = code at *
  have hw : wrap32 0 = 0 := wrap32_small _ (by norm_num) (by norm_num)
  have hw2 : wrap32 10000000 = 10000000 := wrap32_small _ (by norm_num) (by norm_num)
  have hw1 : wrap32 ((k : Int) + 1) = (k : Int) + 1 := wrap32_small _ (by omega) (by omega)
  have hA : Machine.Reaches code (C.length + 17) (⟨regs, flags, ef, C.length + 3⟩, count)
      (⟨fun x => if x = 0 then (k : Int) + 1 else regs x, ((k : Int) + 1, 10000000), ef,
        C.length + 8⟩, count) := by
    refine ⟨5, ?_⟩
    simp [Machine.runCounting, Machine.step, Machine.exec, Machine.next, Machine.value,
      Machine.write, Instr.jumpTaken, Instr.target, h3, h4, h5, h6, h7, hnonzero, hregs, hw,
      hw1, hw2]
  have hB1 : Machine.Reaches code (C.length + 17)
      (⟨fun x => if x = 0 then (k : Int) + 1 else regs x, ((k : Int) + 1, 10000000), ef,
        C.length + 8⟩, count)
      (⟨fun x => if x = 0 then (k : Int) + 1 else regs x, ((k : Int) + 1, 10000000), ef,
        C.length + 16⟩, count) := by
    refine ⟨1, ?_⟩
    have hs := Machine.step_jump_taken code
      ⟨fun x => if x = 0 then (k : Int) + 1 else regs x, ((k : Int) + 1, 10000000), ef,
        C.length + 8⟩ (Instr.jb 2) 2 h8 (Instr.jumpTaken_jb k hk) rfl hm2
    simp only [Machine.runCounting, hs, hi2]
    simp
  have hB2 : Machine.Reaches code (C.length + 17)
      (⟨fun x => if x = 0 then (k : Int) + 1 else regs x, ((k : Int) + 1, 10000000), ef,
        C.length + 16⟩, count)
      (⟨fun x => if x = 0 then (k : Int) + 1 else regs x, ((k : Int) + 1, 10000000), ef,
        C.length + 17⟩, count + 1) := by
    refine ⟨1, ?_⟩
    simp [Machine.runCounting, Machine.step, Machine.exec, Machine.next, h16]
  exact (hA.trans hB1).trans hB2

theorem Example.straightLine_error (C B : List Instr) (cReg : Reg) (e : Int)
    (hC : ∀ i ∈ C, i.isPlain = true) (hB : ∀ i ∈ B, i.isPlain = true)
    (regs : Reg → Int) (flags : Int × Int) (ef : Nat → Int) (count : Nat)
    (hnonzero : regs cReg ≠ 0) (hregs : regs 0 = 9999999) :
    Machine.Reaches (Example.straightLineCode C B cReg e) (C.length + 17)
        (⟨regs, flags, ef, C.length + 3⟩, count)
        (⟨fun x => if x = 0 then 1 else regs x, (10000000, 10000000),
            fun x => if x = 8 then 1 else if x = 4 then 1 else if x = 0 then wrap32 e
              else ef x,
            C.length + 19 + B.length⟩, count) := by
  obtain ⟨-, -, -, -, h3, h4, h5, h6, h7, h8, h9, h10, h11, h12, h13, h14, h15, h16, -, h17,
    h18, h19, ⟨hm0, hi0⟩, ⟨hm1, hi1⟩, ⟨hm2, hi2⟩⟩ :=
    Example.straightLineCode_layout C B cReg e hC hB
  generalize Example.straightLineCode C B cReg e = code at *
  have hw : wrap32 0 = 0 := wrap32_small _ (by norm_num) (by norm_num)
  have hw2 : wrap32 10000000 = 10000000 := wrap32_small _ (by norm_num) (by norm_num)
  have hw1 : wrap32 1 = 1 := wrap32_small _ (by norm_num) (by norm_num)
  have ht1 : ¬ (C.length + 18 + B.length = C.length + 17) := by omega
  have ht2 : ¬ (C.length + 19 + B.length = C.length + 17) := by omega
  refine ⟨14, ?_⟩
  simp [Machine.runCounting, Machine.step, Machine.exec, Machine.next, Machine.value,
    Machine.write, Instr.jumpTaken, Instr.target, h3, h4, h5, h6, h7, h8, h9, h10, h11, h12,
    h13, h14, h15, h18, hm1, hi1, hnonzero, hregs, hw, hw1, hw2, ht1, ht2]
  refine ⟨⟨?_, by omega⟩, by omega⟩
  funext x
  by_cases hx : x = 0 <;> simp [hx]
theorem Machine.Reaches.jump {code : List Instr} (target : Nat) (m : Machine) (i : Instr)
    (l : Label) (count : Nat) (hi : code[m.pc]? = some i)
    (ht : i.jumpTaken m.flags.1 m.flags.2 = some true) (hl : i.target = some l)
    (hm : Instr.bind l ∈ code) (hne : code.indexOf (Instr.bind l) ≠ target) :
    Machine.Reaches code target (m, count)
      ({ m with pc := code.indexOf (Instr.bind l) }, count) := by
  refine ⟨1, ?_⟩
  simp [Machine.runCounting, Machine.step_jump_taken code m i l hi ht hl hm, hne]

theorem Example.straightLine_loop (C B : List Instr) (cReg : Reg) (e : Int)
    (hC : ∀ i ∈ C, i.isPlain = true ∧ i.destination ≠ some (.reg 0))
    (hB : ∀ i ∈ B, i.isPlain = true ∧ i.destination ≠ some (.reg 0)) :
    ∀ (d k : Nat), k + d = 9999999 → ∀ (regs : Reg → Int) (flags : Int × Int) (ef : Nat → Int),
      regs 0 = k →
      ∃ (m : Machine) (count : Nat),
        Machine.Reaches (Example.straightLineCode C B cReg e) (C.length + 17)
          (⟨regs, flags, ef, 2⟩, k) (m, count)
        ∧ m.pc = C.length + 19 + B.length
        ∧ count ≤ 9999999
        ∧ ((m.regs 0 = count ∧ m.regs cReg = 0)
            ∨ (count = 9999999 ∧ m.errorFlag 0 = wrap32 e ∧ m.errorFlag 4 = 1
                ∧ m.errorFlag 8 = 1))
        ∧ ∀ r, r ≠ 0 → (∀ i ∈ C, i.destination ≠ some (.reg r)) →
            (∀ i ∈ B, i.destination ≠ some (.reg r)) → m.regs r = regs r := by
  have hCp : ∀ i ∈ C, i.isPlain = true := fun i hi => (hC i hi).1
  have hBp : ∀ i ∈ B, i.isPlain = true := fun i hi => (hB i hi).1
  obtain ⟨-, -, h2, hgC, -, -, -, -, -, -, -, -, -, -, -, -, -, -, hgB, h17, -, -, ⟨hm0, hi0⟩,
    -, -⟩ := Example.straightLineCode_layout C B cReg e hCp hBp
  intro d
  induction d with
  | zero =>
      intro k hk regs flags ef hregs
      have hhead : Machine.Reaches (Example.straightLineCode C B cReg e) (C.length + 17)
          (⟨regs, flags, ef, 2⟩, k) (⟨regs, flags, ef, 3⟩, k) := by
        refine ⟨1, ?_⟩
        simp [Machine.runCounting, Machine.step, Machine.exec, Machine.next, h2]
      obtain ⟨m1, hr1, hpc1, hf1⟩ := Machine.reaches_plain
        (Example.straightLineCode C B cReg e) (C.length + 17) C hCp 3 ⟨regs, flags, ef, 3⟩ k
        hgC rfl (Or.inr (by omega))
      obtain ⟨regs1, flags1, ef1, pc1⟩ := m1
      simp only at hpc1 hf1
      have hpc1 : pc1 = C.length + 3 := by omega
      subst hpc1
      have hregs1 : regs1 0 = k := by
        rw [hf1 0 (fun i hi => (hC i hi).2)]
        exact hregs
      by_cases hz : regs1 cReg = 0
      · refine ⟨_, k, (hhead.trans hr1).trans
          (Example.straightLine_exit C B cReg e hCp hBp regs1 flags1 ef1 k hz), rfl,
          by omega, Or.inl ⟨hregs1, hz⟩, ?_⟩
        intro r _ hrC _
        exact hf1 r hrC
      · have hk9 : k = 9999999 := by omega
        have hregs9 : regs1 0 = 9999999 := by
          rw [hregs1, hk9]
          rfl
        refine ⟨_, k, (hhead.trans hr1).trans
          (Example.straightLine_error C B cReg e hCp hBp regs1 flags1 ef1 k hz hregs9), rfl,
          by omega, Or.inr ⟨hk9, ?_, ?_, ?_⟩, ?_⟩
        · simp
        · simp
        · simp
        · intro r hr hrC _
          simp only [hr, if_false]
          exact hf1 r hrC
  | succ d ih =>
      intro k hk regs flags ef hregs
      have hhead : Machine.Reaches (Example.straightLineCode C B cReg e) (C.length + 17)
          (⟨regs, flags, ef, 2⟩, k) (⟨regs, flags, ef, 3⟩, k) := by
        refine ⟨1, ?_⟩
        simp [Machine.runCounting, Machine.step, Machine.exec, Machine.next, h2]
      obtain ⟨m1, hr1, hpc1, hf1⟩ := Machine.reaches_plain
        (Example.straightLineCode C B cReg e) (C.length + 17) C hCp 3 ⟨regs, flags, ef, 3⟩ k
        hgC rfl (Or.inr (by omega))
      obtain ⟨regs1, flags1, ef1, pc1⟩ := m1
      simp only at hpc1 hf1
      have hpc1 : pc1 = C.length + 3 := by omega
      subst hpc1
      have hregs1 : regs1 0 = k := by
        rw [hf1 0 (fun i hi => (hC i hi).2)]
        exact hregs
      by_cases hz : regs1 cReg = 0
      · refine ⟨_, k, (hhead.trans hr1).trans
          (Example.straightLine_exit C B cReg e hCp hBp regs1 flags1 ef1 k hz), rfl,
          by omega, Or.inl ⟨hregs1, hz⟩, ?_⟩
        intro r _ hrC _
        exact hf1 r hrC
      · have hok := Example.straightLine_ok C B cReg e hCp hBp regs1 flags1 ef1 k k hz hregs1
          (by omega)
        obtain ⟨m3, hr3, hpc3, hf3⟩ := Machine.reaches_plain
          (Example.straightLineCode C B cReg e) (C.length + 17) B hBp (C.length + 17)
          ⟨fun x => if x = 0 then (k : Int) + 1 else regs1 x, ((k : Int) + 1, 10000000), ef1,
            C.length + 17⟩ (k + 1) hgB rfl (Or.inl (le_refl _))
        have hjump := Machine.Reaches.jump (C.length + 17) m3 (Instr.jmp 0) 0 (k + 1)
          (by rw [hpc3]; exact h17) rfl rfl hm0 (by rw [hi0]; omega)
        rw [hi0] at hjump
        have hregs3 : m3.regs 0 = ((k + 1 : Nat) : Int) := by
          rw [hf3 0 (fun i hi => (hB i hi).2)]
          simp
        obtain ⟨m, count, hr, hpc, hcount, hcases, hframe⟩ := ih (k + 1) (by omega) m3.regs
          m3.flags m3.errorFlag hregs3
        refine ⟨m, count, ((((hhead.trans hr1).trans hok).trans hr3).trans hjump).trans hr,
          hpc, hcount, hcases, ?_⟩
        intro r hr0 hrC hrB
        rw [hframe r hr0 hrC hrB, hf3 r hrB]
        simp only [hr0, if_false]
        exact hf1 r hrC
theorem Int.xor_same (v : Int) : Int.xor v v = 0 := by
  cases v <;> simp [Int.xor]

theorem Example.straightLineCode_length (C B : List Instr) (cReg : Reg) (e : Int) :
    (Example.straightLineCode C B cReg e).length = C.length + 19 + B.length := by
  rw [Example.straightLineCode_eq]
  simp
  omega

theorem Example.straightLine_run (C B : List Instr) (cReg : Reg) (e : Int)
    (hC : ∀ i ∈ C, i.isPlain = true ∧ i.destination ≠ some (.reg 0))
    (hB : ∀ i ∈ B, i.isPlain = true ∧ i.destination ≠ some (.reg 0))
    (m0 : Machine) (hpc : m0.pc = 0) :
    ∃ (fuel : Nat) (m : Machine) (count : Nat),
      (∀ n, fuel ≤ n →
        Machine.runCounting (Example.straightLineCode C B cReg e) (C.length + 17) n m0 0
          = (m, count))
      ∧ m.pc = (Example.straightLineCode C B cReg e).length
      ∧ count ≤ 9999999
      ∧ ((m.regs 0 = count ∧ m.regs cReg = 0)
          ∨ (count = 9999999 ∧ m.errorFlag 0 = wrap32 e ∧ m.errorFlag 4 = 1
              ∧ m.errorFlag 8 = 1))
      ∧ ∀ r, r ≠ 0 → (∀ i ∈ C, i.destination ≠ some (.reg r)) →
          (∀ i ∈ B, i.destination ≠ some (.reg r)) → m.regs r = m0.regs r := by
  have hCp : ∀ i ∈ C, i.isPlain = true := fun i hi => (hC i hi).1
  have hBp : ∀ i ∈ B, i.isPlain = true := fun i hi => (hB i hi).1
  obtain ⟨h0, h1, -, -, -, -, -, -, -, -, -, -, -, -, -, -, -, -, -, -, -, h19, -, -, -⟩ :=
    Example.straightLineCode_layout C B cReg e hCp hBp
  obtain ⟨regs, flags, ef, pc⟩ := m0
  simp only at hpc
  subst hpc
  have hhead : Machine.Reaches (Example.straightLineCode C B cReg e) (C.length + 17)
      (⟨regs, flags, ef, 0⟩, 0)
      (⟨fun x => if x = 0 then 0 else regs x, flags, ef, 2⟩, 0) := by
    refine ⟨2, ?_⟩
    simp [Machine.runCounting, Machine.step, Machine.exec, Machine.next, Machine.write,
      Machine.value, h0, h1, Int.xor_same]
  obtain ⟨m, count, hr, hpcm, hcount, hcases, hframe⟩ :=
    Example.straightLine_loop C B cReg e hC hB 9999999 0 (by omega)
      (fun x => if x = 0 then 0 else regs x) flags ef (by simp)
  obtain ⟨fuel, hfuel⟩ := hhead.trans hr
  have hhalt : m.step (Example.straightLineCode C B cReg e) = none := by
    simp [Machine.step, hpcm, h19]
  refine ⟨fuel, m, count, ?_, by rw [hpcm, Example.straightLineCode_length], hcount, hcases,
    ?_⟩
  · intro n hn
    obtain ⟨j, rfl⟩ := Nat.exists_eq_add_of_le hn
    rw [Machine.runCounting_add]
    simp only at hfuel
    rw [hfuel]
    exact Machine.runCounting_halted _ _ m hhalt j count
  · intro r hr0 hrC hrB
    rw [hframe r hr0 hrC hrB]
    simp [hr0]
/-- Claim C25: the code generation of `WhileLoop::process`, whenever it returns, has
processed the condition after `nop; bind cond` and the body after the exit test. With
the runtime error check enabled the register `why` is cleared before `bind cond`, and
between the exit test and the body the loop emits `inc why; cmp why, 10000000;
jb okBranch`, then the writes of the `WhileLoop` error code, the line and the column of
the loop through `why` to the 4 byte operands at the offsets 0, 4 and 8 of the runtime
error flag, `jmp exit` and `bind okBranch`. With the check disabled the loop emits
nothing else before the condition and nothing between the exit test and the body, and no
instruction it emits writes a register or the error flag. Executed on the machine, the
code of `while (x) {}` with straight-line code for the condition and the body (not
writing `why`) halts at its end for every start state, the body has then been entered at
most 9999999 times, and either the loop was left by its condition with `why` equal to
the number of entries, or the body was entered 9999999 times and the error code, the
line and the column of the loop stand at the offsets 0, 4 and 8 of the error flag. -/
theorem WhileLoop_safe_check_limits_iterations (c : Compiler) (self self1 : Stmt)
    (st st1 : CompileState) (conditionCode bodyCode : List Instr) (cReg : Reg)
    (errorCode : Int) (m0 : Machine)
    (hgen : WhileLoop.codeGeneration c self st = .ok (self1, st1))
    (hcondition : ∀ i ∈ conditionCode, i.isPlain = true ∧ i.destination ≠ some (.reg 0))
    (hbody : ∀ i ∈ bodyCode, i.isPlain = true ∧ i.destination ≠ some (.reg 0))
    (hpc : m0.pc = 0) :
    (∃ (condition condition1 body body1 : Stmt) (st2 st3 : CompileState) (test : List Instr),
      c.processChild .CodeGeneration condition
          (WhileLoop.headState c.isRuntimeErrorCheckEnabled st) = .ok (condition1, st2)
      ∧ ((∃ op, test = WhileLoop.compareJumps op (st.nextLabel + 1))
          ∨ (∃ r, test = WhileLoop.registerTest r (st.nextLabel + 1)))
      ∧ c.processChild .CodeGeneration body (WhileLoop.bodyState c self.location st test st2)
          = .ok (body1, st3)
      ∧ st1.code = st3.code ++ [.jmp st.nextLabel, .bind (st.nextLabel + 1)]
      ∧ (c.isRuntimeErrorCheckEnabled = true →
          (WhileLoop.headState c.isRuntimeErrorCheckEnabled st).code
            = st.code ++ [.xor_ (.reg st.nextReg) (.reg st.nextReg), .nop, .bind st.nextLabel]
          ∧ (WhileLoop.bodyState c self.location st test st2).code
            = st2.code ++ test
              ++ [.inc (.reg st.nextReg), .cmp (.reg st.nextReg) (.imm 10000000),
                  .jb st2.nextLabel,
                  .mov (.reg st.nextReg) (.imm c.whileLoopErrorCode),
                  .mov (.errorFlag 0 4) (.reg st.nextReg),
                  .mov (.reg st.nextReg) (.imm self.location.line),
                  .mov (.errorFlag 4 4) (.reg st.nextReg),
                  .mov (.reg st.nextReg) (.imm self.location.col),
                  .mov (.errorFlag 8 4) (.reg st.nextReg),
                  .jmp (st.nextLabel + 1), .bind st2.nextLabel])
      ∧ (c.isRuntimeErrorCheckEnabled = false →
          (WhileLoop.headState c.isRuntimeErrorCheckEnabled st).code
            = st.code ++ [.nop, .bind st.nextLabel]
          ∧ (WhileLoop.bodyState c self.location st test st2).code = st2.code ++ test
          ∧ ∀ i ∈ WhileLoop.ownCode c self.location st test st2, i.destination = none))
    ∧ ∃ (fuel : Nat) (m : Machine) (count : Nat),
      (∀ n, fuel ≤ n →
        Machine.runCounting (Example.straightLineCode conditionCode bodyCode cReg errorCode)
          (conditionCode.length + 17) n m0 0 = (m, count))
      ∧ m.pc = (Example.straightLineCode conditionCode bodyCode cReg errorCode).length
      ∧ count ≤ 9999999
      ∧ ((m.regs 0 = count ∧ m.regs cReg = 0)
          ∨ (count = 9999999 ∧ m.errorFlag 0 = wrap32 errorCode
              ∧ m.errorFlag 4 = Example.loc.line ∧ m.errorFlag 8 = Example.loc.col))
      ∧ ∀ r, r ≠ 0 → (∀ i ∈ conditionCode, i.destination ≠ some (.reg r)) →
          (∀ i ∈ bodyCode, i.destination ≠ some (.reg r)) → m.regs r = m0.regs r := by
  refine ⟨?_, by
    simpa [Example.loc] using
      Example.straightLine_run conditionCode bodyCode cReg errorCode hcondition hbody m0 hpc⟩
  obtain ⟨condition, condition1, body, body1, st2, st3, test, hc, htest, hb, hst1⟩ :=
    WhileLoop.codeGeneration_ok c self self1 st st1 hgen
  have htest2 : (∃ op, test = WhileLoop.compareJumps op (st.nextLabel + 1))
      ∨ (∃ r, test = WhileLoop.registerTest r (st.nextLabel + 1)) := by
    rcases htest with ⟨op, -, h⟩ | ⟨-, r, -, h⟩
    · exact Or.inl ⟨op, h⟩
    · exact Or.inr ⟨r, h⟩
  refine ⟨condition, condition1, body, body1, st2, st3, test, hc, htest2, hb, ?_, ?_, ?_⟩
  · rw [hst1]
  · intro hs
    simp [WhileLoop.headState, WhileLoop.bodyState, WhileLoop.safeCheckCode, hs]
  · intro hs
    refine ⟨by simp [WhileLoop.headState, hs], by simp [WhileLoop.bodyState, hs], ?_⟩
    intro i hi
    have hmem : i ∈ [Instr.nop, Instr.bind st.nextLabel] ++ test
        ++ [Instr.jmp st.nextLabel, Instr.bind (st.nextLabel + 1)] := by
      simpa [WhileLoop.ownCode, hs] using hi
    simp only [List.mem_append, List.mem_cons, List.mem_singleton, List.not_mem_nil,
      or_false] at hmem
    rcases hmem with ((rfl | rfl) | hi) | (rfl | rfl)
    · rfl
    · rfl
    · rcases htest2 with ⟨op, rfl⟩ | ⟨r, rfl⟩
      · simp only [WhileLoop.compareJumps, List.mem_append] at hi
        rcases hi with ((((hi | hi) | hi) | hi) | hi) | hi <;>
          split at hi <;> simp at hi <;> subst hi <;> rfl
      · simp only [WhileLoop.registerTest, List.mem_cons, List.mem_singleton,
          List.not_mem_nil, or_false] at hi
        rcases hi with rfl | rfl | rfl <;> rfl
    · rfl
    · rfl

theorem WhileLoop_safe_check_limits_iterations_witness :
    ∃ (fuel : Nat) (m : Machine),
      (∀ n, fuel ≤ n →
        Machine.runCounting (Example.straightLineCode [] [] 7 3) 17 n
          ⟨fun _ => 1, (0, 0), fun _ => 0, 0⟩ 0 = (m, 9999999))
      ∧ m.pc = 19 ∧ m.errorFlag 0 = 3 ∧ m.errorFlag 4 = 1 ∧ m.errorFlag 8 = 1 := by
  obtain ⟨-, fuel, m, count, hrun, hpc, -, hcases, hframe⟩ :=
    WhileLoop_safe_check_limits_iterations (Example.straightLineCompiler [] [] 7 3)
      Example.whileX Example.whileX CompileState.empty
      { warnings := []
        code := [Instr.xor_ (.reg 0) (.reg 0), .nop, .bind 0] ++ []
          ++ (WhileLoop.registerTest 7 1
              ++ WhileLoop.safeCheckCode (Example.straightLineCompiler [] [] 7 3)
                  Example.loc 0 1 2)
          ++ [] ++ [.jmp 0, .bind 1]
        nextLabel := 3
        nextReg := 1 }
      [] [] 7 3 ⟨fun _ => 1, (0, 0), fun _ => 0, 0⟩
      (WhileLoop.codeGeneration_straightLine [] [] 7 3)
      (fun i hi => by cases hi) (fun i hi => by cases hi) rfl
  have h7 : m.regs 7 = 1 := hframe 7 (by decide) (fun i hi => by cases hi)
    (fun i hi => by cases hi)
  rcases hcases with ⟨-, hzero⟩ | ⟨hcount, he0, he4, he8⟩
  · rw [h7] at hzero
    exact absurd hzero (by decide)
  · subst hcount
    refine ⟨fuel, m, hrun, ?_, ?_, by rw [he4]; rfl, by rw [he8]; rfl⟩
    · rw [hpc, Example.straightLineCode_length]
      rfl
    · rw [he0]
      exact wrap32_small _ (by norm_num) (by norm_num)

end jit
end snex
